import Mathlib

/-! # ChiralScroll: frame assembler, gesture sessions and scroll arbiter

A shallow embedding of the core of `okibcn/ChiralScroll`
(`HidUtils.cpp`, `TouchSession.cpp`, `ChiralScroll.cpp`, `Settings.cpp`, `Vector.h`)
together with theorems about it.

Conventions of the embedding.

* C++ objects mutated in place become explicit state passing: a member function
  returns the new object next to its result.
* `ULONG`/`LONG`/`int` values are `Nat`/`Int`; where the source converts between
  signedness the wrap modulo `2^32` is written out.
* A thrown `ChiralScrollException` is the `Except.error` result; the object state at
  the moment of the throw is returned next to it.
* Calls on a `Scroller` (the scroll sink) are recorded as a list of `SinkEvent`s in
  program order.
-/

namespace chiralscroll

/-! ## HidUtils.h: contacts and slot geometry -/

/-- The struct `TouchDevice::ContactInfo::Area`. -/
structure Area where
  top : Int
  bottom : Int
  left : Int
  right : Int
deriving DecidableEq, Repr

/-- The struct `TouchDevice::ContactInfo`: geometry of one contact slot (link collection). -/
structure ContactInfo where
  link : Nat
  logicalArea : Area
  physicalArea : Area
deriving DecidableEq, Repr

/-- The struct `TouchDevice::Contact`. -/
structure Contact where
  id : Nat
  contactInfoLink : Nat
  isTouch : Bool
  confidence : Bool
  logicalX : Nat
  logicalY : Nat
  physicalX : Int
  physicalY : Int
deriving DecidableEq, Repr

/-- The class `ChiralScrollException`, reduced to its message. -/
structure ChiralScrollException where
  msg : String
deriving DecidableEq, Repr

/-- The values the HID parser (`HidP_GetUsageValue`, `HidP_GetScaledUsageValue`,
`HidP_GetUsages`) yields for one link collection of a report.  `contactId` is `none`
when the parser answers `HIDP_STATUS_USAGE_NOT_FOUND` for the contact identifier. -/
structure SlotSample where
  contactId : Option Nat
  isTouch : Bool
  confidence : Bool
  logicalX : Nat
  logicalY : Nat
  physicalX : Int
  physicalY : Int
deriving DecidableEq, Repr

/-- The struct `HidData` as seen through the HID parser: the contact-count usage value
and the per-link values.  Raw report decoding is a Windows service and is not modelled;
its calls are taken to succeed. -/
structure HidData where
  contactCount : Nat
  slot : Nat → SlotSample

/-! ## HidUtils.cpp: the frame builder -/

/-- The struct `TouchDevice::FrameBuilder`. -/
structure FrameBuilder where
  expectedContactCount_ : Nat
  contacts_ : List Contact
  lastContacts_ : List Contact
  panicOnUnexpectedInput_ : Bool
deriving DecidableEq, Repr

namespace FrameBuilder

/-- The constructor `FrameBuilder(bool panicOnUnexpectedInput)`. -/
def ctor (panicOnUnexpectedInput : Bool) : FrameBuilder :=
  { expectedContactCount_ := 0
    contacts_ := []
    lastContacts_ := []
    panicOnUnexpectedInput_ := panicOnUnexpectedInput }

/-- Member `FrameBuilder::Start`: records the expected count (`reserve` has no observable
effect on the contents of `contacts_`). -/
def Start (fb : FrameBuilder) (expectedContactCount : Nat) : FrameBuilder :=
  { fb with expectedContactCount_ := expectedContactCount }

/-- Member `FrameBuilder::InProgress`. -/
def InProgress (fb : FrameBuilder) : Bool :=
  fb.expectedContactCount_ != 0

/-- Member `FrameBuilder::FinishFrame`.  `erase(remove_if(..))` keeps, in order, the elements
on which the predicate is false.  On the throwing path the object keeps the filtered
`contacts_` and its expected count.  On the returning path `contacts_` has been moved
from, which leaves a `std::vector` empty. -/
def FinishFrame (fb : FrameBuilder) :
    FrameBuilder × Except ChiralScrollException (List Contact) :=
  let contacts := fb.contacts_.filter (fun contact =>
    !(!contact.isTouch &&
      fb.lastContacts_.all (fun oldContact =>
        !(oldContact.id == contact.id &&
          oldContact.logicalX == contact.logicalX &&
          oldContact.logicalY == contact.logicalY))))
  let fb1 := { fb with contacts_ := contacts }
  let done : FrameBuilder :=
    { fb1 with expectedContactCount_ := 0, lastContacts_ := contacts, contacts_ := [] }
  if contacts.length != fb1.expectedContactCount_ then
    let msg := "Wrong number of contacts in frame. Expected " ++
      toString fb1.expectedContactCount_ ++ ", got " ++ toString contacts.length ++ "."
    if fb1.panicOnUnexpectedInput_ then
      (fb1, Except.error ⟨msg⟩)
    else
      (done, Except.ok contacts)
  else
    (done, Except.ok contacts)

/-- Member `FrameBuilder::AddReport`. -/
def AddReport (fb : FrameBuilder) (newContacts : List Contact) :
    FrameBuilder × Except ChiralScrollException (Option (List Contact)) :=
  let fb1 := { fb with contacts_ := fb.contacts_ ++ newContacts }
  if fb1.contacts_.length ≥ fb1.expectedContactCount_ then
    match FinishFrame fb1 with
    | (fb2, Except.ok frame) => (fb2, Except.ok (some frame))
    | (fb2, Except.error e) => (fb2, Except.error e)
  else
    (fb1, Except.ok none)

end FrameBuilder

/-! ## HidUtils.cpp: the touch device -/

/-- The class `TouchDevice`: `addr` stands for the object's address (the arbiter
compares devices by address), `name` for `RawInputDevice::name_`. -/
structure TouchDevice where
  addr : Nat
  name : String
  contactInfo_ : List ContactInfo
  linkContactCount_ : Nat
  frameBuilder_ : FrameBuilder
deriving DecidableEq, Repr

namespace TouchDevice

/-- Member `TouchDevice::GetContactInfo`: `std::find_if` over the slots; dereferencing the end
iterator (no slot with this link) is undefined behaviour, rendered as `none`. -/
def GetContactInfo (dev : TouchDevice) (link : Nat) : Option ContactInfo :=
  dev.contactInfo_.find? (fun info => info.link == link)

/-- Member `TouchDevice::GetContactsInReport`: one contact per slot whose contact identifier is
present in this report, in slot order. -/
def GetContactsInReport (dev : TouchDevice) (hidData : HidData) : List Contact :=
  dev.contactInfo_.filterMap (fun contactInfo =>
    match (hidData.slot contactInfo.link).contactId with
    | some contactId =>
      let s := hidData.slot contactInfo.link
      some { id := contactId
             contactInfoLink := contactInfo.link
             isTouch := s.isTouch
             confidence := s.confidence
             logicalX := s.logicalX
             logicalY := s.logicalY
             physicalX := s.physicalX
             physicalY := s.physicalY }
    | none => none)

/-- Member `TouchDevice::GetContacts`. -/
def GetContacts (dev : TouchDevice) (hidData : HidData) :
    TouchDevice × Except ChiralScrollException (Option (List Contact)) :=
  let contactCount := hidData.contactCount
  let addReport (fb : FrameBuilder) :=
    let contacts := dev.GetContactsInReport hidData
    let r := fb.AddReport contacts
    ({ dev with frameBuilder_ := r.1 }, r.2)
  if !dev.frameBuilder_.InProgress then
    if contactCount == 0 then
      (dev, Except.ok none)
    else
      addReport (dev.frameBuilder_.Start contactCount)
  else
    addReport dev.frameBuilder_

/-- Feeds a sequence of reports to `GetContacts`, collecting the results in order. -/
def feed (dev : TouchDevice) :
    List HidData → TouchDevice × List (Except ChiralScrollException (Option (List Contact)))
  | [] => (dev, [])
  | h :: hs =>
    let r := dev.GetContacts h
    let rest := feed r.1 hs
    (rest.1, r.2 :: rest.2)

end TouchDevice

/-! ## Floating-point interface

The source computes with `float` and `double`.  Their arithmetic is taken as a
parameter: a carrier `R` holding the `double` values (every `float` is one of them, so
the implicit promotions are the identity) and the operations below.  `+ - * /` and
unary `-` are the operations at `float` width, `mulD`/`divD` the products and quotients
the source evaluates at `double` width. -/

/-- The floating-point operations used by the source. -/
class FloatArith (R : Type) extends Add R, Sub R, Mul R, Div R, Neg R where
  /-- Product at `double` width. -/
  mulD : R → R → R
  /-- Quotient at `double` width. -/
  divD : R → R → R
  /-- The comparison `a < b`; `b > a` is the same test.  False when a side is a NaN. -/
  lt : R → R → Bool
  /-- The `float` denoted by a literal, or obtained by converting an integer. -/
  ofRat : ℚ → R
  /-- Conversion of a `LONG` to `double`. -/
  ofIntD : Int → R
  /-- Narrowing `static_cast<float>` of a `double`. -/
  toFloat : R → R
  /-- Truncating `static_cast<int>` of a `double`. -/
  toInt : R → Int
  /-- The library function `sqrt`. -/
  sqrt : R → R
  /-- The library function `acos`. -/
  acos : R → R

namespace FloatArith

/-- Conversion of an integer value to `float`. -/
def ofInt {R : Type} [FloatArith R] (n : Int) : R :=
  FloatArith.ofRat (n : ℚ)

end FloatArith

open FloatArith (ofInt)

/-! ## Vector.h -/

/-- The class template `Vector<T>`. -/
structure Vector (T : Type) where
  x_ : T
  y_ : T
deriving DecidableEq, Repr

namespace Vector

variable {T : Type}

/-- Binary `operator+`. -/
def add [Add T] (lhs rhs : Vector T) : Vector T :=
  ⟨lhs.x_ + rhs.x_, lhs.y_ + rhs.y_⟩

/-- Unary `operator-`. -/
def neg [Neg T] (v : Vector T) : Vector T :=
  ⟨-v.x_, -v.y_⟩

/-- Binary `operator-`. -/
def sub [Sub T] (lhs rhs : Vector T) : Vector T :=
  ⟨lhs.x_ - rhs.x_, lhs.y_ - rhs.y_⟩

/-- Dot product, `operator*(Vector, Vector)`. -/
def dot [Add T] [Mul T] (lhs rhs : Vector T) : T :=
  lhs.x_ * rhs.x_ + lhs.y_ * rhs.y_

/-- Scalar product with the scalar on the right, `operator*(Vector lhs, U rhs)`. -/
def mulScalar [Mul T] (lhs : Vector T) (rhs : T) : Vector T :=
  ⟨lhs.x_ * rhs, lhs.y_ * rhs⟩

/-- Scalar product with the scalar on the left, `operator*(U lhs, Vector rhs)`; the
source builds both components from `rhs.x_`. -/
def scalarMul [Mul T] (lhs : T) (rhs : Vector T) : Vector T :=
  ⟨lhs * rhs.x_, lhs * rhs.x_⟩

/-- Division by a scalar, `operator/(Vector lhs, U rhs)`. -/
def divScalar [Div T] (lhs : Vector T) (rhs : T) : Vector T :=
  ⟨lhs.x_ / rhs, lhs.y_ / rhs⟩

/-- Division `operator/` of a `Vector<LONG>` by a `float`: each component is converted
to `float` and divided. -/
def divLONG {R : Type} [FloatArith R] (lhs : Vector Int) (rhs : R) : Vector R :=
  ⟨ofInt lhs.x_ / rhs, ofInt lhs.y_ / rhs⟩

/-- Member `Norm2`. -/
def Norm2 [Add T] [Mul T] (v : Vector T) : T :=
  v.x_ * v.x_ + v.y_ * v.y_

/-- Member `Norm`. -/
def Norm {R : Type} [FloatArith R] (v : Vector R) : R :=
  FloatArith.sqrt v.Norm2

end Vector

/-! ## Scroller.h: the scroll sink -/

/-- The two `Scroller` objects owned by the arbiter, `vScroller_` and `hScroller_`. -/
inductive ScrollerRef where
  | vScroller_
  | hScroller_
deriving DecidableEq, Repr

/-- The three operations of the interface `Scroller`. -/
inductive ScrollerCall where
  | StartScrolling
  | Scroll (amt : Int)
  | StopScrolling
deriving DecidableEq, Repr

/-- One call on a scroll sink. -/
structure SinkEvent where
  scroller : ScrollerRef
  call : ScrollerCall
deriving DecidableEq, Repr

/-! ## Settings.h, Settings.cpp -/

/-- The struct `Settings::GlobalSettings`. -/
structure GlobalSettings (R : Type) where
  enabled : Bool
  startDeadzone : R
  startDeadzoneAngle : R
  moveDeadzone : R
  reverseDeadzone : R
  reverseDeadzoneAngle : R
  sensScalingFactor : R
deriving DecidableEq, Repr

/-- The struct `Settings::DeviceSettings`. -/
structure DeviceSettings (R : Type) where
  enabled : Bool
  typingLockoutMs : Int
  vScrollZone : R
  hScrollZone : R
  vSens : R
  hSens : R
deriving DecidableEq, Repr

/-- The class `Settings`; the hash map `deviceSettings_` is an association list with
one entry per key. -/
structure Settings (R : Type) where
  globalSettings_ : GlobalSettings R
  deviceSettings_ : List (String × DeviceSettings R)
deriving DecidableEq, Repr

/-- The device part of the constant `kDefaultSettings`. -/
def kDefaultSettings {R : Type} [FloatArith R] : DeviceSettings R :=
  { enabled := true
    typingLockoutMs := 500
    vScrollZone := FloatArith.ofRat (1 / 10)
    hScrollZone := FloatArith.ofRat (1 / 10)
    vSens := FloatArith.ofRat 10
    hSens := FloatArith.ofRat 10 }

namespace Settings

variable {R : Type} [FloatArith R]

/-- Member `Settings::GetGlobalSettings`. -/
def GetGlobalSettings (s : Settings R) : GlobalSettings R :=
  s.globalSettings_

/-- Member `Settings::GetDeviceSettings(deviceName)`: the stored entry, or a freshly
inserted default entry. -/
def GetDeviceSettings (s : Settings R) (deviceName : String) :
    Settings R × DeviceSettings R :=
  match s.deviceSettings_.lookup deviceName with
  | some settings => (s, settings)
  | none =>
    ({ s with deviceSettings_ := s.deviceSettings_ ++ [(deviceName, kDefaultSettings)] },
      kDefaultSettings)

end Settings

/-! ## TouchSession.h, TouchSession.cpp -/

/-- Conversion of a `ULONG` to `LONG` (two's complement, 32 bits). -/
def toLONG (x : Nat) : Int :=
  if x % 2 ^ 32 < 2 ^ 31 then ((x % 2 ^ 32 : Nat) : Int) else ((x % 2 ^ 32 : Nat) : Int) - 2 ^ 32

/-- The unsigned angle between two vectors, `AngleBetween` of `TouchSession.cpp`. -/
def AngleBetween {R : Type} [FloatArith R] (a b : Vector R) : R :=
  let x := FloatArith.acos (FloatArith.divD (a.dot b) (FloatArith.mulD a.Norm b.Norm))
  x

/-- The class `ScrollSession`.  `device_` is the address of the device the session
refers to and `scroller_` names the sink it is bound to.  The `float` member
`scrollDirection_` only ever holds `0.0f`, `1.0f` or `-1.0f` (it is initialised to
`0.0f`, assigned `1.0f` or `-1.0f`, and multiplied by `-1.0f`, all exact); it is kept
as the integer `0`, `1` or `-1`. -/
structure ScrollSession (R : Type) where
  device_ : Nat
  contactId_ : Nat
  contactInfo_ : ContactInfo
  direction_ : Vector R
  position_ : Vector R
  scrollDirection_ : Int
  sens_ : R
  settings_ : GlobalSettings R
  scroller_ : ScrollerRef
deriving DecidableEq, Repr

/-- Body of `ScrollSession::ScaleVector` for a given slot: the vector divided by the
logical height of the slot. -/
def scaleBy {R : Type} [FloatArith R] (contactInfo_ : ContactInfo) (vector : Vector Int) :
    Vector R :=
  vector.divLONG (ofInt (contactInfo_.logicalArea.bottom - contactInfo_.logicalArea.top))

namespace ScrollSession

variable {R : Type} [FloatArith R]

/-- Member `ScrollSession::ScaleVector`. -/
def ScaleVector (s : ScrollSession R) (vector : Vector Int) : Vector R :=
  scaleBy s.contactInfo_ vector

/-- The constructor of `ScrollSession`; `none` when `GetContactInfo` finds no slot. -/
def ctor (device : TouchDevice) (initialContact : Contact) (initialDirection : Vector R)
    (sens : R) (globalSettings : GlobalSettings R) (scroller : ScrollerRef) :
    Option (ScrollSession R) :=
  match device.GetContactInfo initialContact.contactInfoLink with
  | none => none
  | some contactInfo =>
    some { device_ := device.addr
           contactId_ := initialContact.id
           contactInfo_ := contactInfo
           direction_ := initialDirection
           position_ := scaleBy contactInfo
             ⟨toLONG initialContact.logicalX, toLONG initialContact.logicalY⟩
           scrollDirection_ := 0
           sens_ := sens
           settings_ := globalSettings
           scroller_ := scroller }

/-- The destructor `~ScrollSession`. -/
def dtor (s : ScrollSession R) : List SinkEvent :=
  [⟨s.scroller_, ScrollerCall.StopScrolling⟩]

/-- Member `ScrollSession::Scroll`: one call of the sink, then the commit of position
and direction. -/
def Scroll (s : ScrollSession R) (newDir newPos : Vector R) :
    ScrollSession R × List SinkEvent :=
  let distance := newDir.Norm
  let contactAreaHeight := s.contactInfo_.logicalArea.bottom - s.contactInfo_.logicalArea.top
  let amt := FloatArith.toInt
    (FloatArith.mulD
      (FloatArith.mulD
        (FloatArith.mulD
          (FloatArith.mulD (ofInt s.scrollDirection_) distance)
          s.sens_)
        s.settings_.sensScalingFactor)
      (FloatArith.ofIntD contactAreaHeight))
  ({ s with position_ := newPos, direction_ := newDir.divScalar (FloatArith.toFloat distance) },
    [⟨s.scroller_, ScrollerCall.Scroll amt⟩])

/-- Member `ScrollSession::StartScrolling`. -/
def StartScrolling (s : ScrollSession R) (contact : Contact) :
    ScrollSession R × List SinkEvent :=
  let newPos := s.ScaleVector ⟨toLONG contact.logicalX, toLONG contact.logicalY⟩
  let newDir := newPos.sub s.position_
  let dot := newDir.dot s.direction_
  if FloatArith.lt (AngleBetween s.direction_ newDir)
        (s.settings_.startDeadzoneAngle / ofInt 2) &&
      FloatArith.lt s.settings_.startDeadzone dot then
    let s1 := { s with scrollDirection_ := 1 }
    let r := s1.Scroll newDir newPos
    (r.1, ⟨s1.scroller_, ScrollerCall.StartScrolling⟩ :: r.2)
  else if FloatArith.lt (AngleBetween s.direction_ newDir.neg)
        (s.settings_.startDeadzoneAngle / ofInt 2) &&
      FloatArith.lt dot (-s.settings_.startDeadzone) then
    let s1 := { s with scrollDirection_ := -1 }
    let r := s1.Scroll newDir newPos
    (r.1, ⟨s1.scroller_, ScrollerCall.StartScrolling⟩ :: r.2)
  else
    (s, [])

/-- Member `ScrollSession::ContinueScrolling`. -/
def ContinueScrolling (s : ScrollSession R) (contact : Contact) :
    ScrollSession R × List SinkEvent :=
  let newPos := s.ScaleVector ⟨toLONG contact.logicalX, toLONG contact.logicalY⟩
  let newDir := newPos.sub s.position_
  if FloatArith.lt (AngleBetween s.direction_ newDir.neg)
      (s.settings_.reverseDeadzoneAngle / ofInt 2) then
    if FloatArith.lt s.settings_.reverseDeadzone newDir.Norm then
      let s1 := { s with scrollDirection_ := s.scrollDirection_ * -1 }
      s1.Scroll newDir newPos
    else
      (s, [])
  else if FloatArith.lt s.settings_.reverseDeadzone newDir.Norm ||
      FloatArith.lt s.settings_.moveDeadzone (newDir.dot s.direction_) then
    s.Scroll newDir newPos
  else
    (s, [])

/-- Member `ScrollSession::Update`: the loop returns at the first contact carrying the
tracked identifier. -/
def Update (s : ScrollSession R) :
    List Contact → Bool × ScrollSession R × List SinkEvent
  | [] => (false, s, [])
  | contact :: contacts =>
    if contact.id == s.contactId_ then
      if !contact.isTouch then
        (false, s, [])
      else if s.scrollDirection_ == 0 then
        let r := s.StartScrolling contact
        (true, r.1, r.2)
      else
        let r := s.ContinueScrolling contact
        (true, r.1, r.2)
    else
      Update s contacts

end ScrollSession

/-- Member `NonScrollSession::Update`. -/
def NonScrollSession.Update (contacts : List Contact) : Bool :=
  contacts.any (fun contact => contact.isTouch)

/-- The class hierarchy `TouchSession` with its two subclasses; each value carries the
address of the device it refers to. -/
inductive TouchSession (R : Type) where
  | NonScrollSession (device_ : Nat)
  | ScrollSession (s : ScrollSession R)
deriving DecidableEq, Repr

namespace TouchSession

variable {R : Type} [FloatArith R]

/-- Member `TouchSession::device`. -/
def device : TouchSession R → Nat
  | NonScrollSession device_ => device_
  | ScrollSession s => s.device_

/-- The virtual member `Update`. -/
def Update : TouchSession R → List Contact → Bool × TouchSession R × List SinkEvent
  | NonScrollSession device_, contacts =>
    (chiralscroll.NonScrollSession.Update contacts, NonScrollSession device_, [])
  | ScrollSession s, contacts =>
    let r := s.Update contacts
    (r.1, ScrollSession r.2.1, r.2.2)

/-- The virtual destructor: what destroying the session object calls on the sinks. -/
def dtor : TouchSession R → List SinkEvent
  | NonScrollSession _ => []
  | ScrollSession s => s.dtor

end TouchSession

/-! ## ChiralScroll.h, ChiralScroll.cpp: the arbiter -/

/-- Values of `absl::Time` the arbiter stores: `absl::InfinitePast()` or an instant
read from the clock, in nanoseconds. -/
inductive Time where
  | InfinitePast
  | at (ns : Int)
deriving DecidableEq, Repr

/-- The value `absl::ToInt64Milliseconds(now - last)`: whole milliseconds, truncated
towards zero; the difference to the infinite past is the infinite duration, which
converts to the largest `int64`. -/
def ToInt64Milliseconds (now : Int) (last : Time) : Int :=
  match last with
  | Time.InfinitePast => 2 ^ 63 - 1
  | Time.at ns => Int.tdiv (now - ns) 1000000

/-- The class `ChiralScroll`.  The sinks `vScroller_` and `hScroller_` are named by
`ScrollerRef`; the member `currentDevice_` is never read or written after construction
and is left out. -/
structure ChiralScroll (R : Type) where
  settings_ : Settings R
  touchSession_ : Option (TouchSession R)
  lastKeyboardTime_ : Time
deriving DecidableEq, Repr

namespace ChiralScroll

variable {R : Type} [FloatArith R]

/-- The constructor of `ChiralScroll`. -/
def ctor (settings : Settings R) : ChiralScroll R :=
  { settings_ := settings
    touchSession_ := none
    lastKeyboardTime_ := Time.InfinitePast }

/-- Member `ChiralScroll::SetSettings`. -/
def SetSettings (cs : ChiralScroll R) (settings : Settings R) : ChiralScroll R :=
  { cs with settings_ := settings }

/-- Effect of `touchSession_.reset()`: the owned session, if any, is destroyed. -/
def resetSession (cs : ChiralScroll R) : ChiralScroll R × List SinkEvent :=
  match cs.touchSession_ with
  | some session => ({ cs with touchSession_ := none }, session.dtor)
  | none => (cs, [])

/-- Effect of `touchSession_ = std::make_unique<..>(..)`: the new session takes the
place of the owned one, which is destroyed. -/
def assignSession (cs : ChiralScroll R) (session : TouchSession R) :
    ChiralScroll R × List SinkEvent :=
  match cs.touchSession_ with
  | some old => ({ cs with touchSession_ := some session }, old.dtor)
  | none => ({ cs with touchSession_ := some session }, [])

/-- Member `ChiralScroll::ShouldStartScrollingSession`; `now` is the value of
`absl::Now()`. -/
def ShouldStartScrollingSession (cs : ChiralScroll R) (now : Int)
    (deviceSettings : DeviceSettings R) (contacts : List Contact) : Bool :=
  match contacts with
  | [contact] =>
    contact.id == 0 &&
    contact.isTouch &&
    decide (ToInt64Milliseconds now cs.lastKeyboardTime_ > deviceSettings.typingLockoutMs)
  | _ => false

/-- The lambda `pointInScrollZone` of `StartScrollingSession`. -/
def pointInScrollZone (point : Nat) (width : Int) (frac : R) : Bool :=
  FloatArith.lt ((ofInt 1 - frac) * ofInt width) (ofInt (point : Int))

/-- Difference `ULONG - LONG`, evaluated as `ULONG`. -/
def subULONG (x : Nat) (y : Int) : Nat :=
  Int.toNat (((x : Int) - y) % 2 ^ 32)

/-- Member `ChiralScroll::StartScrollingSession`.  The result is `none` where the source
has undefined behaviour: an empty `contacts`, or a contact whose link names no slot of
the device. -/
def StartScrollingSession (cs : ChiralScroll R) (device : TouchDevice)
    (contacts : List Contact) : Option (ChiralScroll R × List SinkEvent) :=
  let r := cs.settings_.GetDeviceSettings device.name
  let cs := { cs with settings_ := r.1 }
  let deviceSettings := r.2
  match contacts with
  | [] => none
  | contact :: _ =>
    match device.GetContactInfo contact.contactInfoLink with
    | none => none
    | some contactInfo =>
      if pointInScrollZone
          (subULONG contact.logicalX contactInfo.logicalArea.left)
          (contactInfo.logicalArea.right - contactInfo.logicalArea.left)
          deviceSettings.vScrollZone then
        match ScrollSession.ctor device contact ⟨ofInt 0, ofInt 1⟩ (-deviceSettings.vSens)
            cs.settings_.GetGlobalSettings ScrollerRef.vScroller_ with
        | none => none
        | some s => some (cs.assignSession (TouchSession.ScrollSession s))
      else if pointInScrollZone
          (subULONG contact.logicalY contactInfo.logicalArea.top)
          (contactInfo.logicalArea.bottom - contactInfo.logicalArea.top)
          deviceSettings.hScrollZone then
        match ScrollSession.ctor device contact ⟨ofInt 1, ofInt 0⟩ deviceSettings.hSens
            cs.settings_.GetGlobalSettings ScrollerRef.hScroller_ with
        | none => none
        | some s => some (cs.assignSession (TouchSession.ScrollSession s))
      else
        some (cs, [])

/-- Member `ChiralScroll::ProcessTouch`; `now` is the value `absl::Now()` returns during
the call. -/
def ProcessTouch (cs : ChiralScroll R) (now : Int) (device : TouchDevice)
    (contacts : List Contact) : Option (ChiralScroll R × List SinkEvent) :=
  let r := cs.settings_.GetDeviceSettings device.name
  let cs := { cs with settings_ := r.1 }
  let deviceSettings := r.2
  if !cs.settings_.GetGlobalSettings.enabled || !deviceSettings.enabled then
    some cs.resetSession
  else
    let elseIf : Option (ChiralScroll R × List SinkEvent) :=
      if cs.ShouldStartScrollingSession now deviceSettings contacts then
        cs.StartScrollingSession device contacts
      else
        some (cs, [])
    let step : Option (ChiralScroll R × List SinkEvent) :=
      match cs.touchSession_ with
      | some session =>
        if session.device == device.addr then
          let u := session.Update contacts
          if !u.1 then
            let cs1 : ChiralScroll R := { cs with touchSession_ := some u.2.1 }
            let d := cs1.resetSession
            some (d.1, u.2.2 ++ d.2)
          else
            some ({ cs with touchSession_ := some u.2.1 }, u.2.2)
        else
          elseIf
      | none => elseIf
    match step with
    | none => none
    | some (cs2, events) =>
      if cs2.touchSession_.isNone && contacts.any (fun contact => contact.isTouch) then
        let a := cs2.assignSession (TouchSession.NonScrollSession device.addr)
        some (a.1, events ++ a.2)
      else
        some (cs2, events)

/-- Member `ChiralScroll::ProcessKeyboard`; `now` is the value of `absl::Now()`. -/
def ProcessKeyboard (cs : ChiralScroll R) (now : Int) : ChiralScroll R × List SinkEvent :=
  let cs1 := { cs with lastKeyboardTime_ := Time.at now }
  cs1.resetSession

end ChiralScroll

/-! ## Vocabulary of the statements -/

/-- A ghost lift relative to the previous finalized frame `last`: a contact that is not
touching and for which no contact of `last` has the same identifier, the same logical X
and the same logical Y. -/
def isGhostLift (last : List Contact) (c : Contact) : Prop :=
  c.isTouch = false ∧
    ¬ ∃ old ∈ last, old.id = c.id ∧ old.logicalX = c.logicalX ∧ old.logicalY = c.logicalY

instance (last : List Contact) (c : Contact) : Decidable (isGhostLift last c) := by
  unfold isGhostLift
  exact inferInstance

/-- The accumulated contacts `acc`, in accumulation order, without the ghost lifts
relative to `last`. -/
def kept (last acc : List Contact) : List Contact :=
  acc.filter (fun c => decide (¬ isGhostLift last c))

/-- The number of contacts a sequence of reports contributes on the device `dev`. -/
def contributed (dev : TouchDevice) (reports : List HidData) : Nat :=
  (reports.map (fun h => (dev.GetContactsInReport h).length)).sum

/-- The value `ScrollSession::Scroll` passes to the sink when the session `s` scrolls
with polarity `polarity` over the displacement `d`. -/
def pulseValue {R : Type} [FloatArith R] (s : ScrollSession R) (polarity : Int)
    (d : Vector R) : Int :=
  FloatArith.toInt
    (FloatArith.mulD
      (FloatArith.mulD
        (FloatArith.mulD
          (FloatArith.mulD (ofInt polarity) d.Norm)
          s.sens_)
        s.settings_.sensScalingFactor)
      (FloatArith.ofIntD (s.contactInfo_.logicalArea.bottom - s.contactInfo_.logicalArea.top)))

/-- The first contact of a frame that carries the identifier tracked by `s`. -/
def tracked {R : Type} (s : ScrollSession R) (frame : List Contact) : Option Contact :=
  frame.find? (fun contact => contact.id == s.contactId_)

/-- The displacement of a contact from the position the session holds, as
`StartScrolling` and `ContinueScrolling` compute it. -/
def displacement {R : Type} [FloatArith R] (s : ScrollSession R) (contact : Contact) :
    Vector R :=
  (s.ScaleVector ⟨toLONG contact.logicalX, toLONG contact.logicalY⟩).sub s.position_

/-- Successive calls of `ScrollSession::Update` on a sequence of frames: the returned
flags, the final session and all sink calls in order. -/
def updates {R : Type} [FloatArith R] (s : ScrollSession R) :
    List (List Contact) → List Bool × ScrollSession R × List SinkEvent
  | [] => ([], s, [])
  | frame :: frames =>
    let r := s.Update frame
    let rest := updates r.2.1 frames
    (r.1 :: rest.1, rest.2.1, r.2.2 ++ rest.2.2)

/-- The calls of `StopScrolling` among a list of sink calls. -/
def stopCalls (events : List SinkEvent) : List SinkEvent :=
  events.filter (fun e => e.call == ScrollerCall.StopScrolling)

/-- Scrolling is enabled for a device: the global flag and the flag of the device's
settings entry, as `ProcessTouch` reads them. -/
def scrollingEnabled {R : Type} [FloatArith R] (cs : ChiralScroll R) (device : TouchDevice) :
    Bool :=
  (cs.settings_.GetDeviceSettings device.name).1.GetGlobalSettings.enabled &&
    (cs.settings_.GetDeviceSettings device.name).2.enabled

/-- Order vocabulary for hypotheses about floating-point values: `le a b` is `a <= b`,
`abs` is `fabs`.  The two laws hold of IEEE arithmetic: when `|x| <= y` neither side is
a NaN, `x <= |x| <= y` and `-y <= -|x| <= x`. -/
class FloatOrder (R : Type) [FloatArith R] where
  le : R → R → Bool
  abs : R → R
  not_gt_of_abs_le : ∀ x y : R, le (abs x) y = true → FloatArith.lt y x = false
  not_lt_neg_of_abs_le : ∀ x y : R, le (abs x) y = true → FloatArith.lt x (-y) = false

/-- The product `ScrollSession::Scroll` forms before the conversion to `int`, for the
polarity `polarity` and the displacement `d`. -/
def pulseProduct {R : Type} [FloatArith R] (s : ScrollSession R) (polarity : Int)
    (d : Vector R) : R :=
  FloatArith.mulD
    (FloatArith.mulD
      (FloatArith.mulD
        (FloatArith.mulD (ofInt polarity) d.Norm)
        s.sens_)
      s.settings_.sensScalingFactor)
    (FloatArith.ofIntD (s.contactInfo_.logicalArea.bottom - s.contactInfo_.logicalArea.top))

/-- The contact lies in the vertical zone of its slot, as `StartScrollingSession` tests
it with the lambda `pointInScrollZone`. -/
def inVerticalZone {R : Type} [FloatArith R] (deviceSettings : DeviceSettings R)
    (contactInfo : ContactInfo) (contact : Contact) : Bool :=
  ChiralScroll.pointInScrollZone
    (ChiralScroll.subULONG contact.logicalX contactInfo.logicalArea.left)
    (contactInfo.logicalArea.right - contactInfo.logicalArea.left)
    deviceSettings.vScrollZone

/-- The contact lies in the horizontal zone of its slot, as `StartScrollingSession` tests
it with the lambda `pointInScrollZone`. -/
def inHorizontalZone {R : Type} [FloatArith R] (deviceSettings : DeviceSettings R)
    (contactInfo : ContactInfo) (contact : Contact) : Bool :=
  ChiralScroll.pointInScrollZone
    (ChiralScroll.subULONG contact.logicalY contactInfo.logicalArea.top)
    (contactInfo.logicalArea.bottom - contactInfo.logicalArea.top)
    deviceSettings.hScrollZone

/-- The vertical Scroll session of a contact: direction `(0,1)`, sensitivity `-vSens`,
bound to the vertical sink, anchored at the scaled position of the contact, polarity 0,
with a snapshot of the global settings. -/
def verticalSession {R : Type} [FloatArith R] (device : TouchDevice) (contact : Contact)
    (contactInfo : ContactInfo) (deviceSettings : DeviceSettings R)
    (globalSettings : GlobalSettings R) : ScrollSession R :=
  { device_ := device.addr
    contactId_ := contact.id
    contactInfo_ := contactInfo
    direction_ := ⟨ofInt 0, ofInt 1⟩
    position_ := scaleBy contactInfo ⟨toLONG contact.logicalX, toLONG contact.logicalY⟩
    scrollDirection_ := 0
    sens_ := -deviceSettings.vSens
    settings_ := globalSettings
    scroller_ := ScrollerRef.vScroller_ }

/-- The horizontal Scroll session of a contact: direction `(1,0)`, sensitivity `hSens`,
bound to the horizontal sink, anchored at the scaled position of the contact,
polarity 0, with a snapshot of the global settings. -/
def horizontalSession {R : Type} [FloatArith R] (device : TouchDevice) (contact : Contact)
    (contactInfo : ContactInfo) (deviceSettings : DeviceSettings R)
    (globalSettings : GlobalSettings R) : ScrollSession R :=
  { device_ := device.addr
    contactId_ := contact.id
    contactInfo_ := contactInfo
    direction_ := ⟨ofInt 1, ofInt 0⟩
    position_ := scaleBy contactInfo ⟨toLONG contact.logicalX, toLONG contact.logicalY⟩
    scrollDirection_ := 0
    sens_ := deviceSettings.hSens
    settings_ := globalSettings
    scroller_ := ScrollerRef.hScroller_ }

/-- The arbiter after `ProcessTouch` has resolved the settings of `device`. -/
def resolved {R : Type} [FloatArith R] (cs : ChiralScroll R) (device : TouchDevice) :
    ChiralScroll R :=
  { cs with settings_ := (cs.settings_.GetDeviceSettings device.name).1 }

/-- The settings entry `ProcessTouch` resolves for `device`. -/
def deviceSettingsOf {R : Type} [FloatArith R] (cs : ChiralScroll R) (device : TouchDevice) :
    DeviceSettings R :=
  (cs.settings_.GetDeviceSettings device.name).2

/-- Successive calls of `ProcessTouch` for frames of one device, each with the clock
value of its call: the final arbiter and all sink calls in order. -/
def processFrames {R : Type} [FloatArith R] (cs : ChiralScroll R) (device : TouchDevice) :
    List (Int × List Contact) → Option (ChiralScroll R × List SinkEvent)
  | [] => some (cs, [])
  | (now, frame) :: rest =>
    match cs.ProcessTouch now device frame with
    | none => none
    | some (cs1, events) =>
      match processFrames cs1 device rest with
      | none => none
      | some (cs2, events2) => some (cs2, events ++ events2)

/-! ## An exact instance of the arithmetic

Rational numbers with one extra value for NaN.  The field operations are exact,
division by zero gives NaN, and every comparison with NaN is false.  `sqrt` is exact on
squares of rationals and `acos` is exact at `-1`, `0` and `1` (with `355/113` for the
half turn); between these points they are coarse.  The instance serves to evaluate the
definitions on concrete inputs. -/

/-- A rational number, or NaN (`none`). -/
structure Exact where
  val : Option ℚ
deriving DecidableEq

namespace Exact

/-- A binary operation that is exact on rationals and propagates NaN. -/
def map2 (f : ℚ → ℚ → ℚ) (a b : Exact) : Exact :=
  match a.val, b.val with
  | some x, some y => ⟨some (f x y)⟩
  | _, _ => ⟨none⟩

/-- Division; the quotient by zero is NaN. -/
def div (a b : Exact) : Exact :=
  match a.val, b.val with
  | some x, some y => if y = 0 then ⟨none⟩ else ⟨some (x / y)⟩
  | _, _ => ⟨none⟩

/-- Negation. -/
def neg (a : Exact) : Exact :=
  ⟨a.val.map (fun x => -x)⟩

/-- The comparison `a < b`. -/
def lt (a b : Exact) : Bool :=
  match a.val, b.val with
  | some x, some y => decide (x < y)
  | _, _ => false

/-- The comparison `a <= b`. -/
def le (a b : Exact) : Bool :=
  match a.val, b.val with
  | some x, some y => decide (x ≤ y)
  | _, _ => false

/-- Absolute value. -/
def abs (a : Exact) : Exact :=
  ⟨a.val.map (fun x => |x|)⟩

/-- Truncation towards zero; NaN converts to the x86 indefinite integer. -/
def toInt (a : Exact) : Int :=
  match a.val with
  | some x => Int.tdiv x.num x.den
  | none => -2 ^ 31

/-- Square root: NaN on negatives, `Nat.sqrt (num * den) / den` otherwise. -/
def sqrt (a : Exact) : Exact :=
  match a.val with
  | some x => if x < 0 then ⟨none⟩ else ⟨some ((Nat.sqrt (x.num.toNat * x.den) : ℚ) / x.den)⟩
  | none => ⟨none⟩

/-- Arc cosine: NaN outside `[-1, 1]`, the chord through `(1, 0)` and `(-1, 355/113)`
inside. -/
def acos (a : Exact) : Exact :=
  match a.val with
  | some x => if x < -1 ∨ 1 < x then ⟨none⟩ else ⟨some (355 / 226 * (1 - x))⟩
  | none => ⟨none⟩

end Exact

instance : FloatArith Exact where
  add := Exact.map2 (fun x y => x + y)
  sub := Exact.map2 (fun x y => x - y)
  mul := Exact.map2 (fun x y => x * y)
  div := Exact.div
  neg := Exact.neg
  mulD := Exact.map2 (fun x y => x * y)
  divD := Exact.div
  lt := Exact.lt
  ofRat := fun q => ⟨some q⟩
  ofIntD := fun n => ⟨some (n : ℚ)⟩
  toFloat := fun a => a
  toInt := Exact.toInt
  sqrt := Exact.sqrt
  acos := Exact.acos

instance : FloatOrder Exact where
  le := Exact.le
  abs := Exact.abs
  not_gt_of_abs_le := by
    intro x y h
    obtain ⟨x⟩ := x
    obtain ⟨y⟩ := y
    cases x <;> cases y <;> simp_all [Exact.le, Exact.lt, Exact.abs, FloatArith.lt]
    exact le_trans (le_abs_self _) h
  not_lt_neg_of_abs_le := by
    intro x y h
    show Exact.lt x (Exact.neg y) = false
    obtain ⟨x⟩ := x
    obtain ⟨y⟩ := y
    cases x <;> cases y <;> simp_all [Exact.le, Exact.lt, Exact.abs, Exact.neg]
    rename_i a b
    have h1 := neg_abs_le a
    linarith

/-! ## Concrete inputs -/

/-- A slot with logical area `0..200` by `0..100`. -/
def exSlot (link : Nat) : ContactInfo :=
  { link := link
    logicalArea := { top := 0, bottom := 100, left := 0, right := 200 }
    physicalArea := { top := 0, bottom := 50, left := 0, right := 100 } }

/-- A touchpad with three slots, under the lenient policy, before its first report. -/
def exDevice : TouchDevice :=
  { addr := 1
    name := "pad"
    contactInfo_ := [exSlot 1, exSlot 2, exSlot 3]
    linkContactCount_ := 0
    frameBuilder_ := FrameBuilder.ctor false }

/-- A report with the given contact count that carries one contact, on slot `link`. -/
def exReport (count link id : Nat) (isTouch : Bool) (x y : Nat) : HidData :=
  { contactCount := count
    slot := fun l =>
      if l = link then
        { contactId := some id, isTouch := isTouch, confidence := true
          logicalX := x, logicalY := y, physicalX := 0, physicalY := 0 }
      else
        { contactId := none, isTouch := false, confidence := false
          logicalX := 0, logicalY := 0, physicalX := 0, physicalY := 0 } }

/-- A contact on slot `link`. -/
def exContact (link id : Nat) (isTouch : Bool) (x y : Nat) : Contact :=
  { id := id, contactInfoLink := link, isTouch := isTouch, confidence := true
    logicalX := x, logicalY := y, physicalX := 0, physicalY := 0 }

/-- A builder that has accumulated a touch, a lift found in the previous frame and a
lift that is not, while expecting two contacts. -/
def exBuilder (panicOnUnexpectedInput : Bool) : FrameBuilder :=
  { expectedContactCount_ := 2
    contacts_ := [exContact 1 0 true 10 10, exContact 2 1 false 20 20, exContact 3 2 false 30 30]
    lastContacts_ := [exContact 1 0 true 9 9, exContact 2 1 true 20 20]
    panicOnUnexpectedInput_ := panicOnUnexpectedInput }

/-- Global settings for the concrete sessions (lengths in units of the slot height,
angles in radians). -/
def exGlobal : GlobalSettings Exact :=
  { enabled := true
    startDeadzone := FloatArith.ofRat (1 / 20)
    startDeadzoneAngle := FloatArith.ofRat (785 / 1000)
    moveDeadzone := FloatArith.ofRat (1 / 20)
    reverseDeadzone := FloatArith.ofRat (1 / 10)
    reverseDeadzoneAngle := FloatArith.ofRat 3
    sensScalingFactor := FloatArith.ofRat (1 / 10) }

/-- A vertical Scroll session on slot 1 of `exDevice`, tracking contact 0, anchored at
the logical position `(190, 50)`, with the given polarity. -/
def exSession (polarity : Int) : ScrollSession Exact :=
  { device_ := 1
    contactId_ := 0
    contactInfo_ := exSlot 1
    direction_ := ⟨ofInt 0, ofInt 1⟩
    position_ := ⟨FloatArith.ofRat (19 / 10), FloatArith.ofRat (1 / 2)⟩
    scrollDirection_ := polarity
    sens_ := FloatArith.ofRat (-10)
    settings_ := exGlobal
    scroller_ := ScrollerRef.vScroller_ }

/-- Device settings with a typing lockout of 500 ms, zones of one tenth and
sensitivities 10. -/
def exDeviceSettings : DeviceSettings Exact :=
  { enabled := true
    typingLockoutMs := 500
    vScrollZone := FloatArith.ofRat (1 / 10)
    hScrollZone := FloatArith.ofRat (1 / 10)
    vSens := FloatArith.ofRat 10
    hSens := FloatArith.ofRat 10 }

/-- An arbiter that knows the devices `pad` and `pad2`, owns the given session and saw
its last keyboard event at `last`. -/
def exArbiter (session : Option (TouchSession Exact)) (last : Time) : ChiralScroll Exact :=
  { settings_ :=
      { globalSettings_ := exGlobal
        deviceSettings_ := [("pad", exDeviceSettings), ("pad2", exDeviceSettings)] }
    touchSession_ := session
    lastKeyboardTime_ := last }

/-- A second touchpad, with the same slots as `exDevice`. -/
def exDevice2 : TouchDevice :=
  { addr := 2
    name := "pad2"
    contactInfo_ := [exSlot 1, exSlot 2, exSlot 3]
    linkContactCount_ := 0
    frameBuilder_ := FrameBuilder.ctor false }

/-- The arbiter `exArbiter` with the global enabled flag cleared. -/
def exArbiterOff (session : Option (TouchSession Exact)) (last : Time) : ChiralScroll Exact :=
  { settings_ :=
      { globalSettings_ := { exGlobal with enabled := false }
        deviceSettings_ := [("pad", exDeviceSettings), ("pad2", exDeviceSettings)] }
    touchSession_ := session
    lastKeyboardTime_ := last }

/-- The vertical session `exSession` with sensitivity 1 and scaling factor `3/4`, so
that a displacement of a quarter of the slot height gives the product `18.75`. -/
def exSessionFine (polarity : Int) : ScrollSession Exact :=
  { exSession polarity with
    sens_ := FloatArith.ofRat 1
    settings_ := { exGlobal with sensScalingFactor := FloatArith.ofRat (3 / 4) } }

/-- The vertical session `exSession` scrolling with polarity `+1`, with the given move
deadzone, reverse deadzone and reverse deadzone angle. -/
def exSessionWith (moveDeadzone reverseDeadzone reverseDeadzoneAngle : ℚ) :
    ScrollSession Exact :=
  { exSession 1 with
    settings_ :=
      { exGlobal with
        moveDeadzone := FloatArith.ofRat moveDeadzone
        reverseDeadzone := FloatArith.ofRat reverseDeadzone
        reverseDeadzoneAngle := FloatArith.ofRat reverseDeadzoneAngle } }

/-- The touchpad `exDevice` under the strict policy. -/
def exDeviceStrict : TouchDevice :=
  { exDevice with frameBuilder_ := FrameBuilder.ctor true }

/-- A slot whose logical area is the square from `(0, 100)` to `(100, 200)`. -/
def exSlotLow : ContactInfo :=
  { link := 1
    logicalArea := { top := 100, bottom := 200, left := 0, right := 100 }
    physicalArea := { top := 0, bottom := 50, left := 0, right := 50 } }

/-! ## An IEEE 754 instance of the arithmetic

A model of the binary interchange formats with round-to-nearest-even, gradual
underflow, overflow to infinity, signed zeros and NaN.  `float` is `binary32`, `double`
is `binary64`; every operation rounds its exact result once, to the width at which the
source evaluates it.  The library function `sqrt` is correctly rounded, at `float` or
at `double` width; the library function `acos` is left open.  Both choices are the
parameter `Libm` of the instance, and the theorems about the instance hold for every
value of it. -/

/-- A floating-point datum: a NaN, an infinity, or a finite number given by its sign
and its magnitude, so that both zeros exist. -/
inductive Binary where
  | nan
  | inf (neg : Bool)
  | fin (neg : Bool) (mag : ℚ)
deriving DecidableEq, Repr

/-- A binary interchange format: the number of fraction bits and the exponents of the
least and the greatest normal binade. -/
structure Format where
  mbits : Nat
  emin : Int
  emax : Int
deriving DecidableEq, Repr

/-- The format of `float`. -/
def binary32 : Format := { mbits := 23, emin := -126, emax := 127 }

/-- The format of `double`. -/
def binary64 : Format := { mbits := 52, emin := -1022, emax := 1023 }

/-- The integer nearest to `n`, the even one of two nearest. -/
def roundHalfEven (n : ℚ) : Int :=
  if n - ⌊n⌋ < 1 / 2 then ⌊n⌋
  else if 1 / 2 < n - ⌊n⌋ then ⌊n⌋ + 1
  else if ⌊n⌋ % 2 = 0 then ⌊n⌋ else ⌊n⌋ + 1

namespace Format

/-- The spacing of the format's numbers around the magnitude `q`: one unit in the last
place of the binade of `q`, or of the least normal binade below it. -/
def quantum (f : Format) (q : ℚ) : ℚ :=
  (2 : ℚ) ^ (max (Int.log 2 q) f.emin - (f.mbits : Int))

/-- The magnitude `q`, rounded to a multiple of the spacing. -/
def roundMag (f : Format) (q : ℚ) : ℚ :=
  (roundHalfEven (q / f.quantum q) : ℚ) * f.quantum q

/-- The datum of the format nearest to the number of sign `neg` and magnitude `q`;
what reaches the binade above the greatest one is an infinity. -/
def round (f : Format) (neg : Bool) (q : ℚ) : Binary :=
  if q = 0 then Binary.fin neg 0
  else if f.roundMag q < (2 : ℚ) ^ (f.emax + 1) then Binary.fin neg (f.roundMag q)
  else Binary.inf neg

/-- The correctly rounded square root of the magnitude `q`: the nearest multiple of the
spacing at the binade of the root, found from the integer square root. -/
def sqrtMag (f : Format) (q : ℚ) : ℚ :=
  let u : ℚ := (2 : ℚ) ^ (max (Int.log 2 q / 2) f.emin - (f.mbits : Int))
  let n2 : ℚ := q / (u * u)
  let m0 : Nat := Nat.sqrt ⌊n2⌋₊
  let m : Nat :=
    if n2 < ((m0 : ℚ) + 1 / 2) ^ 2 then m0
    else if ((m0 : ℚ) + 1 / 2) ^ 2 < n2 then m0 + 1
    else if m0 % 2 = 0 then m0 else m0 + 1
  (m : ℚ) * u

end Format

namespace Binary

/-- The number a sign and a magnitude denote. -/
def signed (neg : Bool) (q : ℚ) : ℚ :=
  if neg then -q else q

/-- Conversion of a number to the format. -/
def ofRat (f : Format) (q : ℚ) : Binary :=
  f.round (decide (q < 0)) |q|

/-- Conversion of a datum to the format. -/
def toFormat (f : Format) : Binary → Binary
  | nan => nan
  | inf s => inf s
  | fin s q => f.round s q

/-- Negation. -/
def neg : Binary → Binary
  | nan => nan
  | inf s => inf (!s)
  | fin s q => fin (!s) q

/-- Sum, rounded to the format; an exact zero sum is `-0` only when both terms are
negative. -/
def add (f : Format) : Binary → Binary → Binary
  | nan, _ => nan
  | _, nan => nan
  | inf s, inf t => if s = t then inf s else nan
  | inf s, fin _ _ => inf s
  | fin _ _, inf t => inf t
  | fin s p, fin t q =>
    if signed s p + signed t q = 0 then fin (s && t) 0
    else f.round (decide (signed s p + signed t q < 0)) |signed s p + signed t q|

/-- Difference, rounded to the format. -/
def sub (f : Format) (x y : Binary) : Binary :=
  add f x (neg y)

/-- Product, rounded to the format. -/
def mul (f : Format) : Binary → Binary → Binary
  | nan, _ => nan
  | _, nan => nan
  | inf s, inf t => inf (s != t)
  | inf s, fin t q => if q = 0 then nan else inf (s != t)
  | fin s p, inf t => if p = 0 then nan else inf (s != t)
  | fin s p, fin t q => f.round (s != t) (p * q)

/-- Quotient, rounded to the format. -/
def div (f : Format) : Binary → Binary → Binary
  | nan, _ => nan
  | _, nan => nan
  | inf _, inf _ => nan
  | inf s, fin t _ => inf (s != t)
  | fin s _, inf t => fin (s != t) 0
  | fin s p, fin t q =>
    if q = 0 then (if p = 0 then nan else inf (s != t))
    else f.round (s != t) (p / q)

/-- The comparison `a < b`; false when a side is a NaN. -/
def lt : Binary → Binary → Bool
  | nan, _ => false
  | _, nan => false
  | inf s, inf t => s && !t
  | inf s, fin _ _ => s
  | fin _ _, inf t => !t
  | fin s p, fin t q => decide (signed s p < signed t q)

/-- The comparison `a <= b`; false when a side is a NaN. -/
def le : Binary → Binary → Bool
  | nan, _ => false
  | _, nan => false
  | inf s, inf t => s || !t
  | inf s, fin _ _ => s
  | fin _ _, inf t => !t
  | fin s p, fin t q => decide (signed s p ≤ signed t q)

/-- Absolute value. -/
def abs : Binary → Binary
  | nan => nan
  | inf _ => inf false
  | fin _ q => fin false |q|

/-- Truncation towards zero; a NaN, an infinity and a value outside the range of `int`
convert to the x86 indefinite integer. -/
def toInt : Binary → Int
  | nan => -2 ^ 31
  | inf _ => -2 ^ 31
  | fin s q =>
    let t := Int.tdiv (signed s q).num (signed s q).den
    if -2 ^ 31 ≤ t ∧ t < 2 ^ 31 then t else -2 ^ 31

/-- Square root, correctly rounded to the format. -/
def sqrt (f : Format) : Binary → Binary
  | nan => nan
  | inf s => if s then nan else inf false
  | fin s q => if q = 0 then fin s 0 else if s then nan else fin false (f.sqrtMag q)

end Binary

/-- The library functions the arithmetic is linked with: whether `sqrt` of a `float`
is evaluated at `double` width, and the function `acos`. -/
structure Libm where
  sqrtDouble : Bool
  acos : Binary → Binary

/-- The values of `double`, with the arithmetic of IEEE 754 and the library functions
of `lib`. -/
def IEEE (_lib : Libm) : Type := Binary

instance (lib : Libm) : DecidableEq (IEEE lib) :=
  inferInstanceAs (DecidableEq Binary)

instance (lib : Libm) : Repr (IEEE lib) :=
  inferInstanceAs (Repr Binary)

instance (lib : Libm) : FloatArith (IEEE lib) where
  add := Binary.add binary32
  sub := Binary.sub binary32
  mul := Binary.mul binary32
  div := Binary.div binary32
  neg := Binary.neg
  mulD := Binary.mul binary64
  divD := Binary.div binary64
  lt := Binary.lt
  ofRat := Binary.ofRat binary32
  ofIntD := fun n => Binary.ofRat binary64 (n : ℚ)
  toFloat := Binary.toFormat binary32
  toInt := Binary.toInt
  sqrt := Binary.sqrt (if lib.sqrtDouble then binary64 else binary32)
  acos := lib.acos

instance (lib : Libm) : FloatOrder (IEEE lib) where
  le := Binary.le
  abs := Binary.abs
  not_gt_of_abs_le := by
    intro x y h
    show Binary.lt y x = false
    change Binary.le (Binary.abs x) y = true at h
    cases x with
    | nan => cases y <;> simp [Binary.abs, Binary.le] at h
    | inf s =>
      cases y with
      | nan => simp [Binary.abs, Binary.le] at h
      | inf t =>
        simp only [Binary.abs, Binary.le, Bool.false_or, Bool.not_eq_true'] at h
        subst h
        rfl
      | fin t r => simp [Binary.abs, Binary.le] at h
    | fin s q =>
      cases y with
      | nan => simp [Binary.abs, Binary.le] at h
      | inf t =>
        simp only [Binary.abs, Binary.le, Bool.not_eq_true'] at h
        subst h
        rfl
      | fin t r =>
        simp only [Binary.abs, Binary.le, Binary.signed, Bool.false_eq_true, if_false,
          decide_eq_true_eq] at h
        simp only [Binary.lt, decide_eq_false_iff_not, not_lt]
        have h1 : Binary.signed s q ≤ |q| := by
          unfold Binary.signed
          split_ifs
          · exact neg_le_abs q
          · exact le_abs_self q
        exact le_trans h1 h
  not_lt_neg_of_abs_le := by
    intro x y h
    show Binary.lt x (Binary.neg y) = false
    change Binary.le (Binary.abs x) y = true at h
    cases x with
    | nan => cases y <;> simp [Binary.abs, Binary.le] at h
    | inf s =>
      cases y with
      | nan => simp [Binary.abs, Binary.le] at h
      | inf t =>
        simp only [Binary.abs, Binary.le, Bool.false_or, Bool.not_eq_true'] at h
        subst h
        simp [Binary.neg, Binary.lt]
      | fin t r => simp [Binary.abs, Binary.le] at h
    | fin s q =>
      cases y with
      | nan => simp [Binary.abs, Binary.le] at h
      | inf t =>
        simp only [Binary.abs, Binary.le, Bool.not_eq_true'] at h
        subst h
        simp [Binary.neg, Binary.lt]
      | fin t r =>
        simp only [Binary.abs, Binary.le, Binary.signed, Bool.false_eq_true, if_false,
          decide_eq_true_eq] at h
        simp only [Binary.lt, Binary.neg, decide_eq_false_iff_not, not_lt]
        have h1 : -|q| ≤ Binary.signed s q := by
          unfold Binary.signed
          split_ifs
          · exact neg_le_neg (le_abs_self q)
          · exact neg_abs_le q
        have h2 : Binary.signed (!t) r = -Binary.signed t r := by
          cases t <;> simp [Binary.signed]
        have h0 : |q| ≤ Binary.signed t r := h
        rw [h2]
        linarith

namespace Binary

/-- The datum is a zero, of either sign. -/
def IsZero : Binary → Prop
  | fin _ q => q = 0
  | _ => False

/-- The datum is an infinity or a finite number of magnitude at least `2^-54`. -/
def Large : Binary → Prop
  | nan => False
  | inf _ => True
  | fin _ q => (2 : ℚ) ^ (-54 : Int) ≤ q

/-- The datum is a NaN, an infinity or a whole multiple of `2^-54`. -/
def OnGrid : Binary → Prop
  | fin _ q => ∃ m : Int, q = (m : ℚ) * (2 : ℚ) ^ (-54 : Int)
  | _ => True

/-- The datum is a NaN, a zero, an infinity or at least `2^-54` in magnitude: nothing
strictly between zero and `2^-54`. -/
def Coarse (x : Binary) : Prop :=
  x = nan ∨ IsZero x ∨ Large x

end Binary

/-- A library for the concrete IEEE session: `sqrt` at `float` width, and for `acos`
the chord through `(1, 0)` and `(-1, 355/113)`, rounded to `double`. -/
def exLibm : Libm :=
  { sqrtDouble := false
    acos := fun x =>
      match x with
      | Binary.fin s q =>
        if q ≤ 1 then Binary.ofRat binary64 (355 / 226 * (1 - Binary.signed s q))
        else Binary.nan
      | _ => Binary.nan }

/-- The vertical session of `exSession` in IEEE arithmetic: scrolling with polarity
`+1`, anchored at the scaled position of the contact `(190, 50)`, with start and move
deadzone `1/16` and reverse deadzone `1/8`. -/
def exSessionFloat : ScrollSession (IEEE exLibm) :=
  { device_ := 1
    contactId_ := 0
    contactInfo_ := exSlot 1
    direction_ := ⟨ofInt 0, ofInt 1⟩
    position_ := scaleBy (exSlot 1) ⟨toLONG 190, toLONG 50⟩
    scrollDirection_ := 1
    sens_ := ofInt (-10)
    settings_ :=
      { enabled := true
        startDeadzone := FloatArith.ofRat (1 / 16)
        startDeadzoneAngle := FloatArith.ofRat (3 / 4)
        moveDeadzone := FloatArith.ofRat (1 / 16)
        reverseDeadzone := FloatArith.ofRat (1 / 8)
        reverseDeadzoneAngle := ofInt 3
        sensScalingFactor := FloatArith.ofRat (1 / 8) }
    scroller_ := ScrollerRef.vScroller_ }

/-! ## Frame assembler: lemmas -/

namespace FrameBuilder

/-- The contacts `FinishFrame` keeps: the accumulated contacts, in order, without those
that are not touching and have no contact of the previous frame with the same
identifier and the same logical position. -/
theorem filter_eq_kept (fb : FrameBuilder) :
    fb.contacts_.filter (fun contact =>
      !(!contact.isTouch &&
        fb.lastContacts_.all (fun oldContact =>
          !(oldContact.id == contact.id &&
            oldContact.logicalX == contact.logicalX &&
            oldContact.logicalY == contact.logicalY)))) =
    kept fb.lastContacts_ fb.contacts_ := by
  unfold kept
  apply List.filter_congr
  intro c _
  by_cases ht : c.isTouch = true
  · simp [isGhostLift, ht]
  · simp only [Bool.not_eq_true] at ht
    simp only [isGhostLift, ht, Bool.not_false, Bool.true_and, true_and, not_not]
    rw [Bool.eq_iff_iff]
    simp only [Bool.not_eq_true', List.all_eq_false, decide_eq_true_eq]
    constructor
    · rintro ⟨x, hx, h⟩
      refine ⟨x, hx, ?_⟩
      simpa using h
    · rintro ⟨x, hx, h⟩
      refine ⟨x, hx, ?_⟩
      simpa using h

/-- On the returning path `FinishFrame` resets the builder and stores the frame. -/
theorem FinishFrame_ok (fb : FrameBuilder)
    (h : fb.panicOnUnexpectedInput_ = false ∨
      (kept fb.lastContacts_ fb.contacts_).length = fb.expectedContactCount_) :
    fb.FinishFrame =
      ({ fb with expectedContactCount_ := 0
                 lastContacts_ := kept fb.lastContacts_ fb.contacts_
                 contacts_ := [] },
        Except.ok (kept fb.lastContacts_ fb.contacts_)) := by
  unfold FinishFrame
  simp only [filter_eq_kept]
  rcases h with h | h
  · simp [h]
  · simp [h]

/-- On the throwing path `FinishFrame` keeps the expected count and the filtered
contacts. -/
theorem FinishFrame_error (fb : FrameBuilder)
    (hp : fb.panicOnUnexpectedInput_ = true)
    (hn : (kept fb.lastContacts_ fb.contacts_).length ≠ fb.expectedContactCount_) :
    ∃ e, fb.FinishFrame =
      ({ fb with contacts_ := kept fb.lastContacts_ fb.contacts_ }, Except.error e) := by
  unfold FinishFrame
  simp only [filter_eq_kept]
  simp [hp, hn]

end FrameBuilder

namespace TouchDevice

/-- A report that leaves the accumulated count below the expected count: no frame, and
the builder is in progress with the contacts appended.  The expected count `n` is
either already recorded or read from this report. -/
theorem GetContacts_below (dev : TouchDevice) (h : HidData) (n : Nat) (hn : n ≠ 0)
    (hexp : dev.frameBuilder_.expectedContactCount_ = n ∨
      (dev.frameBuilder_.expectedContactCount_ = 0 ∧ h.contactCount = n))
    (hlt : dev.frameBuilder_.contacts_.length + (dev.GetContactsInReport h).length < n) :
    dev.GetContacts h =
      ({ dev with frameBuilder_ :=
          { dev.frameBuilder_ with
            expectedContactCount_ := n
            contacts_ := dev.frameBuilder_.contacts_ ++ dev.GetContactsInReport h } },
        Except.ok none) := by
  have hlt2 : ¬ n ≤ dev.frameBuilder_.contacts_.length + (dev.GetContactsInReport h).length :=
    Nat.not_le.mpr hlt
  rcases hexp with he | ⟨he, hc⟩
  · simp [GetContacts, FrameBuilder.InProgress, FrameBuilder.AddReport, he, hn, hlt2]
  · simp [GetContacts, FrameBuilder.InProgress, FrameBuilder.AddReport, FrameBuilder.Start,
      he, hc, hn, hlt2]

/-- A report with which the accumulated count reaches the expected count, under the
lenient policy: the filtered contacts are returned and the builder is reset. -/
theorem GetContacts_reach (dev : TouchDevice) (h : HidData) (n : Nat) (hn : n ≠ 0)
    (hp : dev.frameBuilder_.panicOnUnexpectedInput_ = false)
    (hexp : dev.frameBuilder_.expectedContactCount_ = n ∨
      (dev.frameBuilder_.expectedContactCount_ = 0 ∧ h.contactCount = n))
    (hge : n ≤ dev.frameBuilder_.contacts_.length + (dev.GetContactsInReport h).length) :
    dev.GetContacts h =
      ({ dev with frameBuilder_ :=
          { dev.frameBuilder_ with
            expectedContactCount_ := 0
            lastContacts_ := kept dev.frameBuilder_.lastContacts_
              (dev.frameBuilder_.contacts_ ++ dev.GetContactsInReport h)
            contacts_ := [] } },
        Except.ok (some (kept dev.frameBuilder_.lastContacts_
          (dev.frameBuilder_.contacts_ ++ dev.GetContactsInReport h)))) := by
  rcases hexp with he | ⟨he, hc⟩
  · simp [GetContacts, FrameBuilder.InProgress, FrameBuilder.AddReport, he, hn, hge,
      FrameBuilder.FinishFrame_ok, hp]
  · simp [GetContacts, FrameBuilder.InProgress, FrameBuilder.AddReport, FrameBuilder.Start,
      he, hc, hn, hge, FrameBuilder.FinishFrame_ok, hp]

/-- Feeding a concatenation: the second part continues from the state the first part
leaves. -/
theorem feed_append (dev : TouchDevice) (a b : List HidData) :
    dev.feed (a ++ b) = ((feed (dev.feed a).1 b).1, (dev.feed a).2 ++ (feed (dev.feed a).1 b).2) := by
  induction a generalizing dev with
  | nil => simp [feed]
  | cons h t ih => simp [feed, ih]

/-- Reports that keep the accumulated count below the expected count `n`: every one
returns no frame and the builder ends in progress, holding all contributed contacts. -/
theorem feed_below (reports : List HidData) (dev : TouchDevice) (n : Nat) (hn : n ≠ 0)
    (hexp : reports = [] ∨ dev.frameBuilder_.expectedContactCount_ = n ∨
      (dev.frameBuilder_.expectedContactCount_ = 0 ∧
        (reports.head?.map (fun h => h.contactCount)) = some n))
    (hlt : dev.frameBuilder_.contacts_.length + contributed dev reports < n) :
    (dev.feed reports).2 = List.replicate reports.length (Except.ok none) ∧
    (dev.feed reports).1.contactInfo_ = dev.contactInfo_ ∧
    (dev.feed reports).1.frameBuilder_.lastContacts_ = dev.frameBuilder_.lastContacts_ ∧
    (dev.feed reports).1.frameBuilder_.panicOnUnexpectedInput_ =
      dev.frameBuilder_.panicOnUnexpectedInput_ ∧
    (dev.feed reports).1.frameBuilder_.contacts_.length =
      dev.frameBuilder_.contacts_.length + contributed dev reports ∧
    (reports ≠ [] → (dev.feed reports).1.frameBuilder_.expectedContactCount_ = n) := by
  induction reports generalizing dev with
  | nil => simp [feed, contributed]
  | cons h t ih =>
    have hsum : contributed dev (h :: t) =
        (dev.GetContactsInReport h).length + contributed dev t := by
      simp [contributed]
    rw [hsum] at hlt
    have hexp1 : dev.frameBuilder_.expectedContactCount_ = n ∨
        (dev.frameBuilder_.expectedContactCount_ = 0 ∧ h.contactCount = n) := by
      rcases hexp with hnil | he | ⟨he, hc⟩
      · exact absurd hnil (by simp)
      · exact Or.inl he
      · exact Or.inr ⟨he, by simpa using hc⟩
    have h1 := GetContacts_below dev h n hn hexp1 (by omega)
    generalize hd : (dev.GetContacts h) = r at h1
    subst h1
    have hci : contributed (dev.GetContacts h).1 t = contributed dev t := by
      rw [hd]
      rfl
    have ih1 := ih (dev.GetContacts h).1 (Or.inr (Or.inl (by rw [hd])))
      (by rw [hci, hd]; simp only [List.length_append]; omega)
    obtain ⟨i1, i2, i3, i4, i5, i6⟩ := ih1
    simp only [feed, List.length_cons, List.replicate_succ, ne_eq, not_false_eq_true,
      forall_const, reduceCtorEq]
    refine ⟨?_, ?_, ?_, ?_, ?_, ?_⟩
    · rw [i1, hd]
    · rw [i2, hd]
    · rw [i3, hd]
    · rw [i4, hd]
    · rw [i5, hci, hsum, hd]
      simp only [List.length_append]
      omega
    · cases t with
      | nil => simp [feed, hd]
      | cons a b => exact i6 (by simp)

end TouchDevice

/-! ## Frame assembler: theorems -/

/-- C1. Accumulation under the lenient policy, from the NotStarted state, when the
first report carries the expected count `n >= 1`.  (a) A sequence of reports after
which the accumulated total is still below `n` returns no frame at any report and leaves
the builder InProgress.  (b) When the total is below `n` after the reports `pre` and
reaches or exceeds `n` with the next report `r`, that report returns a frame and leaves
the builder NotStarted, with this frame stored as the previous frame.  (c) With `n = 3`, an empty buffer and three reports carrying
one touching contact each, the first two return no frame and the third returns the
frame of exactly these three contacts. -/
theorem frame_assembler_accumulation (dev : TouchDevice) (n : Nat) (hn : 1 ≤ n)
    (hns : dev.frameBuilder_.InProgress = false)
    (hp : dev.frameBuilder_.panicOnUnexpectedInput_ = false) :
    (∀ (h : HidData) (hs : List HidData), h.contactCount = n →
      dev.frameBuilder_.contacts_.length + contributed dev (h :: hs) < n →
      (dev.feed (h :: hs)).2 = List.replicate (hs.length + 1) (Except.ok none) ∧
      (dev.feed (h :: hs)).1.frameBuilder_.InProgress = true) ∧
    (∀ (pre : List HidData) (r : HidData),
      (pre ++ [r]).head?.map (fun h => h.contactCount) = some n →
      dev.frameBuilder_.contacts_.length + contributed dev pre < n →
      n ≤ dev.frameBuilder_.contacts_.length + contributed dev (pre ++ [r]) →
      ∃ frame,
        (dev.feed (pre ++ [r])).2 =
          List.replicate pre.length (Except.ok none) ++ [Except.ok (some frame)] ∧
        (dev.feed (pre ++ [r])).1.frameBuilder_.InProgress = false ∧
        (dev.feed (pre ++ [r])).1.frameBuilder_.lastContacts_ = frame) ∧
    (n = 3 → dev.frameBuilder_.contacts_ = [] →
      ∀ (h1 h2 h3 : HidData) (c1 c2 c3 : Contact), h1.contactCount = 3 →
      dev.GetContactsInReport h1 = [c1] → dev.GetContactsInReport h2 = [c2] →
      dev.GetContactsInReport h3 = [c3] →
      c1.isTouch = true → c2.isTouch = true → c3.isTouch = true →
      (dev.feed [h1, h2, h3]).2 =
        [Except.ok none, Except.ok none, Except.ok (some [c1, c2, c3])] ∧
      (dev.feed [h1, h2, h3]).1.frameBuilder_.InProgress = false) := by
  have hn0 : n ≠ 0 := by omega
  have he : dev.frameBuilder_.expectedContactCount_ = 0 := by
    simpa [FrameBuilder.InProgress] using hns
  have hb : ∀ (pre : List HidData) (r : HidData),
      (pre ++ [r]).head?.map (fun h => h.contactCount) = some n →
      dev.frameBuilder_.contacts_.length + contributed dev pre < n →
      n ≤ dev.frameBuilder_.contacts_.length + contributed dev (pre ++ [r]) →
      (dev.feed (pre ++ [r])).2 =
          List.replicate pre.length (Except.ok none) ++
            [Except.ok (some (kept dev.frameBuilder_.lastContacts_
              ((dev.feed pre).1.frameBuilder_.contacts_ ++
                dev.GetContactsInReport r)))] ∧
        (dev.feed (pre ++ [r])).1.frameBuilder_.InProgress = false ∧
        (dev.feed (pre ++ [r])).1.frameBuilder_.lastContacts_ =
          kept dev.frameBuilder_.lastContacts_
            ((dev.feed pre).1.frameBuilder_.contacts_ ++ dev.GetContactsInReport r) := by
    intro pre r hhead hlt hge
    have hexp : pre = [] ∨ dev.frameBuilder_.expectedContactCount_ = n ∨
        (dev.frameBuilder_.expectedContactCount_ = 0 ∧
          (pre.head?.map (fun h => h.contactCount)) = some n) := by
      cases pre with
      | nil => exact Or.inl rfl
      | cons a b => exact Or.inr (Or.inr ⟨he, by simpa using hhead⟩)
    obtain ⟨f1, f2, f3, f4, f5, f6⟩ := TouchDevice.feed_below pre dev n hn0 hexp hlt
    have hrep : (dev.feed pre).1.GetContactsInReport r = dev.GetContactsInReport r := by
      simp [TouchDevice.GetContactsInReport, f2]
    have hexp2 : (dev.feed pre).1.frameBuilder_.expectedContactCount_ = n ∨
        ((dev.feed pre).1.frameBuilder_.expectedContactCount_ = 0 ∧ r.contactCount = n) := by
      cases pre with
      | nil => exact Or.inr ⟨by simpa [TouchDevice.feed] using he, by simpa using hhead⟩
      | cons a b => exact Or.inl (f6 (by simp))
    have hc : contributed dev (pre ++ [r]) =
        contributed dev pre + (dev.GetContactsInReport r).length := by
      simp [contributed]
    have h2 := TouchDevice.GetContacts_reach (dev.feed pre).1 r n hn0 (by rw [f4, hp]) hexp2
      (by rw [f5, hrep]; omega)
    rw [TouchDevice.feed_append]
    simp only [TouchDevice.feed, h2, f1, f3, hrep, FrameBuilder.InProgress]
    simp
  refine ⟨?_, ?_, ?_⟩
  · intro h hs hc hlt
    obtain ⟨f1, _, _, _, _, f6⟩ := TouchDevice.feed_below (h :: hs) dev n hn0
      (Or.inr (Or.inr ⟨he, by simpa using hc⟩)) hlt
    refine ⟨by simpa using f1, ?_⟩
    simp [FrameBuilder.InProgress, f6 (by simp), hn0]
  · intro pre r hhead hlt hge
    exact ⟨_, hb pre r hhead hlt hge⟩
  · intro h3n hempty h1 h2 h3 c1 c2 c3 hc g1 g2 g3 t1 t2 t3
    subst h3n
    have hcon : contributed dev [h1, h2] = 2 := by simp [contributed, g1, g2]
    have hcon3 : contributed dev ([h1, h2] ++ [h3]) = 3 := by simp [contributed, g1, g2, g3]
    have := hb [h1, h2] h3 (by simpa using hc) (by rw [hempty, hcon]; simp)
      (by rw [hempty, hcon3]; simp)
    obtain ⟨r1, r2, _⟩ := this
    have hacc : (dev.feed [h1, h2]).1.frameBuilder_.contacts_ = [c1, c2] := by
      have e1 := TouchDevice.GetContacts_below dev h1 3 hn0 (Or.inr ⟨he, hc⟩) (by rw [hempty, g1]; simp)
      have e2 := TouchDevice.GetContacts_below (dev.GetContacts h1).1 h2 3 hn0
        (Or.inl (by rw [e1])) (by
          rw [e1]
          show (dev.frameBuilder_.contacts_ ++ dev.GetContactsInReport h1).length +
            (dev.GetContactsInReport h2).length < 3
          rw [hempty, g1, g2]; simp)
      simp only [TouchDevice.feed, e2]
      rw [e1]
      show dev.frameBuilder_.contacts_ ++ dev.GetContactsInReport h1 ++
        dev.GetContactsInReport h2 = [c1, c2]
      rw [hempty, g1, g2]; rfl
    rw [hacc, g3] at r1
    have hk : kept dev.frameBuilder_.lastContacts_ ([c1, c2] ++ [c3]) = [c1, c2, c3] := by
      simp [kept, isGhostLift, t1, t2, t3]
    rw [hk] at r1
    exact ⟨by simpa using r1, r2⟩

/-- C1, evaluated: three single-contact reports on slots 1, 2, 3 with contact count 3. -/
theorem frame_assembler_accumulation_witness :
    (exDevice.feed [exReport 3 1 0 true 10 10, exReport 3 2 1 true 20 20,
        exReport 3 3 2 true 30 30]).2 =
      [Except.ok none, Except.ok none,
        Except.ok (some [exContact 1 0 true 10 10, exContact 2 1 true 20 20,
          exContact 3 2 true 30 30])] ∧
    (exDevice.feed [exReport 3 1 0 true 10 10, exReport 3 2 1 true 20 20,
        exReport 3 3 2 true 30 30]).1.frameBuilder_.InProgress = false :=
  (frame_assembler_accumulation exDevice 3 (by decide) rfl rfl).2.2 rfl rfl
    (exReport 3 1 0 true 10 10) (exReport 3 2 1 true 20 20) (exReport 3 3 2 true 30 30)
    (exContact 1 0 true 10 10) (exContact 2 1 true 20 20) (exContact 3 2 true 30 30)
    rfl rfl rfl rfl rfl rfl rfl

/-- C2. Ghost-lift filtering in `FinishFrame`.  Whenever finalization returns a frame it
is `kept`: the accumulated contacts in accumulation order without the ghost lifts
relative to the previous finalized frame; under the lenient policy it always returns.
Every touching accumulated contact is in it, every accumulated lift with an
identifier and position match in the previous frame is in it, no ghost lift is, and it
holds nothing that was not accumulated. -/
theorem ghost_lift_filtering (fb : FrameBuilder) :
    (∀ frame, fb.FinishFrame.2 = Except.ok frame →
      frame = kept fb.lastContacts_ fb.contacts_) ∧
    (fb.panicOnUnexpectedInput_ = false →
      fb.FinishFrame.2 = Except.ok (kept fb.lastContacts_ fb.contacts_)) ∧
    (∀ c ∈ fb.contacts_, c.isTouch = true → c ∈ kept fb.lastContacts_ fb.contacts_) ∧
    (∀ c ∈ fb.contacts_,
      (∃ old ∈ fb.lastContacts_,
        old.id = c.id ∧ old.logicalX = c.logicalX ∧ old.logicalY = c.logicalY) →
      c ∈ kept fb.lastContacts_ fb.contacts_) ∧
    (∀ c, c.isTouch = false →
      (¬ ∃ old ∈ fb.lastContacts_,
        old.id = c.id ∧ old.logicalX = c.logicalX ∧ old.logicalY = c.logicalY) →
      c ∉ kept fb.lastContacts_ fb.contacts_) ∧
    List.Sublist (kept fb.lastContacts_ fb.contacts_) fb.contacts_ := by
  refine ⟨?_, ?_, ?_, ?_, ?_, ?_⟩
  · intro frame hf
    by_cases h : fb.panicOnUnexpectedInput_ = false ∨
        (kept fb.lastContacts_ fb.contacts_).length = fb.expectedContactCount_
    · rw [FrameBuilder.FinishFrame_ok fb h] at hf
      simpa using hf.symm
    · have hp : fb.panicOnUnexpectedInput_ = true := by
        cases hpp : fb.panicOnUnexpectedInput_ with
        | false => exact absurd (Or.inl hpp) h
        | true => rfl
      obtain ⟨e, he⟩ := FrameBuilder.FinishFrame_error fb hp (fun hh => h (Or.inr hh))
      rw [he] at hf
      exact absurd hf (by simp)
  · intro hp
    rw [FrameBuilder.FinishFrame_ok fb (Or.inl hp)]
  · intro c hc ht
    simp [kept, isGhostLift, hc, ht]
  · intro c hc hm
    simp only [kept, isGhostLift, List.mem_filter, decide_eq_true_eq]
    exact ⟨hc, fun hg => hg.2 hm⟩
  · intro c ht hm hk
    simp only [kept, isGhostLift, List.mem_filter, decide_eq_true_eq] at hk
    exact hk.2 ⟨ht, hm⟩
  · exact List.filter_sublist _

/-- C2, evaluated: of a touch, a lift matched in the previous frame and an unmatched
lift, the lenient finalization returns the first two. -/
theorem ghost_lift_filtering_witness :
    (exBuilder false).FinishFrame.2 =
      Except.ok [exContact 1 0 true 10 10, exContact 2 1 false 20 20] :=
  ((ghost_lift_filtering (exBuilder false)).2.1 rfl).trans (congrArg Except.ok (by decide))

/-- C3. Zero-count discard: in the NotStarted state a report whose contact-count field
is 0 returns no frame and leaves the whole device state, builder included, as it was,
whatever slot samples the report carries. -/
theorem zero_count_discard (dev : TouchDevice) (h : HidData)
    (hns : dev.frameBuilder_.InProgress = false) (hz : h.contactCount = 0) :
    dev.GetContacts h = (dev, Except.ok none) := by
  simp [TouchDevice.GetContacts, hns, hz]

/-- C3, evaluated: a zero-count report that carries a touching contact on slot 1. -/
theorem zero_count_discard_witness :
    exDevice.frameBuilder_.InProgress = false ∧
    (exReport 0 1 0 true 10 10).contactCount = 0 ∧
    exDevice.GetContacts (exReport 0 1 0 true 10 10) = (exDevice, Except.ok none) :=
  ⟨rfl, rfl, zero_count_discard exDevice (exReport 0 1 0 true 10 10) rfl rfl⟩

/-- C4. Frame-count mismatch policy of `FinishFrame`.  Under the strict policy
finalization fails with an error exactly when the number of contacts left after
ghost-lift filtering differs from the expected count; under the lenient policy it never
fails and returns the filtered contacts whatever their number. -/
theorem frame_count_mismatch_policy (fb : FrameBuilder) :
    (fb.panicOnUnexpectedInput_ = true →
      ((∃ e, fb.FinishFrame.2 = Except.error e) ↔
        (kept fb.lastContacts_ fb.contacts_).length ≠ fb.expectedContactCount_)) ∧
    (fb.panicOnUnexpectedInput_ = true →
      (kept fb.lastContacts_ fb.contacts_).length = fb.expectedContactCount_ →
      fb.FinishFrame.2 = Except.ok (kept fb.lastContacts_ fb.contacts_)) ∧
    (fb.panicOnUnexpectedInput_ = false →
      fb.FinishFrame.2 = Except.ok (kept fb.lastContacts_ fb.contacts_)) := by
  refine ⟨?_, ?_, ?_⟩
  · intro hp
    constructor
    · rintro ⟨e, he⟩ hlen
      rw [FrameBuilder.FinishFrame_ok fb (Or.inr hlen)] at he
      exact absurd he (by simp)
    · intro hne
      obtain ⟨e, he⟩ := FrameBuilder.FinishFrame_error fb hp hne
      exact ⟨e, by rw [he]⟩
  · intro _ hlen
    rw [FrameBuilder.FinishFrame_ok fb (Or.inr hlen)]
  · intro hp
    rw [FrameBuilder.FinishFrame_ok fb (Or.inl hp)]

/-- C4, evaluated: the strict builder that expects 2 contacts and keeps 2 succeeds, the
same builder expecting 3 fails, and the lenient builder expecting 3 returns the 2. -/
theorem frame_count_mismatch_policy_witness :
    (exBuilder true).FinishFrame.2 =
      Except.ok [exContact 1 0 true 10 10, exContact 2 1 false 20 20] ∧
    (∃ e, ({ exBuilder true with expectedContactCount_ := 3 } : FrameBuilder).FinishFrame.2 =
      Except.error e) ∧
    ({ exBuilder false with expectedContactCount_ := 3 } : FrameBuilder).FinishFrame.2 =
      Except.ok [exContact 1 0 true 10 10, exContact 2 1 false 20 20] :=
  ⟨((frame_count_mismatch_policy (exBuilder true)).2.1 rfl (by decide)).trans
      (congrArg Except.ok (by decide)),
    ((frame_count_mismatch_policy { exBuilder true with expectedContactCount_ := 3 }).1
      rfl).mpr (by decide),
    ((frame_count_mismatch_policy { exBuilder false with expectedContactCount_ := 3 }).2.2
      rfl).trans (congrArg Except.ok (by decide))⟩

/-! ## Scroll session: lemmas -/

/-- The loop of `ScrollSession::Update` decides on the first contact that carries the
tracked identifier. -/
theorem ScrollSession.Update_eq {R : Type} [FloatArith R] (s : ScrollSession R)
    (frame : List Contact) :
    s.Update frame =
      match tracked s frame with
      | none => (false, s, [])
      | some c =>
        if c.isTouch = false then (false, s, [])
        else if s.scrollDirection_ = 0 then (true, s.StartScrolling c)
        else (true, s.ContinueScrolling c) := by
  induction frame with
  | nil => simp [ScrollSession.Update, tracked]
  | cons c t ih =>
    by_cases hid : c.id = s.contactId_
    · by_cases ht : c.isTouch = true <;>
        by_cases hp : s.scrollDirection_ = 0 <;>
        simp [ScrollSession.Update, tracked, hid, ht, hp]
    · have hne : (c.id == s.contactId_) = false := by simpa using hid
      simp only [ScrollSession.Update, hne, tracked, List.find?_cons]
      simpa [tracked] using ih

/-- No contact with the tracked identifier: `tracked` finds nothing. -/
theorem tracked_eq_none {R : Type} (s : ScrollSession R) (frame : List Contact)
    (h : ∀ c ∈ frame, c.id ≠ s.contactId_) : tracked s frame = none := by
  simp only [tracked, List.find?_eq_none]
  intro c hc
  simpa using h c hc

/-! ## Scroll session: theorems -/

/-- C5. The continue/terminate decision of `ScrollSession::Update`.  It returns false
when no contact of the frame has the tracked identifier and when the first contact with
the tracked identifier is not touching; in both cases the session (position, direction,
polarity and everything else) is unchanged and no sink call is made.  When that contact
is touching it returns true, with the effect of `StartScrolling` if the polarity was 0
and of `ContinueScrolling` otherwise. -/
theorem ScrollSession_Update_decision {R : Type} [FloatArith R] (s : ScrollSession R)
    (frame : List Contact) :
    ((∀ c ∈ frame, c.id ≠ s.contactId_) → s.Update frame = (false, s, [])) ∧
    (∀ c, tracked s frame = some c → c.isTouch = false → s.Update frame = (false, s, [])) ∧
    (∀ c, tracked s frame = some c → c.isTouch = true →
      (s.Update frame).1 = true ∧
      (s.scrollDirection_ = 0 → s.Update frame = (true, s.StartScrolling c)) ∧
      (s.scrollDirection_ ≠ 0 → s.Update frame = (true, s.ContinueScrolling c))) := by
  refine ⟨?_, ?_, ?_⟩
  · intro h
    rw [ScrollSession.Update_eq, tracked_eq_none s frame h]
  · intro c hc ht
    rw [ScrollSession.Update_eq, hc]
    simp [ht]
  · intro c hc ht
    rw [ScrollSession.Update_eq, hc]
    by_cases hp : s.scrollDirection_ = 0 <;> simp [ht, hp]

/-- C5, evaluated on the vertical session tracking contact 0: a frame without contact 0,
a frame where contact 0 has lifted, and a frame where it touches at the anchor. -/
theorem ScrollSession_Update_decision_witness :
    (exSession 0).Update [exContact 2 1 true 10 10] = (false, exSession 0, []) ∧
    (exSession 0).Update [exContact 2 1 true 10 10, exContact 1 0 false 190 50] =
      (false, exSession 0, []) ∧
    ((exSession 0).Update [exContact 2 1 true 10 10, exContact 1 0 true 190 50]).1 = true :=
  ⟨(ScrollSession_Update_decision (exSession 0) [exContact 2 1 true 10 10]).1 (by decide),
    (ScrollSession_Update_decision (exSession 0)
      [exContact 2 1 true 10 10, exContact 1 0 false 190 50]).2.1 _ rfl rfl,
    ((ScrollSession_Update_decision (exSession 0)
      [exContact 2 1 true 10 10, exContact 1 0 true 190 50]).2.2 _ rfl rfl).1⟩

/-- C6. The transition of `StartScrolling`.  Let `p` be the scaled position of the
contact, `d = p - p0` its displacement from the anchor and `u` the session direction.
If the angle between `u` and `d` is below `startDeadzoneAngle/2` and `d·u` exceeds
`startDeadzone`, the polarity becomes `+1`; otherwise, if the angle between `u` and `-d`
(the angle between `d` and `-u`) is below `startDeadzoneAngle/2` and `d·u` is below
`-startDeadzone`, the polarity becomes `-1`.  In either case the sink receives exactly
`StartScrolling` followed by one `Scroll`, and the session commits `position := p` and
`direction := d/|d|`.  The same holds of an `Update` of a session with polarity 0 on a
frame whose tracked contact is this touching contact. -/
theorem StartScrolling_transition {R : Type} [FloatArith R] (s : ScrollSession R)
    (contact : Contact) :
    let p : Vector R := s.ScaleVector ⟨toLONG contact.logicalX, toLONG contact.logicalY⟩
    let d : Vector R := displacement s contact
    let forward : Bool :=
      FloatArith.lt (AngleBetween s.direction_ d) (s.settings_.startDeadzoneAngle / ofInt 2) &&
        FloatArith.lt s.settings_.startDeadzone (d.dot s.direction_)
    let backward : Bool :=
      FloatArith.lt (AngleBetween s.direction_ d.neg)
          (s.settings_.startDeadzoneAngle / ofInt 2) &&
        FloatArith.lt (d.dot s.direction_) (-s.settings_.startDeadzone)
    let started (polarity : Int) : ScrollSession R × List SinkEvent :=
      ({ s with scrollDirection_ := polarity
                position_ := p
                direction_ := d.divScalar (FloatArith.toFloat d.Norm) },
        [⟨s.scroller_, ScrollerCall.StartScrolling⟩,
          ⟨s.scroller_, ScrollerCall.Scroll (pulseValue s polarity d)⟩])
    (forward = true → s.StartScrolling contact = started 1) ∧
    (forward = false → backward = true → s.StartScrolling contact = started (-1)) ∧
    (∀ frame, s.scrollDirection_ = 0 → tracked s frame = some contact →
      contact.isTouch = true →
      (forward = true → s.Update frame = (true, started 1)) ∧
      (forward = false → backward = true → s.Update frame = (true, started (-1)))) := by
  intro p d forward backward started
  have h1 : forward = true → s.StartScrolling contact = started 1 := by
    intro hf
    simp only [forward, d, displacement] at hf
    simp only [ScrollSession.StartScrolling, hf, if_true]
    rfl
  have h2 : forward = false → backward = true → s.StartScrolling contact = started (-1) := by
    intro hf hb
    simp only [forward, d, displacement] at hf
    simp only [backward, d, displacement] at hb
    simp only [ScrollSession.StartScrolling, hf, hb, if_true]
    rfl
  refine ⟨h1, h2, ?_⟩
  intro frame hp ht htouch
  rw [ScrollSession.Update_eq, ht]
  simp only [htouch, hp, if_true]
  exact ⟨fun hf => by rw [← h1 hf]; rfl, fun hf hb => by rw [← h2 hf hb]; rfl⟩

/-- C6, evaluated on the vertical session anchored at `(190, 50)` in a slot of height
100: a touch at `(190, 75)` starts scrolling with polarity `+1`, one `StartScrolling`
and one `Scroll`; a touch at `(190, 25)` starts it with polarity `-1`. -/
theorem StartScrolling_transition_witness :
    (exSession 0).StartScrolling (exContact 1 0 true 190 75) =
      ({ exSession 0 with
          scrollDirection_ := 1
          position_ := ⟨FloatArith.ofRat (19 / 10), FloatArith.ofRat (3 / 4)⟩
          direction_ := ⟨FloatArith.ofRat 0, FloatArith.ofRat 1⟩ },
        [⟨ScrollerRef.vScroller_, ScrollerCall.StartScrolling⟩,
          ⟨ScrollerRef.vScroller_, ScrollerCall.Scroll (-25)⟩]) ∧
    (exSession 0).StartScrolling (exContact 1 0 true 190 25) =
      ({ exSession 0 with
          scrollDirection_ := -1
          position_ := ⟨FloatArith.ofRat (19 / 10), FloatArith.ofRat (1 / 4)⟩
          direction_ := ⟨FloatArith.ofRat 0, FloatArith.ofRat (-1)⟩ },
        [⟨ScrollerRef.vScroller_, ScrollerCall.StartScrolling⟩,
          ⟨ScrollerRef.vScroller_, ScrollerCall.Scroll 25⟩]) :=
  ⟨((StartScrolling_transition (exSession 0) (exContact 1 0 true 190 75)).1
      (by decide!)).trans (by decide!),
    ((StartScrolling_transition (exSession 0) (exContact 1 0 true 190 25)).2.1
      (by decide!) (by decide!)).trans (by decide!)⟩

/-- C7. Wind-up hysteresis.  For a Scroll session with polarity 0 (in particular the
vertical session, direction `(0,1)`, anchored at `p0`) and every sequence of frames in
each of which the tracked contact is touching and displaced from the anchor by at most
`startDeadzone` along the session direction, `|d·u| <= startDeadzone` (zero displacement
included): every `Update` returns true, the sink is never called, and the session,
with its polarity 0, anchor position and direction, is exactly unchanged. -/
theorem wind_up_hysteresis {R : Type} [FloatArith R] [FloatOrder R] (s : ScrollSession R)
    (frames : List (List Contact)) (hp : s.scrollDirection_ = 0)
    (hf : ∀ frame ∈ frames, ∃ c, tracked s frame = some c ∧ c.isTouch = true ∧
      FloatOrder.le (FloatOrder.abs ((displacement s c).dot s.direction_))
        s.settings_.startDeadzone = true) :
    updates s frames = (List.replicate frames.length true, s, []) := by
  induction frames with
  | nil => rfl
  | cons frame rest ih =>
    obtain ⟨c, hc, ht, hle⟩ := hf frame (by simp)
    have h1 := FloatOrder.not_gt_of_abs_le _ _ hle
    have h2 := FloatOrder.not_lt_neg_of_abs_le _ _ hle
    simp only [displacement] at h1 h2
    have hs : s.StartScrolling c = (s, []) := by
      simp [ScrollSession.StartScrolling, h1, h2]
    have hu : s.Update frame = (true, s, []) := by
      rw [ScrollSession.Update_eq, hc]
      simp [ht, hp, hs]
    have ih1 := ih (fun f hfm => hf f (by simp [hfm]))
    simp [updates, hu, ih1, List.replicate_succ]

/-- C7, evaluated on the vertical session anchored at `(190, 50)`, start deadzone
`1/20` of the slot height 100: touches at `(190, 52)`, `(150, 50)`, `(190, 50)` and
`(190, 45)` leave it in wind-up. -/
theorem wind_up_hysteresis_witness :
    updates (exSession 0)
        [[exContact 1 0 true 190 52], [exContact 1 0 true 150 50],
          [exContact 1 0 true 190 50], [exContact 2 1 true 0 0, exContact 1 0 true 190 45]] =
      ([true, true, true, true], exSession 0, []) :=
  wind_up_hysteresis (exSession 0) _ rfl (by
    intro frame hmem
    simp only [List.mem_cons, List.mem_singleton, List.not_mem_nil, or_false] at hmem
    rcases hmem with h | h | h | h <;> subst h
    · exact ⟨exContact 1 0 true 190 52, rfl, rfl, by decide!⟩
    · exact ⟨exContact 1 0 true 150 50, rfl, rfl, by decide!⟩
    · exact ⟨exContact 1 0 true 190 50, rfl, rfl, by decide!⟩
    · exact ⟨exContact 1 0 true 190 45, rfl, rfl, by decide!⟩)

/-- C8. Reversal in `ContinueScrolling`.  Let `q` be the last committed position, `u`
the direction, `p` the scaled position of the contact and `d = p - q`.  If the angle
between `u` and `-d` (the angle between `d` and `-u`) is below `reverseDeadzoneAngle/2`
and `|d|` exceeds `reverseDeadzone`, the polarity `s` becomes `-s`, the sink receives
exactly one `Scroll`, computed with the new polarity, and no `StartScrolling`, and the
session commits `position := p` and `direction := d/|d|`.  The same holds of an `Update`
of a session with established polarity on a frame whose tracked contact is this
touching contact. -/
theorem reversal_in_ContinueScrolling {R : Type} [FloatArith R] (s : ScrollSession R)
    (contact : Contact)
    (hangle : FloatArith.lt (AngleBetween s.direction_ (displacement s contact).neg)
      (s.settings_.reverseDeadzoneAngle / ofInt 2) = true)
    (hnorm : FloatArith.lt s.settings_.reverseDeadzone (displacement s contact).Norm = true) :
    let p : Vector R := s.ScaleVector ⟨toLONG contact.logicalX, toLONG contact.logicalY⟩
    let d : Vector R := displacement s contact
    let reversed : ScrollSession R × List SinkEvent :=
      ({ s with scrollDirection_ := -s.scrollDirection_
                position_ := p
                direction_ := d.divScalar (FloatArith.toFloat d.Norm) },
        [⟨s.scroller_, ScrollerCall.Scroll (pulseValue s (-s.scrollDirection_) d)⟩])
    s.ContinueScrolling contact = reversed ∧
    (s.scrollDirection_ = 1 → reversed.1.scrollDirection_ = -1) ∧
    (s.scrollDirection_ = -1 → reversed.1.scrollDirection_ = 1) ∧
    (∀ frame, s.scrollDirection_ ≠ 0 → tracked s frame = some contact →
      contact.isTouch = true → s.Update frame = (true, reversed)) := by
  intro p d reversed
  have h1 : s.ContinueScrolling contact = reversed := by
    simp only [displacement] at hangle hnorm
    simp only [ScrollSession.ContinueScrolling, hangle, hnorm, if_true]
    simp only [ScrollSession.Scroll, reversed, pulseValue, d, displacement, p, mul_neg, mul_one]
  refine ⟨h1, ?_, ?_, ?_⟩
  · intro h
    simp [reversed, h]
  · intro h
    simp [reversed, h]
  · intro frame hp ht htouch
    rw [ScrollSession.Update_eq, ht]
    simp only [htouch, hp, if_false, Bool.true_eq_false]
    rw [h1]

/-- C8, evaluated on the vertical session scrolling with polarity `+1` from `(190, 50)`:
a touch at `(190, 25)` reverses it. -/
theorem reversal_in_ContinueScrolling_witness :
    (exSession 1).ContinueScrolling (exContact 1 0 true 190 25) =
      ({ exSession 1 with
          scrollDirection_ := -1
          position_ := ⟨FloatArith.ofRat (19 / 10), FloatArith.ofRat (1 / 4)⟩
          direction_ := ⟨FloatArith.ofRat 0, FloatArith.ofRat (-1)⟩ },
        [⟨ScrollerRef.vScroller_, ScrollerCall.Scroll 25⟩]) :=
  ((reversal_in_ContinueScrolling (exSession 1) (exContact 1 0 true 190 25)
    (by decide!) (by decide!)).1).trans (by decide!)

/-! ## Arbiter: lemmas -/

/-- Resetting the owner of a Scroll session calls `StopScrolling` on its sink once. -/
theorem ChiralScroll.resetSession_scroll {R : Type} [FloatArith R] (cs : ChiralScroll R)
    (s : ScrollSession R) (hs : cs.touchSession_ = some (TouchSession.ScrollSession s)) :
    cs.resetSession =
      ({ cs with touchSession_ := none }, [⟨s.scroller_, ScrollerCall.StopScrolling⟩]) := by
  simp [ChiralScroll.resetSession, hs, TouchSession.dtor, ScrollSession.dtor]

/-- After a reset no session is owned; settings and keyboard time are untouched. -/
theorem ChiralScroll.resetSession_state {R : Type} [FloatArith R] (cs : ChiralScroll R) :
    cs.resetSession.1 = { cs with touchSession_ := none } := by
  unfold ChiralScroll.resetSession
  cases h : cs.touchSession_ with
  | none =>
    simp only
    cases cs
    simp_all
  | some t => simp

/-- The calls `StartScrolling` and `ContinueScrolling` make on the sink are never
`StopScrolling`. -/
theorem ScrollSession.Update_no_stop {R : Type} [FloatArith R] (s : ScrollSession R)
    (frame : List Contact) : stopCalls (s.Update frame).2.2 = [] := by
  rw [ScrollSession.Update_eq]
  cases tracked s frame with
  | none => rfl
  | some c =>
    simp only
    by_cases ht : c.isTouch = false
    · simp [ht, stopCalls]
    · by_cases hp : s.scrollDirection_ = 0
      · simp only [ht, hp, if_true, if_false, ScrollSession.StartScrolling,
          ScrollSession.Scroll]
        split_ifs <;> simp [stopCalls]
      · simp only [ht, hp, if_false, ScrollSession.ContinueScrolling, ScrollSession.Scroll]
        split_ifs <;> simp [stopCalls]

/-- What `StartScrollingSession` can do when it returns: leave the session slot alone
and call nothing, or install a fresh Scroll session (polarity 0) for this device and
destroy the session it replaces. -/
theorem ChiralScroll.StartScrollingSession_cases {R : Type} [FloatArith R]
    (cs cs' : ChiralScroll R) (device : TouchDevice) (contacts : List Contact)
    (events : List SinkEvent)
    (h : cs.StartScrollingSession device contacts = some (cs', events)) :
    (cs'.touchSession_ = cs.touchSession_ ∧ events = []) ∨
    (∃ s', cs'.touchSession_ = some (TouchSession.ScrollSession s') ∧
      s'.device_ = device.addr ∧ s'.scrollDirection_ = 0 ∧
      events = match cs.touchSession_ with
        | some old => old.dtor
        | none => []) := by
  unfold ChiralScroll.StartScrollingSession at h
  cases contacts with
  | nil => simp at h
  | cons contact rest =>
    simp only at h
    cases hci : device.GetContactInfo contact.contactInfoLink with
    | none => simp [hci] at h
    | some contactInfo =>
      simp only [hci, ScrollSession.ctor] at h
      split_ifs at h
      · right
        simp only [Option.some.injEq, Prod.mk.injEq, ChiralScroll.assignSession] at h
        cases hts : cs.touchSession_ with
        | none =>
          simp only [hts, Prod.mk.injEq] at h
          obtain ⟨h1, h2⟩ := h
          subst h1
          exact ⟨_, rfl, rfl, rfl, h2.symm⟩
        | some old =>
          simp only [hts, Prod.mk.injEq] at h
          obtain ⟨h1, h2⟩ := h
          subst h1
          exact ⟨_, rfl, rfl, rfl, h2.symm⟩
      · right
        simp only [Option.some.injEq, Prod.mk.injEq, ChiralScroll.assignSession] at h
        cases hts : cs.touchSession_ with
        | none =>
          simp only [hts, Prod.mk.injEq] at h
          obtain ⟨h1, h2⟩ := h
          subst h1
          exact ⟨_, rfl, rfl, rfl, h2.symm⟩
        | some old =>
          simp only [hts, Prod.mk.injEq] at h
          obtain ⟨h1, h2⟩ := h
          subst h1
          exact ⟨_, rfl, rfl, rfl, h2.symm⟩
      · left
        simp only [Option.some.injEq, Prod.mk.injEq] at h
        obtain ⟨h1, h2⟩ := h
        subst h1
        exact ⟨rfl, h2.symm⟩

/-- A false result of `Update` comes with an unchanged session and no sink call. -/
theorem ScrollSession.Update_false {R : Type} [FloatArith R] (s : ScrollSession R)
    (frame : List Contact) (h : (s.Update frame).1 = false) :
    s.Update frame = (false, s, []) := by
  rw [ScrollSession.Update_eq] at h ⊢
  cases htr : tracked s frame with
  | none => rfl
  | some c =>
    rw [htr] at h
    simp only at h ⊢
    by_cases ht : c.isTouch = false
    · simp [ht]
    · by_cases hp : s.scrollDirection_ = 0
      · simp [ht, hp] at h
      · simp [ht, hp] at h

/-- An `Update` keeps the session bound to the same sink, device and contact. -/
theorem ScrollSession.Update_binding {R : Type} [FloatArith R] (s : ScrollSession R)
    (frame : List Contact) :
    (s.Update frame).2.1.scroller_ = s.scroller_ ∧
    (s.Update frame).2.1.device_ = s.device_ ∧
    (s.Update frame).2.1.contactId_ = s.contactId_ := by
  rw [ScrollSession.Update_eq]
  cases tracked s frame with
  | none => exact ⟨rfl, rfl, rfl⟩
  | some c =>
    simp only [ScrollSession.StartScrolling, ScrollSession.ContinueScrolling,
      ScrollSession.Scroll]
    split_ifs <;> exact ⟨rfl, rfl, rfl⟩

/-- When scrolling is disabled, `ProcessTouch` only resets the session slot. -/
theorem ChiralScroll.ProcessTouch_disabled {R : Type} [FloatArith R] (cs : ChiralScroll R)
    (now : Int) (device : TouchDevice) (contacts : List Contact)
    (hd : scrollingEnabled cs device = false) :
    cs.ProcessTouch now device contacts =
      some (ChiralScroll.resetSession
        { cs with settings_ := (cs.settings_.GetDeviceSettings device.name).1 }) := by
  unfold scrollingEnabled at hd
  unfold ChiralScroll.ProcessTouch
  cases hg : (cs.settings_.GetDeviceSettings device.name).1.GetGlobalSettings.enabled <;>
    cases he : (cs.settings_.GetDeviceSettings device.name).2.enabled <;>
    simp_all

/-- When scrolling is enabled and the owned session belongs to the device, `ProcessTouch`
updates that session; a false result destroys it, and a Non-Scrolling session is then
created if a contact is touching. -/
theorem ChiralScroll.ProcessTouch_same_device {R : Type} [FloatArith R]
    (cs : ChiralScroll R) (now : Int) (device : TouchDevice) (contacts : List Contact)
    (session : TouchSession R) (hs : cs.touchSession_ = some session)
    (he : scrollingEnabled cs device = true) (hdev : session.device = device.addr) :
    cs.ProcessTouch now device contacts =
      if (session.Update contacts).1 = true then
        some ({ cs with settings_ := (cs.settings_.GetDeviceSettings device.name).1
                        touchSession_ := some (session.Update contacts).2.1 },
          (session.Update contacts).2.2)
      else
        some ({ cs with settings_ := (cs.settings_.GetDeviceSettings device.name).1
                        touchSession_ :=
                          if contacts.any (fun contact => contact.isTouch) then
                            some (TouchSession.NonScrollSession device.addr)
                          else none },
          (session.Update contacts).2.2 ++ (session.Update contacts).2.1.dtor) := by
  unfold scrollingEnabled at he
  simp only [Bool.and_eq_true] at he
  unfold ChiralScroll.ProcessTouch
  simp only [he.1, he.2, hs, hdev, Bool.not_true, Bool.or_self, Bool.false_eq_true, if_false,
    beq_self_eq_true, if_true]
  cases hu : (session.Update contacts).1 with
  | true => simp
  | false =>
    cases ha : contacts.any (fun contact => contact.isTouch) <;>
      simp [ChiralScroll.resetSession, ChiralScroll.assignSession, ha]

/-- When scrolling is enabled and the owned session belongs to another device,
`ProcessTouch` leaves the session alone unless `StartScrollingSession` replaces it. -/
theorem ChiralScroll.ProcessTouch_other_device {R : Type} [FloatArith R]
    (cs : ChiralScroll R) (now : Int) (device : TouchDevice) (contacts : List Contact)
    (session : TouchSession R) (hs : cs.touchSession_ = some session)
    (he : scrollingEnabled cs device = true) (hdev : session.device ≠ device.addr)
    (cs' : ChiralScroll R) (events : List SinkEvent)
    (h : cs.ProcessTouch now device contacts = some (cs', events)) :
    (cs'.touchSession_ = some session ∧ events = []) ∨
    (∃ s', cs'.touchSession_ = some (TouchSession.ScrollSession s') ∧
      s'.device_ = device.addr ∧ s'.scrollDirection_ = 0 ∧ events = session.dtor) := by
  unfold scrollingEnabled at he
  simp only [Bool.and_eq_true] at he
  unfold ChiralScroll.ProcessTouch at h
  have hne : (session.device == device.addr) = false := by simpa using hdev
  simp only [he.1, he.2, Bool.not_true, Bool.or_self, Bool.false_eq_true, if_false] at h
  generalize hcs1 : ({ cs with settings_ := (cs.settings_.GetDeviceSettings device.name).1 } :
    ChiralScroll R) = cs1 at h
  have hts : cs1.touchSession_ = some session := by
    rw [← hcs1]
    exact hs
  simp only [hs, hne, Bool.false_eq_true, if_false] at h
  split_ifs at h with hshould
  · cases hst : cs1.StartScrollingSession device contacts with
    | none => simp [hst] at h
    | some r =>
      obtain ⟨cs2, ev2⟩ := r
      rcases ChiralScroll.StartScrollingSession_cases _ _ _ _ _ hst with
        ⟨h1, h2⟩ | ⟨s', h1, h2, h3, h4⟩
      · rw [hts] at h1
        simp only [hst, h1, Option.isNone_some, Bool.false_and, Bool.false_eq_true, if_false,
          Option.some.injEq, Prod.mk.injEq] at h
        obtain ⟨e1, e2⟩ := h
        subst e1 e2
        exact Or.inl ⟨h1, h2⟩
      · rw [hts] at h4
        simp only [hst, h1, Option.isNone_some, Bool.false_and, Bool.false_eq_true, if_false,
          Option.some.injEq, Prod.mk.injEq] at h
        obtain ⟨e1, e2⟩ := h
        subst e1 e2
        exact Or.inr ⟨s', h1, h2, h3, h4⟩
  · simp only [hts, Option.isNone_some, Bool.false_and, Bool.false_eq_true, if_false,
      Option.some.injEq, Prod.mk.injEq] at h
    obtain ⟨e1, e2⟩ := h
    subst e1 e2
    exact Or.inl ⟨hts, rfl⟩

/-- The member `StartScrollingSession` returns when the first contact exists and its
link names a slot of the device. -/
theorem ChiralScroll.StartScrollingSession_isSome {R : Type} [FloatArith R]
    (cs : ChiralScroll R) (device : TouchDevice) (contact : Contact) (rest : List Contact)
    (hl : (device.GetContactInfo contact.contactInfoLink).isSome = true) :
    (cs.StartScrollingSession device (contact :: rest)).isSome = true := by
  unfold ChiralScroll.StartScrollingSession
  cases hci : device.GetContactInfo contact.contactInfoLink with
  | none => simp [hci] at hl
  | some contactInfo =>
    simp only [hci, ScrollSession.ctor]
    split_ifs <;> rfl

/-- The member `ProcessTouch` returns on every frame whose contacts carry links of slots
of the device, as the frames produced by `GetContacts` do. -/
theorem ChiralScroll.ProcessTouch_isSome {R : Type} [FloatArith R] (cs : ChiralScroll R)
    (now : Int) (device : TouchDevice) (contacts : List Contact)
    (hl : ∀ c ∈ contacts, (device.GetContactInfo c.contactInfoLink).isSome = true) :
    (cs.ProcessTouch now device contacts).isSome = true := by
  have hstart : ∀ cs1 : ChiralScroll R, ∀ ds : DeviceSettings R,
      ((if cs1.ShouldStartScrollingSession now ds contacts = true then
          cs1.StartScrollingSession device contacts
        else some (cs1, [])) : Option (ChiralScroll R × List SinkEvent)).isSome = true := by
    intro cs1 ds
    split_ifs with hsh
    · cases contacts with
      | nil => simp [ChiralScroll.ShouldStartScrollingSession] at hsh
      | cons c rest =>
        exact ChiralScroll.StartScrollingSession_isSome cs1 device c rest (hl c (by simp))
    · rfl
  have hfin : ∀ o : Option (ChiralScroll R × List SinkEvent), o.isSome = true →
      ((match o with
        | none => none
        | some (cs2, events) =>
          if (cs2.touchSession_.isNone && contacts.any fun contact => contact.isTouch) = true then
            some ((cs2.assignSession (TouchSession.NonScrollSession device.addr)).1,
              events ++ (cs2.assignSession (TouchSession.NonScrollSession device.addr)).2)
          else some (cs2, events)) : Option (ChiralScroll R × List SinkEvent)).isSome = true := by
    intro o ho
    cases o with
    | none => simp at ho
    | some r =>
      obtain ⟨cs2, ev⟩ := r
      simp only
      split_ifs <;> rfl
  unfold ChiralScroll.ProcessTouch
  simp only
  by_cases hdis : (!(cs.settings_.GetDeviceSettings device.name).1.GetGlobalSettings.enabled ||
      !(cs.settings_.GetDeviceSettings device.name).2.enabled) = true
  · rw [if_pos hdis]
    rfl
  · rw [if_neg hdis]
    apply hfin
    cases hts : cs.touchSession_ with
    | none => exact hstart _ _
    | some session =>
      simp only
      by_cases hdev : (session.device == device.addr) = true
      · rw [if_pos hdev]
        by_cases hu : (!(session.Update contacts).1) = true
        · rw [if_pos hu]
          rfl
        · rw [if_neg hu]
          rfl
      · rw [if_neg hdev]
        exact hstart _ _

/-! ## Arbiter: theorems -/

/-- C9. Guaranteed sink teardown.  Let the arbiter own the Scroll session `s`, in
wind-up or scrolling.  `ProcessKeyboard` ends it and calls `StopScrolling` on its sink
exactly once.  `ProcessTouch` with scrolling globally or per-device disabled does the
same.  With scrolling enabled and a frame from the session's device: if `Update`
returns false the session ends and the only sink call is one `StopScrolling` on its
sink; if `Update` returns true the session stays, updated, and no `StopScrolling` is
called.  With scrolling enabled and a frame from another device: either the session
stays as it is and nothing is called, or it is replaced by a newly created Scroll
session and the only sink call is one `StopScrolling` on the sink of `s`; the call
returns whenever the links of the frame's contacts name slots of the device. -/
theorem guaranteed_sink_teardown {R : Type} [FloatArith R] (cs : ChiralScroll R)
    (s : ScrollSession R) (hs : cs.touchSession_ = some (TouchSession.ScrollSession s))
    (now : Int) :
    ((cs.ProcessKeyboard now).2 = [⟨s.scroller_, ScrollerCall.StopScrolling⟩] ∧
      (cs.ProcessKeyboard now).1.touchSession_ = none) ∧
    (∀ (device : TouchDevice) (contacts : List Contact),
      (scrollingEnabled cs device = false →
        ∃ cs', cs.ProcessTouch now device contacts =
            some (cs', [⟨s.scroller_, ScrollerCall.StopScrolling⟩]) ∧
          cs'.touchSession_ = none) ∧
      (scrollingEnabled cs device = true → s.device_ = device.addr →
        (s.Update contacts).1 = false →
        ∃ cs', cs.ProcessTouch now device contacts =
            some (cs', [⟨s.scroller_, ScrollerCall.StopScrolling⟩]) ∧
          ∀ s', cs'.touchSession_ ≠ some (TouchSession.ScrollSession s')) ∧
      (scrollingEnabled cs device = true → s.device_ = device.addr →
        (s.Update contacts).1 = true →
        ∃ cs', cs.ProcessTouch now device contacts = some (cs', (s.Update contacts).2.2) ∧
          cs'.touchSession_ = some (TouchSession.ScrollSession (s.Update contacts).2.1) ∧
          (s.Update contacts).2.1.scroller_ = s.scroller_ ∧
          stopCalls (s.Update contacts).2.2 = []) ∧
      (scrollingEnabled cs device = true → s.device_ ≠ device.addr →
        ((∀ c ∈ contacts, (device.GetContactInfo c.contactInfoLink).isSome = true) →
          (cs.ProcessTouch now device contacts).isSome = true) ∧
        ∀ cs' events, cs.ProcessTouch now device contacts = some (cs', events) →
          (cs'.touchSession_ = some (TouchSession.ScrollSession s) ∧ events = []) ∨
          (∃ s', cs'.touchSession_ = some (TouchSession.ScrollSession s') ∧
            s'.device_ = device.addr ∧ s'.scrollDirection_ = 0 ∧
            events = [⟨s.scroller_, ScrollerCall.StopScrolling⟩]))) := by
  have hk := ChiralScroll.resetSession_scroll
    ({ cs with lastKeyboardTime_ := Time.at now } : ChiralScroll R) s hs
  refine ⟨⟨?_, ?_⟩, ?_⟩
  · show (ChiralScroll.resetSession _).2 = _
    rw [hk]
  · show (ChiralScroll.resetSession _).1.touchSession_ = _
    rw [hk]
  · intro device contacts
    refine ⟨?_, ?_, ?_, ?_⟩
    · intro hd
      have hr := ChiralScroll.resetSession_scroll
        ({ cs with settings_ := (cs.settings_.GetDeviceSettings device.name).1 } :
          ChiralScroll R) s hs
      rw [ChiralScroll.ProcessTouch_disabled cs now device contacts hd, hr]
      exact ⟨_, rfl, rfl⟩
    · intro he hdev hu
      rw [ChiralScroll.ProcessTouch_same_device cs now device contacts _ hs he hdev]
      have hu2 := ScrollSession.Update_false s contacts hu
      simp only [TouchSession.Update, hu2, Bool.false_eq_true, if_false, List.nil_append,
        TouchSession.dtor, ScrollSession.dtor]
      refine ⟨_, rfl, ?_⟩
      intro s'
      simp only
      split_ifs <;> simp
    · intro he hdev hu
      rw [ChiralScroll.ProcessTouch_same_device cs now device contacts _ hs he hdev]
      simp only [TouchSession.Update, hu, if_true]
      exact ⟨_, rfl, rfl, (ScrollSession.Update_binding s contacts).1,
        ScrollSession.Update_no_stop s contacts⟩
    · intro he hdev
      refine ⟨ChiralScroll.ProcessTouch_isSome cs now device contacts, ?_⟩
      intro cs' events h
      have := ChiralScroll.ProcessTouch_other_device cs now device contacts _ hs he hdev
        cs' events h
      simpa [TouchSession.dtor, ScrollSession.dtor] using this

/-- C9, evaluated: the arbiter owns the vertical session in wind-up; a keyboard event
and a frame in which the tracked contact has lifted each call `StopScrolling` once. -/
theorem guaranteed_sink_teardown_witness :
    (ChiralScroll.ProcessKeyboard
      { settings_ := { globalSettings_ := exGlobal, deviceSettings_ := [] }
        touchSession_ := some (TouchSession.ScrollSession (exSession 0))
        lastKeyboardTime_ := Time.InfinitePast } 5).2 =
      [⟨ScrollerRef.vScroller_, ScrollerCall.StopScrolling⟩] ∧
    ∃ cs', ChiralScroll.ProcessTouch
      { settings_ := { globalSettings_ := exGlobal, deviceSettings_ := [] }
        touchSession_ := some (TouchSession.ScrollSession (exSession 0))
        lastKeyboardTime_ := Time.InfinitePast } 5 exDevice [exContact 1 0 false 190 50] =
          some (cs', [⟨ScrollerRef.vScroller_, ScrollerCall.StopScrolling⟩]) ∧
        ∀ s', cs'.touchSession_ ≠ some (TouchSession.ScrollSession s') :=
  ⟨(guaranteed_sink_teardown _ (exSession 0) rfl 5).1.1,
    ((guaranteed_sink_teardown _ (exSession 0) rfl 5).2 exDevice
      [exContact 1 0 false 190 50]).2.1 rfl rfl rfl⟩

/-- C10. The member `ProcessKeyboard`: whatever the arbiter state and the typing
lockout of any device, afterwards no session is owned, the last-keyboard-event time is
the time of the call, and the settings are unchanged; a session that was owned has been
destroyed. -/
theorem ProcessKeyboard_terminates_session {R : Type} [FloatArith R] (cs : ChiralScroll R)
    (now : Int) :
    (cs.ProcessKeyboard now).1.touchSession_ = none ∧
    (cs.ProcessKeyboard now).1.lastKeyboardTime_ = Time.at now ∧
    (cs.ProcessKeyboard now).1.settings_ = cs.settings_ ∧
    (cs.ProcessKeyboard now).2 =
      match cs.touchSession_ with
      | some session => session.dtor
      | none => [] := by
  have h1 : (cs.ProcessKeyboard now).1 =
      { cs with lastKeyboardTime_ := Time.at now, touchSession_ := none } :=
    ChiralScroll.resetSession_state _
  rw [h1]
  refine ⟨rfl, rfl, rfl, ?_⟩
  simp only [ChiralScroll.ProcessKeyboard, ChiralScroll.resetSession]
  cases cs.touchSession_ <;> rfl

/-! ## Settings: lemmas -/

/-- The entry stored for a name is found right after `GetDeviceSettings` has resolved
that name. -/
theorem Settings.lookup_GetDeviceSettings {R : Type} [FloatArith R] (s : Settings R)
    (name : String) :
    (s.GetDeviceSettings name).1.deviceSettings_.lookup name =
      some (s.GetDeviceSettings name).2 := by
  unfold Settings.GetDeviceSettings
  cases h : s.deviceSettings_.lookup name with
  | some d => simpa using h
  | none =>
    simp only [List.lookup_append, h, Option.none_or]
    simp [List.lookup_cons]

/-- Resolving the same name again returns the same entry and leaves the table as the
first call left it. -/
theorem Settings.GetDeviceSettings_idem {R : Type} [FloatArith R] (s : Settings R)
    (name : String) :
    (s.GetDeviceSettings name).1.GetDeviceSettings name =
      ((s.GetDeviceSettings name).1, (s.GetDeviceSettings name).2) := by
  have h := Settings.lookup_GetDeviceSettings s name
  generalize s.GetDeviceSettings name = r at h
  simp [Settings.GetDeviceSettings, h]

/-- Resolving a device leaves the global settings as they are. -/
theorem Settings.GetDeviceSettings_global {R : Type} [FloatArith R] (s : Settings R)
    (name : String) :
    (s.GetDeviceSettings name).1.globalSettings_ = s.globalSettings_ := by
  unfold Settings.GetDeviceSettings
  cases s.deviceSettings_.lookup name <;> rfl

/-- Scrolling stays enabled or disabled for a device once its settings are resolved. -/
theorem scrollingEnabled_resolved {R : Type} [FloatArith R] (cs : ChiralScroll R)
    (device : TouchDevice) (session : Option (TouchSession R)) :
    scrollingEnabled ({ resolved cs device with touchSession_ := session }) device =
      scrollingEnabled cs device := by
  simp only [scrollingEnabled, resolved, Settings.GetDeviceSettings_idem,
    Settings.GetGlobalSettings, Settings.GetDeviceSettings_global]

/-! ## Arbiter: session creation lemmas -/

/-- The two zone tests of `StartScrollingSession` decide which session is assigned; the
device settings it reads are the entry resolved for the device. -/
theorem ChiralScroll.StartScrollingSession_eq {R : Type} [FloatArith R] (cs : ChiralScroll R)
    (device : TouchDevice) (contact : Contact) (rest : List Contact) (info : ContactInfo)
    (hinfo : device.GetContactInfo contact.contactInfoLink = some info) :
    cs.StartScrollingSession device (contact :: rest) =
      if inVerticalZone (deviceSettingsOf cs device) info contact = true then
        some ((resolved cs device).assignSession (TouchSession.ScrollSession
          (verticalSession device contact info (deviceSettingsOf cs device)
            (resolved cs device).settings_.GetGlobalSettings)))
      else if inHorizontalZone (deviceSettingsOf cs device) info contact = true then
        some ((resolved cs device).assignSession (TouchSession.ScrollSession
          (horizontalSession device contact info (deviceSettingsOf cs device)
            (resolved cs device).settings_.GetGlobalSettings)))
      else
        some (resolved cs device, []) := by
  unfold ChiralScroll.StartScrollingSession
  simp only [hinfo, ScrollSession.ctor, inVerticalZone, inHorizontalZone, deviceSettingsOf,
    resolved, verticalSession, horizontalSession]

/-- The arbiter with resolved settings resolves to itself. -/
theorem resolved_resolved {R : Type} [FloatArith R] (cs : ChiralScroll R)
    (device : TouchDevice) :
    resolved (resolved cs device) device = resolved cs device ∧
    deviceSettingsOf (resolved cs device) device = deviceSettingsOf cs device := by
  simp [resolved, deviceSettingsOf, Settings.GetDeviceSettings_idem]

/-- With scrolling enabled and no session owned, `ProcessTouch` goes through the start
test and then through the placeholder test. -/
theorem ChiralScroll.ProcessTouch_no_session {R : Type} [FloatArith R] (cs : ChiralScroll R)
    (now : Int) (device : TouchDevice) (contacts : List Contact)
    (hnone : cs.touchSession_ = none) (he : scrollingEnabled cs device = true) :
    cs.ProcessTouch now device contacts =
      match (if (resolved cs device).ShouldStartScrollingSession now
            (deviceSettingsOf cs device) contacts = true then
          (resolved cs device).StartScrollingSession device contacts
        else some (resolved cs device, [])) with
      | none => none
      | some (cs2, events) =>
        if (cs2.touchSession_.isNone && contacts.any fun contact => contact.isTouch) = true then
          some ((cs2.assignSession (TouchSession.NonScrollSession device.addr)).1,
            events ++ (cs2.assignSession (TouchSession.NonScrollSession device.addr)).2)
        else some (cs2, events) := by
  unfold scrollingEnabled at he
  simp only [Bool.and_eq_true] at he
  unfold ChiralScroll.ProcessTouch
  simp only [he.1, he.2, hnone, Bool.not_true, Bool.or_self, Bool.false_eq_true, if_false,
    resolved, deviceSettingsOf]

/-- A frame of one touching contact with identifier 0, from a device with scrolling
enabled, processed while no session is owned.  Past the typing lockout the zone tests
select a vertical session, a horizontal session or, in neither zone, a Non-Scrolling
session; within the lockout a Non-Scrolling session is created.  No sink is called. -/
theorem ChiralScroll.ProcessTouch_single_contact {R : Type} [FloatArith R]
    (cs : ChiralScroll R) (now : Int) (device : TouchDevice) (contact : Contact)
    (info : ContactInfo) (hnone : cs.touchSession_ = none)
    (he : scrollingEnabled cs device = true) (hid : contact.id = 0)
    (ht : contact.isTouch = true)
    (hinfo : device.GetContactInfo contact.contactInfoLink = some info) :
    cs.ProcessTouch now device [contact] =
      some ({ resolved cs device with
          touchSession_ :=
            if ToInt64Milliseconds now cs.lastKeyboardTime_ >
                (deviceSettingsOf cs device).typingLockoutMs then
              if inVerticalZone (deviceSettingsOf cs device) info contact = true then
                some (TouchSession.ScrollSession
                  (verticalSession device contact info (deviceSettingsOf cs device)
                    cs.settings_.GetGlobalSettings))
              else if inHorizontalZone (deviceSettingsOf cs device) info contact = true then
                some (TouchSession.ScrollSession
                  (horizontalSession device contact info (deviceSettingsOf cs device)
                    cs.settings_.GetGlobalSettings))
              else some (TouchSession.NonScrollSession device.addr)
            else some (TouchSession.NonScrollSession device.addr) }, []) := by
  rw [ChiralScroll.ProcessTouch_no_session cs now device [contact] hnone he]
  have hres : (resolved cs device).touchSession_ = none := hnone
  have hglob : (resolved cs device).settings_.GetGlobalSettings =
      cs.settings_.GetGlobalSettings := by
    simp [resolved, Settings.GetGlobalSettings, Settings.GetDeviceSettings_global]
  have hlast : (resolved cs device).lastKeyboardTime_ = cs.lastKeyboardTime_ := rfl
  by_cases hlock : ToInt64Milliseconds now cs.lastKeyboardTime_ >
      (deviceSettingsOf cs device).typingLockoutMs
  · have hsh : (resolved cs device).ShouldStartScrollingSession now
        (deviceSettingsOf cs device) [contact] = true := by
      simp [ChiralScroll.ShouldStartScrollingSession, hid, ht, hlast, hlock]
    rw [if_pos hsh, ChiralScroll.StartScrollingSession_eq _ device contact [] info hinfo,
      (resolved_resolved cs device).1, (resolved_resolved cs device).2, hglob, if_pos hlock]
    by_cases hv : inVerticalZone (deviceSettingsOf cs device) info contact = true
    · simp [hv, ChiralScroll.assignSession, hres]
    · by_cases hh : inHorizontalZone (deviceSettingsOf cs device) info contact = true
      · simp [hv, hh, ChiralScroll.assignSession, hres]
      · simp [hv, hh, ChiralScroll.assignSession, hres, ht]
  · have hsh : (resolved cs device).ShouldStartScrollingSession now
        (deviceSettingsOf cs device) [contact] = false := by
      simp only [ChiralScroll.ShouldStartScrollingSession, hlast, Bool.and_eq_false_imp]
      intro _
      simpa using hlock
    rw [hsh, if_neg hlock]
    simp [ChiralScroll.assignSession, hres, ht]

/-- With scrolling enabled and a session of another device owned, `ProcessTouch` runs
the start test: a qualifying frame goes to `StartScrollingSession`, any other frame
changes nothing but the resolved settings. -/
theorem ChiralScroll.ProcessTouch_other_device_eq {R : Type} [FloatArith R]
    (cs : ChiralScroll R) (now : Int) (device : TouchDevice) (contacts : List Contact)
    (session : TouchSession R) (hs : cs.touchSession_ = some session)
    (he : scrollingEnabled cs device = true) (hdev : session.device ≠ device.addr) :
    cs.ProcessTouch now device contacts =
      if (resolved cs device).ShouldStartScrollingSession now
          (deviceSettingsOf cs device) contacts = true then
        (resolved cs device).StartScrollingSession device contacts
      else some (resolved cs device, []) := by
  unfold scrollingEnabled at he
  simp only [Bool.and_eq_true] at he
  have hne : (session.device == device.addr) = false := by simpa using hdev
  obtain ⟨st, ts, lk⟩ := cs
  simp only at hs
  subst hs
  unfold ChiralScroll.ProcessTouch
  simp only [he.1, he.2, hne, Bool.not_true, Bool.or_self, Bool.false_eq_true, if_false,
    resolved, deviceSettingsOf]
  generalize hcs1 :
    (ChiralScroll.mk (st.GetDeviceSettings device.name).1 (some session) lk) = cs1
  have hres : cs1.touchSession_ = some session := by rw [← hcs1]
  by_cases hsh : cs1.ShouldStartScrollingSession now
      (st.GetDeviceSettings device.name).2 contacts = true
  · simp only [hsh, if_true]
    cases hst : cs1.StartScrollingSession device contacts with
    | none => rfl
    | some r =>
      obtain ⟨cs2, ev2⟩ := r
      have hsome : cs2.touchSession_.isNone = false := by
        rcases ChiralScroll.StartScrollingSession_cases _ _ _ _ _ hst with
          ⟨h1, _⟩ | ⟨s', h1, _⟩
        · rw [h1, hres]
          rfl
        · rw [h1]
          rfl
      simp [hsome]
  · simp only [hsh, if_false, Bool.false_eq_true]
    simp [hres]

/-- A frame that is not a single touching contact with identifier 0 fails the start
test at any time. -/
theorem ChiralScroll.ShouldStartScrollingSession_not_qualifying {R : Type} [FloatArith R]
    (cs : ChiralScroll R) (now : Int) (deviceSettings : DeviceSettings R)
    (contacts : List Contact)
    (hq : ¬ ∃ c, contacts = [c] ∧ c.id = 0 ∧ c.isTouch = true) :
    cs.ShouldStartScrollingSession now deviceSettings contacts = false := by
  unfold ChiralScroll.ShouldStartScrollingSession
  split
  · rename_i contact
    by_cases hid : contact.id = 0
    · by_cases ht : contact.isTouch = true
      · exact absurd ⟨contact, rfl, hid, ht⟩ hq
      · simp [ht]
    · simp [hid]
  · rfl

/-- When the start test fails, a Scroll session owned after `ProcessTouch` is the one
owned before, as it was or as its `Update` left it. -/
theorem ChiralScroll.ProcessTouch_no_start {R : Type} [FloatArith R] (cs : ChiralScroll R)
    (now : Int) (device : TouchDevice) (contacts : List Contact)
    (hsh : (resolved cs device).ShouldStartScrollingSession now
      (deviceSettingsOf cs device) contacts = false)
    (cs' : ChiralScroll R) (events : List SinkEvent)
    (h : cs.ProcessTouch now device contacts = some (cs', events))
    (s' : ScrollSession R) (hs' : cs'.touchSession_ = some (TouchSession.ScrollSession s')) :
    ∃ s, cs.touchSession_ = some (TouchSession.ScrollSession s) ∧
      (s' = s ∨ s' = (s.Update contacts).2.1) := by
  by_cases he : scrollingEnabled cs device = true
  · cases hts : cs.touchSession_ with
    | none =>
      rw [ChiralScroll.ProcessTouch_no_session cs now device contacts hts he, hsh] at h
      have hres : (resolved cs device).touchSession_ = none := hts
      simp only [Bool.false_eq_true, if_false, hres, Option.isNone_none, Bool.true_and,
        ChiralScroll.assignSession] at h
      split_ifs at h
      · simp only [Option.some.injEq, Prod.mk.injEq] at h
        rw [← h.1] at hs'
        simp at hs'
      · simp only [Option.some.injEq, Prod.mk.injEq] at h
        rw [← h.1, hres] at hs'
        simp at hs'
    | some session =>
      by_cases hdev : session.device = device.addr
      · rw [ChiralScroll.ProcessTouch_same_device cs now device contacts session hts he hdev] at h
        cases session with
        | NonScrollSession d =>
          simp only [TouchSession.Update] at h
          split_ifs at h <;>
            simp only [Option.some.injEq, Prod.mk.injEq] at h <;>
            rw [← h.1] at hs' <;> simp at hs'
        | ScrollSession s =>
          refine ⟨s, rfl, ?_⟩
          simp only [TouchSession.Update] at h
          split_ifs at h <;>
            simp only [Option.some.injEq, Prod.mk.injEq] at h <;>
            rw [← h.1] at hs' <;> simp at hs'
          exact Or.inr hs'.symm
      · rw [ChiralScroll.ProcessTouch_other_device_eq cs now device contacts session hts he
          hdev, hsh] at h
        simp only [Bool.false_eq_true, if_false, Option.some.injEq, Prod.mk.injEq] at h
        rw [← h.1] at hs'
        have hres : (resolved cs device).touchSession_ = some session := hts
        rw [hres] at hs'
        simp only [Option.some.injEq] at hs'
        exact ⟨s', by rw [hs'], Or.inl rfl⟩
  · have hd : scrollingEnabled cs device = false := by simpa using he
    rw [ChiralScroll.ProcessTouch_disabled cs now device contacts hd] at h
    simp only [Option.some.injEq] at h
    have h1 := congrArg Prod.fst h
    rw [ChiralScroll.resetSession_state] at h1
    simp only at h1
    rw [← h1] at hs'
    simp at hs'

/-- When the forward test of `StartScrolling` passes, the polarity becomes `+1` and the
sink receives `StartScrolling` followed by one `Scroll`. -/
theorem ScrollSession.StartScrolling_forward {R : Type} [FloatArith R] (s : ScrollSession R)
    (contact : Contact)
    (hf : (FloatArith.lt (AngleBetween s.direction_ (displacement s contact))
        (s.settings_.startDeadzoneAngle / ofInt 2) &&
      FloatArith.lt s.settings_.startDeadzone ((displacement s contact).dot s.direction_)) =
        true) :
    s.StartScrolling contact =
      ({ s with scrollDirection_ := 1
                position_ := s.ScaleVector ⟨toLONG contact.logicalX, toLONG contact.logicalY⟩
                direction_ := (displacement s contact).divScalar
                  (FloatArith.toFloat (displacement s contact).Norm) },
        [⟨s.scroller_, ScrollerCall.StartScrolling⟩,
          ⟨s.scroller_, ScrollerCall.Scroll (pulseValue s 1 (displacement s contact))⟩]) := by
  simp only [displacement] at hf
  simp only [ScrollSession.StartScrolling, hf, if_true]
  rfl

/-- When the forward test of `StartScrolling` fails and the backward test passes, the
polarity becomes `-1` and the sink receives `StartScrolling` followed by one `Scroll`. -/
theorem ScrollSession.StartScrolling_backward {R : Type} [FloatArith R]
    (s : ScrollSession R) (contact : Contact)
    (hf : (FloatArith.lt (AngleBetween s.direction_ (displacement s contact))
        (s.settings_.startDeadzoneAngle / ofInt 2) &&
      FloatArith.lt s.settings_.startDeadzone ((displacement s contact).dot s.direction_)) =
        false)
    (hb : (FloatArith.lt (AngleBetween s.direction_ (displacement s contact).neg)
        (s.settings_.startDeadzoneAngle / ofInt 2) &&
      FloatArith.lt ((displacement s contact).dot s.direction_)
        (-s.settings_.startDeadzone)) = true) :
    s.StartScrolling contact =
      ({ s with scrollDirection_ := -1
                position_ := s.ScaleVector ⟨toLONG contact.logicalX, toLONG contact.logicalY⟩
                direction_ := (displacement s contact).divScalar
                  (FloatArith.toFloat (displacement s contact).Norm) },
        [⟨s.scroller_, ScrollerCall.StartScrolling⟩,
          ⟨s.scroller_, ScrollerCall.Scroll (pulseValue s (-1) (displacement s contact))⟩]) := by
  simp only [displacement] at hf hb
  simp only [ScrollSession.StartScrolling, hf, hb, if_true, Bool.false_eq_true, if_false]
  rfl

/-- When both tests of `StartScrolling` fail, the session stays as it is and the sink
receives nothing. -/
theorem ScrollSession.StartScrolling_neither {R : Type} [FloatArith R]
    (s : ScrollSession R) (contact : Contact)
    (hf : (FloatArith.lt (AngleBetween s.direction_ (displacement s contact))
        (s.settings_.startDeadzoneAngle / ofInt 2) &&
      FloatArith.lt s.settings_.startDeadzone ((displacement s contact).dot s.direction_)) =
        false)
    (hb : (FloatArith.lt (AngleBetween s.direction_ (displacement s contact).neg)
        (s.settings_.startDeadzoneAngle / ofInt 2) &&
      FloatArith.lt ((displacement s contact).dot s.direction_)
        (-s.settings_.startDeadzone)) = false) :
    s.StartScrolling contact = (s, []) := by
  simp only [displacement] at hf hb
  simp only [ScrollSession.StartScrolling, hf, hb, Bool.false_eq_true, if_false]

/-! ## Arbiter: theorems on session creation -/

/-- C11. The typing lockout gates the start of a gesture.  With no session owned,
scrolling enabled and a frame of exactly one touching contact with identifier 0 inside
the vertical zone of its slot, `ProcessTouch` creates a Scroll session if and only if
the whole milliseconds elapsed since the last keyboard event exceed the device's
`typingLockoutMs`; no sink is called.  In any arbiter state, a frame that is not a
single touching contact with identifier 0 (no contact, several contacts, another
identifier, or a lift) creates no Scroll session: a Scroll session owned afterwards is
the one owned before, as it was or as its `Update` left it. -/
theorem typing_lockout_gates_start {R : Type} [FloatArith R] (cs : ChiralScroll R)
    (now : Int) (device : TouchDevice) (contact : Contact) (info : ContactInfo)
    (hnone : cs.touchSession_ = none) (he : scrollingEnabled cs device = true)
    (hid : contact.id = 0) (ht : contact.isTouch = true)
    (hinfo : device.GetContactInfo contact.contactInfoLink = some info)
    (hzone : inVerticalZone (deviceSettingsOf cs device) info contact = true) :
    (∃ cs', cs.ProcessTouch now device [contact] = some (cs', []) ∧
      ((∃ s, cs'.touchSession_ = some (TouchSession.ScrollSession s)) ↔
        ToInt64Milliseconds now cs.lastKeyboardTime_ >
          (deviceSettingsOf cs device).typingLockoutMs)) ∧
    (∀ (cs0 : ChiralScroll R) (now0 : Int) (device0 : TouchDevice) (contacts0 : List Contact)
      (cs' : ChiralScroll R) (events : List SinkEvent),
      (¬ ∃ c, contacts0 = [c] ∧ c.id = 0 ∧ c.isTouch = true) →
      cs0.ProcessTouch now0 device0 contacts0 = some (cs', events) →
      ∀ s', cs'.touchSession_ = some (TouchSession.ScrollSession s') →
        ∃ s, cs0.touchSession_ = some (TouchSession.ScrollSession s) ∧
          (s' = s ∨ s' = (s.Update contacts0).2.1)) := by
  refine ⟨?_, ?_⟩
  · refine ⟨_, ChiralScroll.ProcessTouch_single_contact cs now device contact info hnone he
      hid ht hinfo, ?_⟩
    by_cases hlock : ToInt64Milliseconds now cs.lastKeyboardTime_ >
        (deviceSettingsOf cs device).typingLockoutMs
    · simp [hlock, hzone]
    · simp [hlock]
  · intro cs0 now0 device0 contacts0 cs' events hq h s' hs'
    exact ChiralScroll.ProcessTouch_no_start cs0 now0 device0 contacts0
      (ChiralScroll.ShouldStartScrollingSession_not_qualifying _ _ _ _ hq) cs' events h s' hs'

/-- C11, evaluated with a lockout of 500 ms and the last keyboard event at time 0: a
touch at `(190, 50)` in the vertical zone creates a Scroll session 600 ms later and none
100 ms later. -/
theorem typing_lockout_gates_start_witness :
    (∃ cs' s, (exArbiter none (Time.at 0)).ProcessTouch 600000000 exDevice
        [exContact 1 0 true 190 50] = some (cs', []) ∧
      cs'.touchSession_ = some (TouchSession.ScrollSession s)) ∧
    (∃ cs', (exArbiter none (Time.at 0)).ProcessTouch 100000000 exDevice
        [exContact 1 0 true 190 50] = some (cs', []) ∧
      ¬ ∃ s, cs'.touchSession_ = some (TouchSession.ScrollSession s)) := by
  constructor
  · obtain ⟨cs', h, hiff⟩ := (typing_lockout_gates_start (exArbiter none (Time.at 0))
      600000000 exDevice (exContact 1 0 true 190 50) (exSlot 1) rfl (by decide!) rfl rfl
      (by decide!) (by decide!)).1
    obtain ⟨s, hs⟩ := hiff.mpr (by decide)
    exact ⟨cs', s, h, hs⟩
  · obtain ⟨cs', h, hiff⟩ := (typing_lockout_gates_start (exArbiter none (Time.at 0))
      100000000 exDevice (exContact 1 0 true 190 50) (exSlot 1) rfl (by decide!) rfl rfl
      (by decide!) (by decide!)).1
    exact ⟨cs', h, fun hex => absurd (hiff.mp hex) (by decide)⟩

/-- C12, refuted as stated.  Lockout 500 ms, last keyboard event at time 0, no session
owned, scrolling enabled: 600 ms later a touch with identifier 0 at `(190, 50)`, in the
vertical zone, creates the vertical session in wind-up, and the call makes no sink call
at all; `StartScrolling` is not invoked on the vertical sink during it. -/
theorem begin_sequence_at_session_start_counterexample :
    (exArbiter none (Time.at 0)).ProcessTouch 600000000 exDevice
        [exContact 1 0 true 190 50] =
      some (exArbiter (some (TouchSession.ScrollSession (exSession 0))) (Time.at 0), []) ∧
    ¬ ∃ cs' events, (exArbiter none (Time.at 0)).ProcessTouch 600000000 exDevice
        [exContact 1 0 true 190 50] = some (cs', events) ∧
      (⟨ScrollerRef.vScroller_, ScrollerCall.StartScrolling⟩ : SinkEvent) ∈ events := by
  have h : (exArbiter none (Time.at 0)).ProcessTouch 600000000 exDevice
        [exContact 1 0 true 190 50] =
      some (exArbiter (some (TouchSession.ScrollSession (exSession 0))) (Time.at 0), []) := by
    decide!
  refine ⟨h, ?_⟩
  rintro ⟨cs', events, h1, hmem⟩
  rw [h] at h1
  simp only [Option.some.injEq, Prod.mk.injEq] at h1
  rw [← h1.2] at hmem
  exact absurd hmem (List.not_mem_nil _)

/-- C12, amended.  With no session owned, scrolling enabled, and the lockout passed, a
frame of a single touching contact with identifier 0 inside the vertical zone starts a
session: the vertical Scroll session in wind-up (polarity 0), bound to the vertical
sink.  No sink operation is invoked during that call.  The begin-sequence of the
vertical sink is invoked, followed by one `Scroll`, by the later call for a frame of the
same device in which the tracked contact passes the start-deadzone test: the forward
test, which gives the pulse of polarity `+1`, or else the backward test, which gives the
pulse of polarity `-1`.  A later call in which the tracked contact touches and passes
neither test calls nothing and leaves the arbiter, with the session in wind-up, as it
was. -/
theorem session_start_defers_begin_sequence {R : Type} [FloatArith R] (cs : ChiralScroll R)
    (now : Int) (device : TouchDevice) (contact : Contact) (info : ContactInfo)
    (hnone : cs.touchSession_ = none) (he : scrollingEnabled cs device = true)
    (hid : contact.id = 0) (ht : contact.isTouch = true)
    (hinfo : device.GetContactInfo contact.contactInfoLink = some info)
    (hlock : ToInt64Milliseconds now cs.lastKeyboardTime_ >
      (deviceSettingsOf cs device).typingLockoutMs)
    (hzone : inVerticalZone (deviceSettingsOf cs device) info contact = true) :
    let s0 : ScrollSession R :=
      verticalSession device contact info (deviceSettingsOf cs device)
        cs.settings_.GetGlobalSettings
    let cs1 : ChiralScroll R :=
      { resolved cs device with touchSession_ := some (TouchSession.ScrollSession s0) }
    cs.ProcessTouch now device [contact] = some (cs1, []) ∧
    s0.scrollDirection_ = 0 ∧
    s0.scroller_ = ScrollerRef.vScroller_ ∧
    (∀ (later : Int) (frame : List Contact) (c : Contact),
      tracked s0 frame = some c → c.isTouch = true →
      (FloatArith.lt (AngleBetween s0.direction_ (displacement s0 c))
          (s0.settings_.startDeadzoneAngle / ofInt 2) &&
        FloatArith.lt s0.settings_.startDeadzone ((displacement s0 c).dot s0.direction_)) =
          true →
      ∃ cs2, cs1.ProcessTouch later device frame =
        some (cs2,
          [⟨ScrollerRef.vScroller_, ScrollerCall.StartScrolling⟩,
            ⟨ScrollerRef.vScroller_,
              ScrollerCall.Scroll (pulseValue s0 1 (displacement s0 c))⟩])) ∧
    (∀ (later : Int) (frame : List Contact) (c : Contact),
      tracked s0 frame = some c → c.isTouch = true →
      (FloatArith.lt (AngleBetween s0.direction_ (displacement s0 c))
          (s0.settings_.startDeadzoneAngle / ofInt 2) &&
        FloatArith.lt s0.settings_.startDeadzone ((displacement s0 c).dot s0.direction_)) =
          false →
      (FloatArith.lt (AngleBetween s0.direction_ (displacement s0 c).neg)
          (s0.settings_.startDeadzoneAngle / ofInt 2) &&
        FloatArith.lt ((displacement s0 c).dot s0.direction_)
          (-s0.settings_.startDeadzone)) = true →
      ∃ cs2, cs1.ProcessTouch later device frame =
        some (cs2,
          [⟨ScrollerRef.vScroller_, ScrollerCall.StartScrolling⟩,
            ⟨ScrollerRef.vScroller_,
              ScrollerCall.Scroll (pulseValue s0 (-1) (displacement s0 c))⟩])) ∧
    (∀ (later : Int) (frame : List Contact) (c : Contact),
      tracked s0 frame = some c → c.isTouch = true →
      (FloatArith.lt (AngleBetween s0.direction_ (displacement s0 c))
          (s0.settings_.startDeadzoneAngle / ofInt 2) &&
        FloatArith.lt s0.settings_.startDeadzone ((displacement s0 c).dot s0.direction_)) =
          false →
      (FloatArith.lt (AngleBetween s0.direction_ (displacement s0 c).neg)
          (s0.settings_.startDeadzoneAngle / ofInt 2) &&
        FloatArith.lt ((displacement s0 c).dot s0.direction_)
          (-s0.settings_.startDeadzone)) = false →
      cs1.ProcessTouch later device frame = some (cs1, [])) := by
  intro s0 cs1
  have he1 : scrollingEnabled cs1 device = true := by
    rw [scrollingEnabled_resolved cs device]
    exact he
  have hu : ∀ (frame : List Contact) (c : Contact), tracked s0 frame = some c →
      c.isTouch = true → s0.Update frame = (true, s0.StartScrolling c) := by
    intro frame c htr htouch
    have hp : s0.scrollDirection_ = 0 := rfl
    rw [ScrollSession.Update_eq, htr]
    simp [htouch, hp]
  refine ⟨?_, rfl, rfl, ?_, ?_, ?_⟩
  · rw [ChiralScroll.ProcessTouch_single_contact cs now device contact info hnone he hid ht
      hinfo]
    simp only [hlock, hzone, if_true]
  · intro later frame c htr htouch hfwd
    have hst := ScrollSession.StartScrolling_forward s0 c hfwd
    rw [ChiralScroll.ProcessTouch_same_device cs1 later device frame
      (TouchSession.ScrollSession s0) rfl he1 rfl]
    simp only [TouchSession.Update, hu frame c htr htouch, if_true, hst]
    exact ⟨_, rfl⟩
  · intro later frame c htr htouch hfwd hbwd
    have hst := ScrollSession.StartScrolling_backward s0 c hfwd hbwd
    rw [ChiralScroll.ProcessTouch_same_device cs1 later device frame
      (TouchSession.ScrollSession s0) rfl he1 rfl]
    simp only [TouchSession.Update, hu frame c htr htouch, if_true, hst]
    exact ⟨_, rfl⟩
  · intro later frame c htr htouch hfwd hbwd
    have hst := ScrollSession.StartScrolling_neither s0 c hfwd hbwd
    rw [ChiralScroll.ProcessTouch_same_device cs1 later device frame
      (TouchSession.ScrollSession s0) rfl he1 rfl]
    simp only [TouchSession.Update, hu frame c htr htouch, if_true, hst]
    have hset : (cs1.settings_.GetDeviceSettings device.name).1 = cs1.settings_ := by
      show ((cs.settings_.GetDeviceSettings device.name).1.GetDeviceSettings device.name).1 =
        (cs.settings_.GetDeviceSettings device.name).1
      rw [Settings.GetDeviceSettings_idem]
    rw [hset]

/-- The example session in wind-up: a touch at `(190, 25)` fails the forward test. -/
theorem exSession_backward_fails_forward :
    (FloatArith.lt (AngleBetween (exSession 0).direction_
          (displacement (exSession 0) (exContact 1 0 true 190 25)))
          ((exSession 0).settings_.startDeadzoneAngle / ofInt 2) &&
        FloatArith.lt (exSession 0).settings_.startDeadzone
          ((displacement (exSession 0) (exContact 1 0 true 190 25)).dot (exSession 0).direction_)) = false := by
  decide!

/-- The example session in wind-up: a touch at `(190, 25)` passes the backward test. -/
theorem exSession_backward_passes :
    (FloatArith.lt (AngleBetween (exSession 0).direction_
          (displacement (exSession 0) (exContact 1 0 true 190 25)).neg)
          ((exSession 0).settings_.startDeadzoneAngle / ofInt 2) &&
        FloatArith.lt ((displacement (exSession 0) (exContact 1 0 true 190 25)).dot (exSession 0).direction_)
          (-(exSession 0).settings_.startDeadzone)) = true := by
  decide!

/-- The example session in wind-up: the backward pulse for a touch at `(190, 25)`. -/
theorem exSession_backward_pulse :
    pulseValue (exSession 0) (-1) (displacement (exSession 0) (exContact 1 0 true 190 25)) = 25 := by
  decide!

/-- The example session in wind-up: a touch at `(140, 50)` fails the forward test. -/
theorem exSession_sideways_fails_forward :
    (FloatArith.lt (AngleBetween (exSession 0).direction_
          (displacement (exSession 0) (exContact 1 0 true 140 50)))
          ((exSession 0).settings_.startDeadzoneAngle / ofInt 2) &&
        FloatArith.lt (exSession 0).settings_.startDeadzone
          ((displacement (exSession 0) (exContact 1 0 true 140 50)).dot (exSession 0).direction_)) = false := by
  decide!

/-- The example session in wind-up: a touch at `(140, 50)` fails the backward test. -/
theorem exSession_sideways_fails_backward :
    (FloatArith.lt (AngleBetween (exSession 0).direction_
          (displacement (exSession 0) (exContact 1 0 true 140 50)).neg)
          ((exSession 0).settings_.startDeadzoneAngle / ofInt 2) &&
        FloatArith.lt ((displacement (exSession 0) (exContact 1 0 true 140 50)).dot (exSession 0).direction_)
          (-(exSession 0).settings_.startDeadzone)) = false := by
  decide!

/-- The vertical session the example arbiter creates, and the arbiter that owns it. -/
theorem exArbiter_created :
    verticalSession exDevice (exContact 1 0 true 190 50) (exSlot 1)
        (deviceSettingsOf (exArbiter none (Time.at 0)) exDevice)
        (exArbiter none (Time.at 0)).settings_.GetGlobalSettings = exSession 0 ∧
    ({ resolved (exArbiter none (Time.at 0)) exDevice with
        touchSession_ := some (TouchSession.ScrollSession (exSession 0)) } :
          ChiralScroll Exact) =
      exArbiter (some (TouchSession.ScrollSession (exSession 0))) (Time.at 0) := by
  constructor <;> decide!

/-- C12 amended, evaluated: the session created 600 ms after the last keyboard event
calls nothing; a next frame with the contact at `(190, 75)` calls `StartScrolling` and
`Scroll (-25)` on the vertical sink, one with the contact at `(190, 25)` calls
`StartScrolling` and `Scroll 25`, and one with the contact at `(140, 50)` calls
nothing. -/
theorem session_start_defers_begin_sequence_witness :
    (exArbiter none (Time.at 0)).ProcessTouch 600000000 exDevice
        [exContact 1 0 true 190 50] =
      some (exArbiter (some (TouchSession.ScrollSession (exSession 0))) (Time.at 0), []) ∧
    (∃ cs2, (exArbiter (some (TouchSession.ScrollSession (exSession 0))) (Time.at 0)).ProcessTouch
        610000000 exDevice [exContact 1 0 true 190 75] =
      some (cs2,
        [⟨ScrollerRef.vScroller_, ScrollerCall.StartScrolling⟩,
          ⟨ScrollerRef.vScroller_, ScrollerCall.Scroll (-25)⟩])) ∧
    (∃ cs2, (exArbiter (some (TouchSession.ScrollSession (exSession 0))) (Time.at 0)).ProcessTouch
        610000000 exDevice [exContact 1 0 true 190 25] =
      some (cs2,
        [⟨ScrollerRef.vScroller_, ScrollerCall.StartScrolling⟩,
          ⟨ScrollerRef.vScroller_, ScrollerCall.Scroll 25⟩])) ∧
    (exArbiter (some (TouchSession.ScrollSession (exSession 0))) (Time.at 0)).ProcessTouch
        610000000 exDevice [exContact 1 0 true 140 50] =
      some (exArbiter (some (TouchSession.ScrollSession (exSession 0))) (Time.at 0), []) := by
  have t := session_start_defers_begin_sequence (exArbiter none (Time.at 0)) 600000000
    exDevice (exContact 1 0 true 190 50) (exSlot 1) rfl (by decide!) rfl rfl (by decide!)
    (by decide) (by decide!)
  have e2 : pulseValue (exSession 0) 1 (displacement (exSession 0) (exContact 1 0 true 190 75)) =
      -25 := by decide!
  simp only [exArbiter_created.1, exArbiter_created.2] at t
  have h2 := t.2.2.2.1 610000000 [exContact 1 0 true 190 75] (exContact 1 0 true 190 75)
    rfl rfl (by decide!)
  have h3 := t.2.2.2.2.1 610000000 [exContact 1 0 true 190 25] (exContact 1 0 true 190 25)
    rfl rfl exSession_backward_fails_forward exSession_backward_passes
  have h4 := t.2.2.2.2.2 610000000 [exContact 1 0 true 140 50] (exContact 1 0 true 140 50)
    rfl rfl exSession_sideways_fails_forward exSession_sideways_fails_backward
  rw [e2] at h2
  rw [exSession_backward_pulse] at h3
  exact ⟨t.1, h2, h3, h4⟩

/-- C13. Zone selection at session creation.  `StartScrollingSession` tests the vertical
zone first.  A contact in the vertical zone gets a Scroll session with direction
`(0,1)`, sensitivity `-vSens`, bound to the vertical sink, anchored at the scaled
position of the contact, with polarity 0; otherwise a contact in the horizontal zone
gets one with direction `(1,0)`, sensitivity `hSens`, bound to the horizontal sink;
otherwise no session is assigned.  So a contact in both zones gets the vertical
session.  For a qualifying frame processed while no session is owned, `ProcessTouch`
ends with that Scroll session, or with a Non-Scrolling session in neither zone. -/
theorem zone_selection {R : Type} [FloatArith R] (cs : ChiralScroll R)
    (device : TouchDevice) (contact : Contact) (rest : List Contact) (info : ContactInfo)
    (hinfo : device.GetContactInfo contact.contactInfoLink = some info) :
    let ds : DeviceSettings R := deviceSettingsOf cs device
    let v : ScrollSession R :=
      verticalSession device contact info ds cs.settings_.GetGlobalSettings
    let h : ScrollSession R :=
      horizontalSession device contact info ds cs.settings_.GetGlobalSettings
    (inVerticalZone ds info contact = true →
      cs.StartScrollingSession device (contact :: rest) =
        some ((resolved cs device).assignSession (TouchSession.ScrollSession v))) ∧
    (inVerticalZone ds info contact = false → inHorizontalZone ds info contact = true →
      cs.StartScrollingSession device (contact :: rest) =
        some ((resolved cs device).assignSession (TouchSession.ScrollSession h))) ∧
    (inVerticalZone ds info contact = false → inHorizontalZone ds info contact = false →
      cs.StartScrollingSession device (contact :: rest) = some (resolved cs device, [])) ∧
    (v.direction_ = ⟨ofInt 0, ofInt 1⟩ ∧ v.sens_ = -ds.vSens ∧
      v.scroller_ = ScrollerRef.vScroller_ ∧ v.scrollDirection_ = 0 ∧
      v.position_ = v.ScaleVector ⟨toLONG contact.logicalX, toLONG contact.logicalY⟩ ∧
      v.contactId_ = contact.id ∧ v.device_ = device.addr) ∧
    (h.direction_ = ⟨ofInt 1, ofInt 0⟩ ∧ h.sens_ = ds.hSens ∧
      h.scroller_ = ScrollerRef.hScroller_ ∧ h.scrollDirection_ = 0 ∧
      h.position_ = h.ScaleVector ⟨toLONG contact.logicalX, toLONG contact.logicalY⟩ ∧
      h.contactId_ = contact.id ∧ h.device_ = device.addr) ∧
    (∀ now : Int, cs.touchSession_ = none → scrollingEnabled cs device = true →
      contact.id = 0 → contact.isTouch = true →
      ToInt64Milliseconds now cs.lastKeyboardTime_ > ds.typingLockoutMs →
      cs.ProcessTouch now device [contact] =
        some ({ resolved cs device with
          touchSession_ :=
            if inVerticalZone ds info contact = true then some (TouchSession.ScrollSession v)
            else if inHorizontalZone ds info contact = true then
              some (TouchSession.ScrollSession h)
            else some (TouchSession.NonScrollSession device.addr) }, [])) := by
  intro ds v h
  have hglob : (resolved cs device).settings_.GetGlobalSettings =
      cs.settings_.GetGlobalSettings := by
    simp [resolved, Settings.GetGlobalSettings, Settings.GetDeviceSettings_global]
  have heq := ChiralScroll.StartScrollingSession_eq cs device contact rest info hinfo
  rw [hglob] at heq
  refine ⟨?_, ?_, ?_, ⟨rfl, rfl, rfl, rfl, rfl, rfl, rfl⟩, ⟨rfl, rfl, rfl, rfl, rfl, rfl, rfl⟩,
    ?_⟩
  · intro hv
    rw [heq, if_pos hv]
  · intro hv hh
    rw [heq, if_neg (by simp [hv]), if_pos hh]
  · intro hv hh
    rw [heq, if_neg (by simp [hv]), if_neg (by simp [hh])]
  · intro now hnone he hid ht hlock
    rw [ChiralScroll.ProcessTouch_single_contact cs now device contact info hnone he hid ht
      hinfo, if_pos hlock]

/-- C13, evaluated on the slot `0..200` by `0..100` with zones of one tenth: a contact at
`(190, 50)` gets the vertical session, one at `(100, 95)` the horizontal session, one in
the corner `(190, 95)` the vertical session, and one at `(100, 50)` no session. -/
theorem zone_selection_witness :
    (exArbiter none Time.InfinitePast).StartScrollingSession exDevice
        [exContact 1 0 true 190 50] =
      some (exArbiter (some (TouchSession.ScrollSession (exSession 0))) Time.InfinitePast, []) ∧
    (exArbiter none Time.InfinitePast).StartScrollingSession exDevice
        [exContact 1 0 true 100 95] =
      some (exArbiter (some (TouchSession.ScrollSession
        { exSession 0 with
            direction_ := ⟨ofInt 1, ofInt 0⟩
            position_ := ⟨FloatArith.ofRat 1, FloatArith.ofRat (19 / 20)⟩
            sens_ := FloatArith.ofRat 10
            scroller_ := ScrollerRef.hScroller_ })) Time.InfinitePast, []) ∧
    (exArbiter none Time.InfinitePast).StartScrollingSession exDevice
        [exContact 1 0 true 190 95] =
      some (exArbiter (some (TouchSession.ScrollSession
        { exSession 0 with
            position_ := ⟨FloatArith.ofRat (19 / 10), FloatArith.ofRat (19 / 20)⟩ }))
        Time.InfinitePast, []) ∧
    (exArbiter none Time.InfinitePast).StartScrollingSession exDevice
        [exContact 1 0 true 100 50] = some (exArbiter none Time.InfinitePast, []) :=
  ⟨((zone_selection (exArbiter none Time.InfinitePast) exDevice (exContact 1 0 true 190 50) []
      (exSlot 1) (by decide!)).1 (by decide!)).trans (by decide!),
    ((zone_selection (exArbiter none Time.InfinitePast) exDevice (exContact 1 0 true 100 95) []
      (exSlot 1) (by decide!)).2.1 (by decide!) (by decide!)).trans (by decide!),
    ((zone_selection (exArbiter none Time.InfinitePast) exDevice (exContact 1 0 true 190 95) []
      (exSlot 1) (by decide!)).1 (by decide!)).trans (by decide!),
    ((zone_selection (exArbiter none Time.InfinitePast) exDevice (exContact 1 0 true 100 50) []
      (exSlot 1) (by decide!)).2.2.1 (by decide!) (by decide!)).trans (by decide!)⟩

/-- C14. Disabled settings.  If the global enabled flag is false or the enabled flag of
the device's settings entry is false, `ProcessTouch` returns with no session owned: a
session that was owned, of this device or another, is destroyed, and nothing else
happens.  The only sink calls are those of the destructor, no session is created or
updated (the outcome does not depend on the frame or on the clock), and the
last-keyboard-event time is unchanged. -/
theorem disabled_settings {R : Type} [FloatArith R] (cs : ChiralScroll R) (now : Int)
    (device : TouchDevice) (contacts : List Contact)
    (hd : cs.settings_.GetGlobalSettings.enabled = false ∨
      (deviceSettingsOf cs device).enabled = false) :
    cs.ProcessTouch now device contacts =
      some ({ resolved cs device with touchSession_ := none },
        match cs.touchSession_ with
        | some session => session.dtor
        | none => []) ∧
    (∀ e ∈ (match cs.touchSession_ with
        | some session => session.dtor
        | none => []), e.call = ScrollerCall.StopScrolling) ∧
    ({ resolved cs device with touchSession_ := none } : ChiralScroll R).lastKeyboardTime_ =
      cs.lastKeyboardTime_ ∧
    (∀ (later : Int) (frame : List Contact),
      cs.ProcessTouch later device frame = cs.ProcessTouch now device contacts) := by
  have hdis : scrollingEnabled cs device = false := by
    unfold scrollingEnabled
    simp only [Settings.GetGlobalSettings, Settings.GetDeviceSettings_global]
    rcases hd with h | h
    · simp only [Settings.GetGlobalSettings] at h
      simp [h]
    · simp only [deviceSettingsOf] at h
      simp [h]
  have key : ∀ (t : Int) (f : List Contact), cs.ProcessTouch t device f =
      some ({ resolved cs device with touchSession_ := none },
        match cs.touchSession_ with
        | some session => session.dtor
        | none => []) := by
    intro t f
    rw [ChiralScroll.ProcessTouch_disabled cs t device f hdis]
    simp only [ChiralScroll.resetSession, resolved]
    cases cs.touchSession_ <;> rfl
  refine ⟨key now contacts, ?_, rfl, fun later frame => by rw [key, key]⟩
  cases cs.touchSession_ with
  | none => simp
  | some session =>
    cases session with
    | NonScrollSession d => simp [TouchSession.dtor]
    | ScrollSession s => simp [TouchSession.dtor, ScrollSession.dtor]

/-- C14, evaluated: with the global flag cleared, a qualifying in-zone frame from the
second touchpad destroys the scrolling session of the first and creates nothing. -/
theorem disabled_settings_witness :
    (exArbiterOff (some (TouchSession.ScrollSession (exSession 1))) (Time.at 0)).ProcessTouch
        600000000 exDevice2 [exContact 1 0 true 190 50] =
      some (exArbiterOff none (Time.at 0),
        [⟨ScrollerRef.vScroller_, ScrollerCall.StopScrolling⟩]) :=
  ((disabled_settings (exArbiterOff (some (TouchSession.ScrollSession (exSession 1)))
    (Time.at 0)) 600000000 exDevice2 [exContact 1 0 true 190 50] (Or.inl rfl)).1).trans
    (by decide!)

/-! ## Scroll pulse: lemmas and theorems -/

/-- In the exact instance the conversion to `int` truncates towards zero: the floor of
a non-negative value, the ceiling of a negative one. -/
theorem Exact.toInt_some (q : ℚ) :
    Exact.toInt ⟨some q⟩ = if 0 ≤ q then ⌊q⌋ else ⌈q⌉ := by
  simp only [Exact.toInt]
  split_ifs with h
  · rw [Rat.floor_def]
    exact Int.tdiv_eq_ediv (Rat.num_nonneg.mpr h) (by exact_mod_cast Nat.zero_le _)
  · have hneg : 0 ≤ -q := by linarith
    have h1 : ⌈q⌉ = -⌊-q⌋ := by rw [Int.floor_neg, neg_neg]
    rw [h1, Rat.floor_def, Rat.neg_num, Rat.neg_den]
    have h2 : 0 ≤ -q.num := by
      have := Rat.num_nonneg.mpr hneg
      simpa using this
    rw [← Int.tdiv_eq_ediv h2 (by exact_mod_cast Nat.zero_le _), Int.neg_tdiv, neg_neg]

/-- Every `Scroll` call an `Update` makes carries the truncated product formed with the
polarity the session has after the update and the displacement of the tracked
contact. -/
theorem ScrollSession.Update_pulses {R : Type} [FloatArith R] (s : ScrollSession R)
    (frame : List Contact) (e : SinkEvent) (amt : Int)
    (he : e ∈ (s.Update frame).2.2) (hc : e.call = ScrollerCall.Scroll amt) :
    ∃ c, tracked s frame = some c ∧ e.scroller = s.scroller_ ∧
      amt = FloatArith.toInt
        (pulseProduct s (s.Update frame).2.1.scrollDirection_ (displacement s c)) := by
  rw [ScrollSession.Update_eq] at he ⊢
  cases htr : tracked s frame with
  | none =>
    rw [htr] at he
    simp at he
  | some c =>
    rw [htr] at he
    refine ⟨c, rfl, ?_⟩
    simp only at he ⊢
    by_cases ht : c.isTouch = false
    · simp [ht] at he
    · by_cases hp : s.scrollDirection_ = 0
      · simp only [ht, hp, if_true, if_false, ScrollSession.StartScrolling,
          ScrollSession.Scroll] at he ⊢
        split_ifs at he ⊢
        all_goals first
          | (simp only [List.not_mem_nil] at he; done)
          | (simp only [List.mem_cons, List.mem_singleton, List.not_mem_nil, or_false] at he
             rcases he with he | he
             · subst he
               simp at hc
             · subst he
               simp only [ScrollerCall.Scroll.injEq] at hc
               exact ⟨rfl, hc.symm⟩)
      · simp only [ht, hp, if_false, ScrollSession.ContinueScrolling,
          ScrollSession.Scroll] at he ⊢
        split_ifs at he ⊢
        all_goals first
          | (simp only [List.not_mem_nil] at he; done)
          | (simp only [List.mem_singleton] at he
             subst he
             simp only [ScrollerCall.Scroll.injEq] at hc
             refine ⟨rfl, ?_⟩
             rw [← hc]
             simp only [pulseProduct, displacement, mul_neg, mul_one])

/-- C15, refuted as stated.  The vertical session with polarity `+1`, sensitivity 1,
scaling factor `3/4` and slot height 100 continues by a quarter of the slot height:
the product is `18.75`, whose rounding is 19, and the sink receives 18. -/
theorem scroll_pulse_rounding_counterexample :
    ((exSessionFine 1).Update [exContact 1 0 true 190 75]).2.2 =
      [⟨ScrollerRef.vScroller_, ScrollerCall.Scroll 18⟩] ∧
    pulseProduct (exSessionFine 1) 1
        (displacement (exSessionFine 1) (exContact 1 0 true 190 75)) =
      (⟨some (75 / 4)⟩ : Exact) ∧
    round (75 / 4 : ℚ) = 19 ∧
    ((exSessionFine 1).Update [exContact 1 0 true 190 75]).2.2 ≠
      [⟨ScrollerRef.vScroller_, ScrollerCall.Scroll (round (75 / 4 : ℚ))⟩] := by
  have h1 : ((exSessionFine 1).Update [exContact 1 0 true 190 75]).2.2 =
      [⟨ScrollerRef.vScroller_, ScrollerCall.Scroll 18⟩] := by decide!
  have h2 : round (75 / 4 : ℚ) = 19 := by
    rw [round_eq, Int.floor_eq_iff]
    norm_num
  refine ⟨h1, by decide!, h2, ?_⟩
  rw [h1, h2]
  decide

/-- C15, amended.  The integer `Scroll` passes to the sink is the product
`polarity × |d| × sensitivity × sensScalingFactor × slotLogicalHeight` converted by
`static_cast<int>`, that is truncated towards zero, not rounded; `slotLogicalHeight` is
`logicalArea.bottom - logicalArea.top` of the tracked contact's slot and `d` the
displacement being committed.  This holds of every `Scroll` call an `Update` makes, with
the polarity the session has after the update.  In exact arithmetic the value is the
floor of a non-negative product and the ceiling of a negative one. -/
theorem scroll_pulse_value_truncated :
    (∀ (R : Type) [FloatArith R] (s : ScrollSession R) (newDir newPos : Vector R),
      (s.Scroll newDir newPos).2 =
        [⟨s.scroller_, ScrollerCall.Scroll
          (FloatArith.toInt (pulseProduct s s.scrollDirection_ newDir))⟩]) ∧
    (∀ (R : Type) [FloatArith R] (s : ScrollSession R) (frame : List Contact)
      (e : SinkEvent) (amt : Int),
      e ∈ (s.Update frame).2.2 → e.call = ScrollerCall.Scroll amt →
      ∃ c, tracked s frame = some c ∧ e.scroller = s.scroller_ ∧
        amt = FloatArith.toInt
          (pulseProduct s (s.Update frame).2.1.scrollDirection_ (displacement s c))) ∧
    (∀ (s : ScrollSession Exact) (newDir newPos : Vector Exact) (q : ℚ),
      pulseProduct s s.scrollDirection_ newDir = ⟨some q⟩ →
      (s.Scroll newDir newPos).2 =
        [⟨s.scroller_, ScrollerCall.Scroll (if 0 ≤ q then ⌊q⌋ else ⌈q⌉)⟩]) := by
  refine ⟨?_, ?_, ?_⟩
  · intro R _ s newDir newPos
    rfl
  · intro R _ s frame e amt he hc
    exact ScrollSession.Update_pulses s frame e amt he hc
  · intro s newDir newPos q hq
    have h : (s.Scroll newDir newPos).2 =
        [⟨s.scroller_, ScrollerCall.Scroll
          (FloatArith.toInt (pulseProduct s s.scrollDirection_ newDir))⟩] := rfl
    rw [h, hq]
    show [SinkEvent.mk s.scroller_ (ScrollerCall.Scroll (Exact.toInt ⟨some q⟩))] = _
    rw [Exact.toInt_some]

/-- C15 amended, evaluated: the products `18.75` and `-18.75` are passed as 18 and
`-18`. -/
theorem scroll_pulse_value_truncated_witness :
    ((exSessionFine 1).Scroll ⟨FloatArith.ofRat 0, FloatArith.ofRat (1 / 4)⟩
        ⟨FloatArith.ofRat (19 / 10), FloatArith.ofRat (3 / 4)⟩).2 =
      [⟨ScrollerRef.vScroller_, ScrollerCall.Scroll 18⟩] ∧
    ((exSessionFine (-1)).Scroll ⟨FloatArith.ofRat 0, FloatArith.ofRat (1 / 4)⟩
        ⟨FloatArith.ofRat (19 / 10), FloatArith.ofRat (3 / 4)⟩).2 =
      [⟨ScrollerRef.vScroller_, ScrollerCall.Scroll (-18)⟩] :=
  ⟨(scroll_pulse_value_truncated.2.2 (exSessionFine 1)
      ⟨FloatArith.ofRat 0, FloatArith.ofRat (1 / 4)⟩
      ⟨FloatArith.ofRat (19 / 10), FloatArith.ofRat (3 / 4)⟩ (75 / 4) (by decide!)).trans
      (by decide!),
    (scroll_pulse_value_truncated.2.2 (exSessionFine (-1))
      ⟨FloatArith.ofRat 0, FloatArith.ofRat (1 / 4)⟩
      ⟨FloatArith.ofRat (19 / 10), FloatArith.ofRat (3 / 4)⟩ (-75 / 4) (by decide!)).trans
      (by decide!)⟩

/-! ## Zone test -/

/-- For a coordinate inside the slot the difference `ULONG - LONG` does not wrap. -/
theorem ChiralScroll.subULONG_inside (x : Nat) (lo hi : Int) (h1 : lo ≤ (x : Int))
    (h2 : (x : Int) ≤ hi) (hlo : -2 ^ 31 ≤ lo) (hhi : hi < 2 ^ 31) :
    ((ChiralScroll.subULONG x lo : Nat) : Int) = (x : Int) - lo := by
  unfold ChiralScroll.subULONG
  have h3 : 0 ≤ (x : Int) - lo := by omega
  have h4 : (x : Int) - lo < 2 ^ 32 := by omega
  rw [Int.emod_eq_of_lt h3 h4, Int.toNat_of_nonneg h3]

/-- C17. The member `NonScrollSession::Update` returns true if and only if at least one
contact of the frame is touching; so it returns false for the empty frame and for a
frame of lifts only.  As the virtual `Update` of a session it leaves the session as it
is and calls no sink. -/
theorem NonScrollSession_Update_iff (contacts : List Contact) :
    (NonScrollSession.Update contacts = true ↔ ∃ c ∈ contacts, c.isTouch = true) ∧
    NonScrollSession.Update [] = false ∧
    ((∀ c ∈ contacts, c.isTouch = false) → NonScrollSession.Update contacts = false) ∧
    (∀ (R : Type) [FloatArith R] (device_ : Nat),
      (TouchSession.NonScrollSession device_ : TouchSession R).Update contacts =
        (NonScrollSession.Update contacts, TouchSession.NonScrollSession device_, [])) := by
  refine ⟨?_, rfl, ?_, ?_⟩
  · simp [NonScrollSession.Update]
  · intro h
    simp only [NonScrollSession.Update, List.any_eq_false]
    intro c hc
    simp [h c hc]
  · intro R _ device_
    rfl

/-- C17, evaluated: a frame of two lifts gives false, a frame with one touching contact
among lifts gives true. -/
theorem NonScrollSession_Update_iff_witness :
    NonScrollSession.Update [exContact 1 0 false 10 10, exContact 2 1 false 20 20] = false ∧
    NonScrollSession.Update [exContact 1 0 false 10 10, exContact 2 1 true 20 20] = true :=
  ⟨(NonScrollSession_Update_iff
      [exContact 1 0 false 10 10, exContact 2 1 false 20 20]).2.2.1 (by decide),
    (NonScrollSession_Update_iff
      [exContact 1 0 false 10 10, exContact 2 1 true 20 20]).1.mpr
      ⟨exContact 2 1 true 20 20, by decide, rfl⟩⟩

/-- With scrolling enabled and a Non-Scrolling session of the device owned, `ProcessTouch`
keeps it while a contact of the frame is touching and drops it otherwise; it calls no
sink and never reaches the start test. -/
theorem ChiralScroll.ProcessTouch_placeholder {R : Type} [FloatArith R] (cs : ChiralScroll R)
    (now : Int) (device : TouchDevice) (contacts : List Contact)
    (hs : cs.touchSession_ = some (TouchSession.NonScrollSession device.addr))
    (he : scrollingEnabled cs device = true) :
    cs.ProcessTouch now device contacts =
      some ({ resolved cs device with
        touchSession_ :=
          if contacts.any (fun contact => contact.isTouch) = true then
            some (TouchSession.NonScrollSession device.addr)
          else none }, []) := by
  rw [ChiralScroll.ProcessTouch_same_device cs now device contacts _ hs he rfl]
  simp only [TouchSession.Update, NonScrollSession.Update, TouchSession.dtor,
    List.append_nil]
  cases h : contacts.any (fun contact => contact.isTouch) <;> simp [resolved]

/-- C18. Creation of the Non-Scrolling placeholder, with scrolling enabled.  (a) With no
session owned, a frame that fails the start test and has a touching contact creates a
Non-Scrolling session for the device.  (b) So does a single touching contact with
identifier 0 that is blocked by the typing lockout or lies in neither zone.  (c) So
does a frame with a touching contact on which the `Update` of the device's session
returned false.  (d) While the placeholder is owned, a frame of the same device leaves
it in place if a contact is touching and drops it otherwise; no sink is called and no
Scroll session is created.  (e) Over any sequence of frames of the device that each
have a touching contact the placeholder stays and nothing is called, whatever the
frames and the clock; the next frame without a touching contact ends it. -/
theorem placeholder_creation {R : Type} [FloatArith R] (cs : ChiralScroll R)
    (device : TouchDevice) (he : scrollingEnabled cs device = true) :
    (∀ (now : Int) (contacts : List Contact), cs.touchSession_ = none →
      (resolved cs device).ShouldStartScrollingSession now (deviceSettingsOf cs device)
        contacts = false →
      contacts.any (fun contact => contact.isTouch) = true →
      cs.ProcessTouch now device contacts =
        some ({ resolved cs device with
          touchSession_ := some (TouchSession.NonScrollSession device.addr) }, [])) ∧
    (∀ (now : Int) (contact : Contact) (info : ContactInfo), cs.touchSession_ = none →
      contact.id = 0 → contact.isTouch = true →
      device.GetContactInfo contact.contactInfoLink = some info →
      (¬ ToInt64Milliseconds now cs.lastKeyboardTime_ >
          (deviceSettingsOf cs device).typingLockoutMs ∨
        (inVerticalZone (deviceSettingsOf cs device) info contact = false ∧
          inHorizontalZone (deviceSettingsOf cs device) info contact = false)) →
      cs.ProcessTouch now device [contact] =
        some ({ resolved cs device with
          touchSession_ := some (TouchSession.NonScrollSession device.addr) }, [])) ∧
    (∀ (now : Int) (contacts : List Contact) (session : TouchSession R),
      cs.touchSession_ = some session → session.device = device.addr →
      (session.Update contacts).1 = false →
      contacts.any (fun contact => contact.isTouch) = true →
      ∃ events, cs.ProcessTouch now device contacts =
        some ({ resolved cs device with
          touchSession_ := some (TouchSession.NonScrollSession device.addr) }, events)) ∧
    (∀ (now : Int) (contacts : List Contact),
      cs.touchSession_ = some (TouchSession.NonScrollSession device.addr) →
      cs.ProcessTouch now device contacts =
        some ({ resolved cs device with
          touchSession_ :=
            if contacts.any (fun contact => contact.isTouch) = true then
              some (TouchSession.NonScrollSession device.addr)
            else none }, [])) ∧
    (∀ (frames : List (Int × List Contact)),
      cs.touchSession_ = some (TouchSession.NonScrollSession device.addr) →
      (∀ f ∈ frames, f.2.any (fun contact => contact.isTouch) = true) →
      ∃ cs', processFrames cs device frames = some (cs', []) ∧
        cs'.touchSession_ = some (TouchSession.NonScrollSession device.addr) ∧
        ∀ (now : Int) (last : List Contact),
          last.any (fun contact => contact.isTouch) = false →
          ∃ cs'', cs'.ProcessTouch now device last = some (cs'', []) ∧
            cs''.touchSession_ = none) := by
  refine ⟨?_, ?_, ?_, ?_, ?_⟩
  · intro now contacts hnone hsh hany
    rw [ChiralScroll.ProcessTouch_no_session cs now device contacts hnone he, hsh]
    have hres : (resolved cs device).touchSession_ = none := hnone
    simp [hres, hany, ChiralScroll.assignSession]
  · intro now contact info hnone hid ht hinfo hcase
    rw [ChiralScroll.ProcessTouch_single_contact cs now device contact info hnone he hid ht
      hinfo]
    rcases hcase with hl | ⟨hv, hh⟩
    · rw [if_neg hl]
    · simp [hv, hh]
  · intro now contacts session hs hdev hu hany
    rw [ChiralScroll.ProcessTouch_same_device cs now device contacts session hs he hdev]
    simp only [hu, Bool.false_eq_true, if_false, hany, if_true]
    exact ⟨_, rfl⟩
  · intro now contacts hs
    exact ChiralScroll.ProcessTouch_placeholder cs now device contacts hs he
  · intro frames
    induction frames generalizing cs with
    | nil =>
      intro hs _
      refine ⟨cs, rfl, hs, ?_⟩
      intro now last hlast
      rw [ChiralScroll.ProcessTouch_placeholder cs now device last hs he]
      simp [hlast]
    | cons f rest ih =>
      intro hs hall
      obtain ⟨now, frame⟩ := f
      have hf : frame.any (fun contact => contact.isTouch) = true := hall (now, frame) (by simp)
      have hstep := ChiralScroll.ProcessTouch_placeholder cs now device frame hs he
      rw [if_pos hf] at hstep
      have he1 : scrollingEnabled ({ resolved cs device with
          touchSession_ := some (TouchSession.NonScrollSession device.addr) }) device = true := by
        rw [scrollingEnabled_resolved cs device]
        exact he
      obtain ⟨cs', h1, h2, h3⟩ := ih _ he1 rfl (fun g hg => hall g (by simp [hg]))
      refine ⟨cs', ?_, h2, h3⟩
      simp only [processFrames, hstep, h1, List.append_nil]

/-- C18, evaluated: within the lockout (100 ms after the last keyboard event) the
in-zone touch creates the placeholder; 600 ms later the same in-zone touch keeps the
placeholder and creates no Scroll session; a frame of a lift ends it. -/
theorem placeholder_creation_witness :
    (exArbiter none (Time.at 0)).ProcessTouch 100000000 exDevice
        [exContact 1 0 true 190 50] =
      some (exArbiter (some (TouchSession.NonScrollSession 1)) (Time.at 0), []) ∧
    (exArbiter (some (TouchSession.NonScrollSession 1)) (Time.at 0)).ProcessTouch 700000000
        exDevice [exContact 1 0 true 190 50] =
      some (exArbiter (some (TouchSession.NonScrollSession 1)) (Time.at 0), []) ∧
    (exArbiter (some (TouchSession.NonScrollSession 1)) (Time.at 0)).ProcessTouch 800000000
        exDevice [exContact 1 0 false 190 50] =
      some (exArbiter none (Time.at 0), []) :=
  ⟨((placeholder_creation (exArbiter none (Time.at 0)) exDevice (by decide!)).2.1 100000000
      (exContact 1 0 true 190 50) (exSlot 1) rfl rfl rfl (by decide!)
      (Or.inl (by decide))).trans (by decide!),
    ((placeholder_creation (exArbiter (some (TouchSession.NonScrollSession 1)) (Time.at 0))
      exDevice (by decide!)).2.2.2.1 700000000 [exContact 1 0 true 190 50] rfl).trans
      (by decide!),
    ((placeholder_creation (exArbiter (some (TouchSession.NonScrollSession 1)) (Time.at 0))
      exDevice (by decide!)).2.2.2.1 800000000 [exContact 1 0 false 190 50] rfl).trans
      (by decide!)⟩

/-! ## Sessions and devices -/

/-- C19, refuted as stated.  The arbiter owns the scrolling session of the first
touchpad; 600 ms after the last keyboard event a single touching contact with
identifier 0 arrives from the second touchpad, in its vertical zone.  The session of the
first touchpad is destroyed (`StopScrolling` on its sink) and replaced by a new Scroll
session of the second touchpad. -/
theorem gesture_start_with_active_session_counterexample :
    (exArbiter (some (TouchSession.ScrollSession (exSession 1))) (Time.at 0)).ProcessTouch
        600000000 exDevice2 [exContact 1 0 true 190 50] =
      some (exArbiter (some (TouchSession.ScrollSession { exSession 0 with device_ := 2 }))
          (Time.at 0),
        [⟨ScrollerRef.vScroller_, ScrollerCall.StopScrolling⟩]) ∧
    (exSession 1).device_ = exDevice.addr ∧
    exDevice.addr ≠ exDevice2.addr ∧
    scrollingEnabled (exArbiter (some (TouchSession.ScrollSession (exSession 1))) (Time.at 0))
      exDevice2 = true := by
  refine ⟨by decide!, rfl, by decide, by decide!⟩

/-- C19, amended.  Let a session be owned and let a frame arrive from an enabled device.
If the session belongs to that device, no Scroll session is created: a Scroll session
owned afterwards is the owned one as its `Update` left it.  If the session belongs to
another device, a frame that fails the start test leaves it untouched and calls
nothing; a frame that passes it, a single touching contact with identifier 0 past the
lockout, replaces the session by a new vertical or horizontal Scroll session of the
frame's device when the contact lies in the vertical or horizontal zone, destroying
the owned session, and leaves it untouched when the contact lies in neither zone. -/
theorem gesture_start_with_active_session {R : Type} [FloatArith R] (cs : ChiralScroll R)
    (now : Int) (device : TouchDevice) (session : TouchSession R)
    (hs : cs.touchSession_ = some session) (he : scrollingEnabled cs device = true) :
    (∀ (contacts : List Contact) (cs' : ChiralScroll R) (events : List SinkEvent),
      session.device = device.addr →
      cs.ProcessTouch now device contacts = some (cs', events) →
      ∀ s', cs'.touchSession_ = some (TouchSession.ScrollSession s') →
        ∃ s, session = TouchSession.ScrollSession s ∧ s' = (s.Update contacts).2.1) ∧
    (∀ (contacts : List Contact), session.device ≠ device.addr →
      (resolved cs device).ShouldStartScrollingSession now (deviceSettingsOf cs device)
        contacts = false →
      cs.ProcessTouch now device contacts = some (resolved cs device, []) ∧
      (resolved cs device).touchSession_ = some session) ∧
    (∀ (contact : Contact) (info : ContactInfo), session.device ≠ device.addr →
      contact.id = 0 → contact.isTouch = true →
      ToInt64Milliseconds now cs.lastKeyboardTime_ >
        (deviceSettingsOf cs device).typingLockoutMs →
      device.GetContactInfo contact.contactInfoLink = some info →
      cs.ProcessTouch now device [contact] =
        if inVerticalZone (deviceSettingsOf cs device) info contact = true then
          some ({ resolved cs device with
            touchSession_ := some (TouchSession.ScrollSession
              (verticalSession device contact info (deviceSettingsOf cs device)
                cs.settings_.GetGlobalSettings)) }, session.dtor)
        else if inHorizontalZone (deviceSettingsOf cs device) info contact = true then
          some ({ resolved cs device with
            touchSession_ := some (TouchSession.ScrollSession
              (horizontalSession device contact info (deviceSettingsOf cs device)
                cs.settings_.GetGlobalSettings)) }, session.dtor)
        else some (resolved cs device, [])) := by
  refine ⟨?_, ?_, ?_⟩
  · intro contacts cs' events hdev h s' hs'
    rw [ChiralScroll.ProcessTouch_same_device cs now device contacts session hs he hdev] at h
    cases session with
    | NonScrollSession d =>
      simp only [TouchSession.Update] at h
      split_ifs at h <;>
        simp only [Option.some.injEq, Prod.mk.injEq] at h <;>
        rw [← h.1] at hs' <;> simp at hs'
    | ScrollSession s =>
      refine ⟨s, rfl, ?_⟩
      simp only [TouchSession.Update] at h
      split_ifs at h <;>
        simp only [Option.some.injEq, Prod.mk.injEq] at h <;>
        rw [← h.1] at hs' <;> simp at hs'
      exact hs'.symm
  · intro contacts hdev hsh
    rw [ChiralScroll.ProcessTouch_other_device_eq cs now device contacts session hs he hdev,
      hsh]
    exact ⟨by simp, hs⟩
  · intro contact info hdev hid ht hlock hinfo
    have hlast : (resolved cs device).lastKeyboardTime_ = cs.lastKeyboardTime_ := rfl
    have hsh : (resolved cs device).ShouldStartScrollingSession now
        (deviceSettingsOf cs device) [contact] = true := by
      simp [ChiralScroll.ShouldStartScrollingSession, hid, ht, hlast, hlock]
    have hglob : (resolved cs device).settings_.GetGlobalSettings =
        cs.settings_.GetGlobalSettings := by
      simp [resolved, Settings.GetGlobalSettings, Settings.GetDeviceSettings_global]
    have hres : (resolved cs device).touchSession_ = some session := hs
    rw [ChiralScroll.ProcessTouch_other_device_eq cs now device [contact] session hs he hdev,
      if_pos hsh, ChiralScroll.StartScrollingSession_eq _ device contact [] info hinfo,
      (resolved_resolved cs device).1, (resolved_resolved cs device).2, hglob]
    simp only [ChiralScroll.assignSession, hres]

/-- C19 amended, evaluated: a frame of two contacts from the second touchpad leaves the
session of the first untouched; the qualifying in-zone frame replaces it. -/
theorem gesture_start_with_active_session_witness :
    (exArbiter (some (TouchSession.ScrollSession (exSession 1))) (Time.at 0)).ProcessTouch
        600000000 exDevice2 [exContact 1 0 true 190 50, exContact 2 1 true 20 20] =
      some (exArbiter (some (TouchSession.ScrollSession (exSession 1))) (Time.at 0), []) ∧
    (exArbiter (some (TouchSession.ScrollSession (exSession 1))) (Time.at 0)).ProcessTouch
        600000000 exDevice2 [exContact 1 0 true 190 50] =
      some (exArbiter (some (TouchSession.ScrollSession { exSession 0 with device_ := 2 }))
          (Time.at 0),
        [⟨ScrollerRef.vScroller_, ScrollerCall.StopScrolling⟩]) :=
  ⟨(((gesture_start_with_active_session
      (exArbiter (some (TouchSession.ScrollSession (exSession 1))) (Time.at 0)) 600000000
      exDevice2 (TouchSession.ScrollSession (exSession 1)) rfl (by decide!)).2.1
      [exContact 1 0 true 190 50, exContact 2 1 true 20 20] (by decide) rfl).1).trans
      (by decide!),
    ((gesture_start_with_active_session
      (exArbiter (some (TouchSession.ScrollSession (exSession 1))) (Time.at 0)) 600000000
      exDevice2 (TouchSession.ScrollSession (exSession 1)) rfl (by decide!)).2.2
      (exContact 1 0 true 190 50) (exSlot 1) (by decide) rfl rfl (by decide)
      (by decide!)).trans (by decide!)⟩

/-! ## Settings: theorems -/

/-- C20. Lazy default device settings.  If the name is present in the table,
`GetDeviceSettings` returns the stored entry and leaves the settings unchanged.  If it
is new, an entry with the defaults (enabled, lockout 500 ms, zones `0.1`, sensitivities
10) is inserted and returned, every other name resolves as before and the global
settings are unchanged.  A second call with the same name returns the same entry and
leaves the table as the first call left it. -/
theorem lazy_default_device_settings {R : Type} [FloatArith R] (s : Settings R)
    (name : String) :
    (∀ d, s.deviceSettings_.lookup name = some d → s.GetDeviceSettings name = (s, d)) ∧
    (s.deviceSettings_.lookup name = none →
      (s.GetDeviceSettings name).2 = kDefaultSettings ∧
      (s.GetDeviceSettings name).1.deviceSettings_.lookup name = some kDefaultSettings ∧
      (∀ other : String, other ≠ name →
        (s.GetDeviceSettings name).1.deviceSettings_.lookup other =
          s.deviceSettings_.lookup other) ∧
      (∀ entry ∈ s.deviceSettings_, entry ∈ (s.GetDeviceSettings name).1.deviceSettings_) ∧
      (s.GetDeviceSettings name).1.globalSettings_ = s.globalSettings_) ∧
    (kDefaultSettings : DeviceSettings R) =
      { enabled := true
        typingLockoutMs := 500
        vScrollZone := FloatArith.ofRat (1 / 10)
        hScrollZone := FloatArith.ofRat (1 / 10)
        vSens := FloatArith.ofRat 10
        hSens := FloatArith.ofRat 10 } ∧
    (s.GetDeviceSettings name).1.GetDeviceSettings name =
      ((s.GetDeviceSettings name).1, (s.GetDeviceSettings name).2) := by
  refine ⟨?_, ?_, rfl, Settings.GetDeviceSettings_idem s name⟩
  · intro d hd
    simp [Settings.GetDeviceSettings, hd]
  · intro hnone
    have h : s.GetDeviceSettings name =
        ({ s with deviceSettings_ := s.deviceSettings_ ++ [(name, kDefaultSettings)] },
          kDefaultSettings) := by
      simp [Settings.GetDeviceSettings, hnone]
    rw [h]
    refine ⟨rfl, ?_, ?_, ?_, rfl⟩
    · simp only [List.lookup_append, hnone, Option.none_or]
      simp [List.lookup_cons]
    · intro other hne
      have hb : (other == name) = false := by simpa using hne
      simp only [List.lookup_append, List.lookup_cons, hb, List.lookup_nil, Option.or_none]
    · intro entry hmem
      simp [hmem]

/-- C20, evaluated: a stored entry with lockout 250 ms is returned as it is; an unknown
name gets the default entry appended. -/
theorem lazy_default_device_settings_witness :
    Settings.GetDeviceSettings
        ({ globalSettings_ := exGlobal
           deviceSettings_ := [("pad", { exDeviceSettings with typingLockoutMs := 250 })] } :
          Settings Exact) "pad" =
      ({ globalSettings_ := exGlobal
         deviceSettings_ := [("pad", { exDeviceSettings with typingLockoutMs := 250 })] },
        { exDeviceSettings with typingLockoutMs := 250 }) ∧
    (Settings.GetDeviceSettings
        ({ globalSettings_ := exGlobal
           deviceSettings_ := [("pad", { exDeviceSettings with typingLockoutMs := 250 })] } :
          Settings Exact) "pad2").2 = exDeviceSettings :=
  ⟨(lazy_default_device_settings _ "pad").1 _ (by decide!),
    (((lazy_default_device_settings
      ({ globalSettings_ := exGlobal
         deviceSettings_ := [("pad", { exDeviceSettings with typingLockoutMs := 250 })] } :
          Settings Exact) "pad2").2.1 (by decide!)).1).trans (by decide!)⟩

/-! ## ContinueScrolling: theorems -/

/-- C21, refuted as stated.  In both sessions the reversal condition fails because `|d|`
does not exceed `reverseDeadzone`, and the continue condition holds because
`d·direction` exceeds `moveDeadzone`; yet `ContinueScrolling` emits nothing and commits
nothing, because the angle test alone selects the reversal branch.  First session:
reverse deadzone angle 8, reverse deadzone `1/2`, move deadzone `1/8`, contact moved
forward by a quarter of the slot height.  Second session: reverse deadzone angle 3,
reverse deadzone `1/2`, move deadzone `-1/2`, contact moved backward by a quarter. -/
theorem continue_in_direction_counterexample :
    (FloatArith.lt (exSessionWith (1 / 8) (1 / 2) 8).settings_.reverseDeadzone
        (displacement (exSessionWith (1 / 8) (1 / 2) 8) (exContact 1 0 true 190 75)).Norm =
          false ∧
      FloatArith.lt (exSessionWith (1 / 8) (1 / 2) 8).settings_.moveDeadzone
        ((displacement (exSessionWith (1 / 8) (1 / 2) 8) (exContact 1 0 true 190 75)).dot
          (exSessionWith (1 / 8) (1 / 2) 8).direction_) = true ∧
      (exSessionWith (1 / 8) (1 / 2) 8).ContinueScrolling (exContact 1 0 true 190 75) =
        (exSessionWith (1 / 8) (1 / 2) 8, [])) ∧
    (FloatArith.lt (exSessionWith (-1 / 2) (1 / 2) 3).settings_.reverseDeadzone
        (displacement (exSessionWith (-1 / 2) (1 / 2) 3) (exContact 1 0 true 190 25)).Norm =
          false ∧
      FloatArith.lt (exSessionWith (-1 / 2) (1 / 2) 3).settings_.moveDeadzone
        ((displacement (exSessionWith (-1 / 2) (1 / 2) 3) (exContact 1 0 true 190 25)).dot
          (exSessionWith (-1 / 2) (1 / 2) 3).direction_) = true ∧
      (exSessionWith (-1 / 2) (1 / 2) 3).ContinueScrolling (exContact 1 0 true 190 25) =
        (exSessionWith (-1 / 2) (1 / 2) 3, [])) := by
  refine ⟨⟨?_, ?_, ?_⟩, ⟨?_, ?_, ?_⟩⟩ <;> decide!

/-- C21, amended.  The continue step of `ContinueScrolling` is taken when the angle
between the direction and `-d` is not below `reverseDeadzoneAngle/2` and `|d|` exceeds
`reverseDeadzone` or `d·direction` exceeds `moveDeadzone`: then exactly one pulse is
emitted with the unchanged polarity and the session commits `position := p` and
`direction := d/|d|`.  When that angle is below `reverseDeadzoneAngle/2` and `|d|` does
not exceed `reverseDeadzone`, nothing is emitted or committed, whatever `d·direction`
is. -/
theorem continue_in_direction {R : Type} [FloatArith R] (s : ScrollSession R)
    (contact : Contact) :
    let p : Vector R := s.ScaleVector ⟨toLONG contact.logicalX, toLONG contact.logicalY⟩
    let d : Vector R := displacement s contact
    let inCone : Bool :=
      FloatArith.lt (AngleBetween s.direction_ d.neg) (s.settings_.reverseDeadzoneAngle / ofInt 2)
    let far : Bool := FloatArith.lt s.settings_.reverseDeadzone d.Norm
    let along : Bool := FloatArith.lt s.settings_.moveDeadzone (d.dot s.direction_)
    let continued : ScrollSession R × List SinkEvent :=
      ({ s with position_ := p
                direction_ := d.divScalar (FloatArith.toFloat d.Norm) },
        [⟨s.scroller_, ScrollerCall.Scroll (pulseValue s s.scrollDirection_ d)⟩])
    (inCone = false → (far || along) = true → s.ContinueScrolling contact = continued) ∧
    (inCone = true → far = false → s.ContinueScrolling contact = (s, [])) ∧
    (∀ frame, s.scrollDirection_ ≠ 0 → tracked s frame = some contact →
      contact.isTouch = true → inCone = false → (far || along) = true →
      s.Update frame = (true, continued)) := by
  intro p d inCone far along continued
  have h1 : inCone = false → (far || along) = true → s.ContinueScrolling contact = continued := by
    intro hc hfa
    simp only [inCone, far, along, d, displacement] at hc hfa
    simp only [ScrollSession.ContinueScrolling, hc, hfa, if_true, Bool.false_eq_true, if_false]
    rfl
  refine ⟨h1, ?_, ?_⟩
  · intro hc hf
    simp only [inCone, far, d, displacement] at hc hf
    simp only [ScrollSession.ContinueScrolling, hc, hf, if_true, Bool.false_eq_true, if_false]
  · intro frame hp ht htouch hc hfa
    rw [ScrollSession.Update_eq, ht]
    simp only [htouch, hp, if_false, Bool.true_eq_false]
    rw [h1 hc hfa]

/-- C21 amended, evaluated on the vertical session scrolling with polarity `+1` from
`(190, 50)`: a touch at `(190, 75)` continues it with one pulse. -/
theorem continue_in_direction_witness :
    (exSession 1).ContinueScrolling (exContact 1 0 true 190 75) =
      ({ exSession 1 with
          position_ := ⟨FloatArith.ofRat (19 / 10), FloatArith.ofRat (3 / 4)⟩
          direction_ := ⟨FloatArith.ofRat 0, FloatArith.ofRat 1⟩ },
        [⟨ScrollerRef.vScroller_, ScrollerCall.Scroll (-25)⟩]) :=
  ((continue_in_direction (exSession 1) (exContact 1 0 true 190 75)).1
    (by decide!) (by decide!)).trans (by decide!)

/-- C22. Sub-threshold moves are discarded.  If `|d|` does not exceed `reverseDeadzone`
and `d·direction` does not exceed `moveDeadzone`, then neither the reversal condition
nor the continue condition holds and `ContinueScrolling` leaves the session, with its
position, direction and polarity, exactly as it was and calls no sink.  Hence over any
sequence of frames in each of which the tracked contact is touching and sub-threshold
relative to the last committed position, a session with established polarity returns
true every time, ends in the state it started in and emits no pulse. -/
theorem sub_threshold_moves_discarded {R : Type} [FloatArith R] (s : ScrollSession R) :
    (∀ contact : Contact,
      FloatArith.lt s.settings_.reverseDeadzone (displacement s contact).Norm = false →
      FloatArith.lt s.settings_.moveDeadzone
        ((displacement s contact).dot s.direction_) = false →
      s.ContinueScrolling contact = (s, [])) ∧
    (∀ frames : List (List Contact), s.scrollDirection_ ≠ 0 →
      (∀ frame ∈ frames, ∃ c, tracked s frame = some c ∧ c.isTouch = true ∧
        FloatArith.lt s.settings_.reverseDeadzone (displacement s c).Norm = false ∧
        FloatArith.lt s.settings_.moveDeadzone
          ((displacement s c).dot s.direction_) = false) →
      updates s frames = (List.replicate frames.length true, s, [])) := by
  have h1 : ∀ contact : Contact,
      FloatArith.lt s.settings_.reverseDeadzone (displacement s contact).Norm = false →
      FloatArith.lt s.settings_.moveDeadzone
        ((displacement s contact).dot s.direction_) = false →
      s.ContinueScrolling contact = (s, []) := by
    intro contact hf ha
    simp only [displacement] at hf ha
    simp only [ScrollSession.ContinueScrolling, hf, ha, Bool.false_eq_true, if_false,
      Bool.or_self, ite_self]
  refine ⟨h1, ?_⟩
  intro frames hp hall
  induction frames with
  | nil => rfl
  | cons frame rest ih =>
    obtain ⟨c, hc, ht, hf, ha⟩ := hall frame (by simp)
    have hu : s.Update frame = (true, s, []) := by
      rw [ScrollSession.Update_eq, hc]
      simp [ht, hp, h1 c hf ha]
    have ih1 := ih (fun f hfm => hall f (by simp [hfm]))
    simp [updates, hu, ih1, List.replicate_succ]

/-- The square root of the square of a non-negative rational is exact. -/
theorem Exact.sqrt_mul_self (q : ℚ) (h : 0 ≤ q) :
    Exact.sqrt ⟨some (q * q)⟩ = ⟨some q⟩ := by
  have hn : 0 ≤ q.num := Rat.num_nonneg.mpr h
  have h1 : ¬ q * q < 0 := not_lt.mpr (mul_self_nonneg q)
  have h2 : (q * q).num.toNat * (q * q).den =
      (q.num.toNat * q.den) * (q.num.toNat * q.den) := by
    rw [Rat.mul_self_num, Rat.mul_self_den]
    obtain ⟨n, hn2⟩ := Int.eq_ofNat_of_zero_le hn
    rw [hn2]
    have : ((n : ℤ) * (n : ℤ)).toNat = n * n := by
      rw [← Int.natCast_mul]; exact Int.toNat_natCast _
    rw [this, Int.toNat_natCast]
    ring
  simp only [Exact.sqrt, h1, if_false, h2, Nat.sqrt_eq]
  congr 2
  rw [Rat.mul_self_den]
  have hd : (q.den : ℚ) ≠ 0 := Nat.cast_ne_zero.mpr q.den_nz
  have hq : (q.num.toNat : ℚ) = q.num := by
    obtain ⟨n, hn2⟩ := Int.eq_ofNat_of_zero_le hn
    rw [hn2]; simp
  push_cast
  rw [hq]
  field_simp
  have := Rat.num_div_den q
  nth_rewrite 3 [← this]
  field_simp
  ring

/-- The vertical example session discards a touch at `(190, 52)`. -/
theorem exSession_discards_near_forward :
    FloatArith.lt (exSession 1).settings_.reverseDeadzone
        (displacement (exSession 1) (exContact 1 0 true 190 52)).Norm = false ∧
      FloatArith.lt (exSession 1).settings_.moveDeadzone
        ((displacement (exSession 1) (exContact 1 0 true 190 52)).dot
          (exSession 1).direction_) = false := by
  have h : (displacement (exSession 1) (exContact 1 0 true 190 52)).Norm = ⟨some (1 / 50)⟩ := by
    show Exact.sqrt (displacement (exSession 1) (exContact 1 0 true 190 52)).Norm2 = _
    rw [show (displacement (exSession 1) (exContact 1 0 true 190 52)).Norm2 =
      (⟨some (1 / 50 * (1 / 50))⟩ : Exact) from by decide!]
    exact Exact.sqrt_mul_self _ (by norm_num)
  rw [h]
  constructor <;> decide!

/-- The vertical example session discards a touch at `(195, 50)`. -/
theorem exSession_discards_near_sideways :
    FloatArith.lt (exSession 1).settings_.reverseDeadzone
        (displacement (exSession 1) (exContact 1 0 true 195 50)).Norm = false ∧
      FloatArith.lt (exSession 1).settings_.moveDeadzone
        ((displacement (exSession 1) (exContact 1 0 true 195 50)).dot
          (exSession 1).direction_) = false := by
  have h : (displacement (exSession 1) (exContact 1 0 true 195 50)).Norm = ⟨some (1 / 20)⟩ := by
    show Exact.sqrt (displacement (exSession 1) (exContact 1 0 true 195 50)).Norm2 = _
    rw [show (displacement (exSession 1) (exContact 1 0 true 195 50)).Norm2 =
      (⟨some (1 / 20 * (1 / 20))⟩ : Exact) from by decide!]
    exact Exact.sqrt_mul_self _ (by norm_num)
  rw [h]
  constructor <;> decide!

/-- The vertical example session discards a touch at `(190, 45)`. -/
theorem exSession_discards_near_backward :
    FloatArith.lt (exSession 1).settings_.reverseDeadzone
        (displacement (exSession 1) (exContact 1 0 true 190 45)).Norm = false ∧
      FloatArith.lt (exSession 1).settings_.moveDeadzone
        ((displacement (exSession 1) (exContact 1 0 true 190 45)).dot
          (exSession 1).direction_) = false := by
  have h : (displacement (exSession 1) (exContact 1 0 true 190 45)).Norm = ⟨some (1 / 20)⟩ := by
    show Exact.sqrt (displacement (exSession 1) (exContact 1 0 true 190 45)).Norm2 = _
    rw [show (displacement (exSession 1) (exContact 1 0 true 190 45)).Norm2 =
      (⟨some (1 / 20 * (1 / 20))⟩ : Exact) from by decide!]
    exact Exact.sqrt_mul_self _ (by norm_num)
  rw [h]
  constructor <;> decide!

/-- The vertical example session discards a touch at its own position `(190, 50)`. -/
theorem exSession_discards_same_place :
    FloatArith.lt (exSession 1).settings_.reverseDeadzone
        (displacement (exSession 1) (exContact 1 0 true 190 50)).Norm = false ∧
      FloatArith.lt (exSession 1).settings_.moveDeadzone
        ((displacement (exSession 1) (exContact 1 0 true 190 50)).dot
          (exSession 1).direction_) = false := by
  have h : (displacement (exSession 1) (exContact 1 0 true 190 50)).Norm = ⟨some (0)⟩ := by
    show Exact.sqrt (displacement (exSession 1) (exContact 1 0 true 190 50)).Norm2 = _
    rw [show (displacement (exSession 1) (exContact 1 0 true 190 50)).Norm2 =
      (⟨some (0 * (0))⟩ : Exact) from by decide!]
    exact Exact.sqrt_mul_self _ (by norm_num)
  rw [h]
  constructor <;> decide!

/-- C22, evaluated on the vertical session scrolling with polarity `+1` from `(190, 50)`
with reverse deadzone `1/10` and move deadzone `1/20` of the slot height 100: touches at
`(190, 52)`, `(195, 50)`, `(190, 45)` and `(190, 50)` are discarded. -/
theorem sub_threshold_moves_discarded_witness :
    updates (exSession 1)
        [[exContact 1 0 true 190 52], [exContact 1 0 true 195 50],
          [exContact 1 0 true 190 45], [exContact 1 0 true 190 50]] =
      ([true, true, true, true], exSession 1, []) :=
  (sub_threshold_moves_discarded (exSession 1)).2 _ (by decide) (by
    intro frame hmem
    simp only [List.mem_cons, List.mem_singleton, List.not_mem_nil, or_false] at hmem
    rcases hmem with h | h | h | h <;> subst h
    · exact ⟨_, rfl, rfl, exSession_discards_near_forward⟩
    · exact ⟨_, rfl, rfl, exSession_discards_near_sideways⟩
    · exact ⟨_, rfl, rfl, exSession_discards_near_backward⟩
    · exact ⟨_, rfl, rfl, exSession_discards_same_place⟩)

/-! ## Assembler cycles: theorems -/

namespace TouchDevice

/-- The four outcomes of `GetContacts`, with `n` the expected count in force (the
report's own count when the builder is NotStarted) and `acc` the buffer after the
report's contacts have been appended: the report is ignored; it is accumulated; it
finalizes the frame; finalization throws. -/
theorem GetContacts_cases (dev : TouchDevice) (h : HidData) :
    (dev.frameBuilder_.expectedContactCount_ = 0 ∧ h.contactCount = 0 ∧
      dev.GetContacts h = (dev, Except.ok none)) ∨
    (∃ n, n ≠ 0 ∧
      (dev.frameBuilder_.expectedContactCount_ = n ∨
        (dev.frameBuilder_.expectedContactCount_ = 0 ∧ h.contactCount = n)) ∧
      ((dev.frameBuilder_.contacts_ ++ dev.GetContactsInReport h).length < n ∧
        dev.GetContacts h =
          ({ dev with frameBuilder_ :=
              { dev.frameBuilder_ with
                expectedContactCount_ := n
                contacts_ := dev.frameBuilder_.contacts_ ++ dev.GetContactsInReport h } },
            Except.ok none) ∨
       n ≤ (dev.frameBuilder_.contacts_ ++ dev.GetContactsInReport h).length ∧
        (dev.frameBuilder_.panicOnUnexpectedInput_ = false ∨
          (kept dev.frameBuilder_.lastContacts_
            (dev.frameBuilder_.contacts_ ++ dev.GetContactsInReport h)).length = n) ∧
        dev.GetContacts h =
          ({ dev with frameBuilder_ :=
              { dev.frameBuilder_ with
                expectedContactCount_ := 0
                lastContacts_ := kept dev.frameBuilder_.lastContacts_
                  (dev.frameBuilder_.contacts_ ++ dev.GetContactsInReport h)
                contacts_ := [] } },
            Except.ok (some (kept dev.frameBuilder_.lastContacts_
              (dev.frameBuilder_.contacts_ ++ dev.GetContactsInReport h)))) ∨
       n ≤ (dev.frameBuilder_.contacts_ ++ dev.GetContactsInReport h).length ∧
        dev.frameBuilder_.panicOnUnexpectedInput_ = true ∧
        (kept dev.frameBuilder_.lastContacts_
          (dev.frameBuilder_.contacts_ ++ dev.GetContactsInReport h)).length ≠ n ∧
        ∃ e, dev.GetContacts h =
          ({ dev with frameBuilder_ :=
              { dev.frameBuilder_ with
                expectedContactCount_ := n
                contacts_ := kept dev.frameBuilder_.lastContacts_
                  (dev.frameBuilder_.contacts_ ++ dev.GetContactsInReport h) } },
            Except.error e))) := by
  obtain ⟨addr, name, ci, lcc, ⟨exp, acc, last, pan⟩⟩ := dev
  simp only
  have key : ∀ n, n ≠ 0 → (exp = n ∨ (exp = 0 ∧ h.contactCount = n)) →
      (TouchDevice.mk addr name ci lcc ⟨exp, acc, last, pan⟩).GetContacts h =
        (let r := FrameBuilder.AddReport ⟨n, acc, last, pan⟩
            ((TouchDevice.mk addr name ci lcc ⟨exp, acc, last, pan⟩).GetContactsInReport h)
         (TouchDevice.mk addr name ci lcc r.1, r.2)) := by
    intro n hn hexp
    rcases hexp with he | ⟨he, hc⟩
    · subst he
      simp [GetContacts, FrameBuilder.InProgress, hn]
    · subst he; subst hc
      simp [GetContacts, FrameBuilder.InProgress, FrameBuilder.Start, hn]
  by_cases h0 : exp = 0 ∧ h.contactCount = 0
  · left
    refine ⟨h0.1, h0.2, ?_⟩
    simp [GetContacts, FrameBuilder.InProgress, h0.1, h0.2]
  · right
    have hex : ∃ n, n ≠ 0 ∧ (exp = n ∨ (exp = 0 ∧ h.contactCount = n)) := by
      by_cases he : exp = 0
      · exact ⟨h.contactCount, fun hc => h0 ⟨he, hc⟩, Or.inr ⟨he, rfl⟩⟩
      · exact ⟨exp, he, Or.inl rfl⟩
    obtain ⟨n, hn, hexp⟩ := hex
    refine ⟨n, hn, hexp, ?_⟩
    rw [key n hn hexp]
    generalize (TouchDevice.mk addr name ci lcc ⟨exp, acc, last, pan⟩).GetContactsInReport h
      = new
    by_cases hlt : (acc ++ new).length < n
    · left
      refine ⟨hlt, ?_⟩
      have : ¬ n ≤ (acc ++ new).length := Nat.not_le.mpr hlt
      simp only [FrameBuilder.AddReport, ge_iff_le, this, if_false]
    · right
      have hge : n ≤ (acc ++ new).length := Nat.le_of_not_lt hlt
      by_cases hok : pan = false ∨ (kept last (acc ++ new)).length = n
      · left
        refine ⟨hge, hok, ?_⟩
        simp only [FrameBuilder.AddReport, ge_iff_le, hge, if_true]
        rw [FrameBuilder.FinishFrame_ok _ hok]
      · right
        have hp : pan = true := by
          cases pan
          · exact absurd (Or.inl rfl) hok
          · rfl
        have hne : (kept last (acc ++ new)).length ≠ n := fun e => hok (Or.inr e)
        refine ⟨hge, hp, hne, ?_⟩
        obtain ⟨e, he⟩ := FrameBuilder.FinishFrame_error
          (⟨n, acc ++ new, last, pan⟩ : FrameBuilder) hp hne
        refine ⟨e, ?_⟩
        simp only [FrameBuilder.AddReport, ge_iff_le, hge, if_true]
        rw [he]

end TouchDevice

namespace TouchDevice

/-- One call of `GetContacts` keeps the slots, and whatever is in the buffer afterwards,
or in the frame it returns, was in the buffer before or comes from this report. -/
theorem GetContacts_provenance (dev : TouchDevice) (h : HidData) :
    (dev.GetContacts h).1.contactInfo_ = dev.contactInfo_ ∧
    (∀ c ∈ (dev.GetContacts h).1.frameBuilder_.contacts_,
      c ∈ dev.frameBuilder_.contacts_ ∨ c ∈ dev.GetContactsInReport h) ∧
    (∀ frame, (dev.GetContacts h).2 = Except.ok (some frame) →
      ∀ c ∈ frame, c ∈ dev.frameBuilder_.contacts_ ∨ c ∈ dev.GetContactsInReport h) := by
  have hk : ∀ c ∈ kept dev.frameBuilder_.lastContacts_
      (dev.frameBuilder_.contacts_ ++ dev.GetContactsInReport h),
      c ∈ dev.frameBuilder_.contacts_ ∨ c ∈ dev.GetContactsInReport h := by
    intro c hc
    exact List.mem_append.mp (List.mem_filter.mp hc).1
  rcases GetContacts_cases dev h with ⟨_, _, e⟩ | ⟨n, _, _, ⟨_, e⟩ | ⟨_, _, e⟩ | ⟨_, _, _, err, e⟩⟩
  · rw [e]
    exact ⟨rfl, fun c hc => Or.inl hc, fun frame hf => by simp at hf⟩
  · rw [e]
    exact ⟨rfl, fun c hc => List.mem_append.mp hc, fun frame hf => by simp at hf⟩
  · rw [e]
    refine ⟨rfl, fun c hc => by simp at hc, fun frame hf => ?_⟩
    simp only [Except.ok.injEq, Option.some.injEq] at hf
    subst hf
    exact hk
  · rw [e]
    exact ⟨rfl, hk, fun frame hf => by simp at hf⟩

/-- Whatever is in the buffer after a sequence of reports was there before or comes from
one of these reports. -/
theorem feed_provenance (reports : List HidData) (dev : TouchDevice) :
    (dev.feed reports).1.contactInfo_ = dev.contactInfo_ ∧
    ∀ c ∈ (dev.feed reports).1.frameBuilder_.contacts_,
      c ∈ dev.frameBuilder_.contacts_ ∨ ∃ h ∈ reports, c ∈ dev.GetContactsInReport h := by
  induction reports generalizing dev with
  | nil => exact ⟨rfl, fun c hc => Or.inl hc⟩
  | cons h t ih =>
    obtain ⟨i1, i2⟩ := ih (dev.GetContacts h).1
    obtain ⟨p1, p2, _⟩ := GetContacts_provenance dev h
    have hsame : ∀ h2, (dev.GetContacts h).1.GetContactsInReport h2 =
        dev.GetContactsInReport h2 := by
      intro h2
      simp only [GetContactsInReport, p1]
    refine ⟨by simpa [feed] using i1.trans p1, ?_⟩
    intro c hc
    have hc2 : c ∈ (feed (dev.GetContacts h).1 t).1.frameBuilder_.contacts_ := by
      simpa [feed] using hc
    rcases i2 c hc2 with h1 | ⟨h2, hm, h3⟩
    · rcases p2 c h1 with h4 | h4
      · exact Or.inl h4
      · exact Or.inr ⟨h, by simp, h4⟩
    · rw [hsame] at h3
      exact Or.inr ⟨h2, by simp [hm], h3⟩

end TouchDevice

/-- C23. Assembler reset after finalization.  (a) A new builder is NotStarted with an
empty buffer.  (b) Whenever `GetContacts` returns a frame, the builder is left
NotStarted, its stored previous frame is the frame just returned and its accumulation
buffer is empty.  (c) A report with contact count 0 that arrives while the builder is
NotStarted leaves it as it is, so the buffer is still empty when the next cycle starts.
(d) Starting from an empty buffer, if none of the reports `pre` returns a frame and the
next report `r` returns `frame`, then every contact of `frame` was contributed by one of
the reports `pre ++ [r]` of this cycle. -/
theorem assembler_reset_after_finalization :
    (∀ p : Bool, (FrameBuilder.ctor p).InProgress = false ∧
      (FrameBuilder.ctor p).contacts_ = []) ∧
    (∀ (dev : TouchDevice) (h : HidData) (frame : List Contact),
      (dev.GetContacts h).2 = Except.ok (some frame) →
      (dev.GetContacts h).1.frameBuilder_.InProgress = false ∧
      (dev.GetContacts h).1.frameBuilder_.lastContacts_ = frame ∧
      (dev.GetContacts h).1.frameBuilder_.contacts_ = []) ∧
    (∀ (dev : TouchDevice) (h : HidData), dev.frameBuilder_.InProgress = false →
      h.contactCount = 0 → dev.GetContacts h = (dev, Except.ok none)) ∧
    (∀ (dev : TouchDevice) (pre : List HidData) (r : HidData) (frame : List Contact),
      dev.frameBuilder_.contacts_ = [] →
      (∀ res ∈ (dev.feed pre).2, ∀ f, res ≠ Except.ok (some f)) →
      ((dev.feed pre).1.GetContacts r).2 = Except.ok (some frame) →
      ∀ c ∈ frame, ∃ h ∈ pre ++ [r], c ∈ dev.GetContactsInReport h) := by
  refine ⟨fun p => ⟨rfl, rfl⟩, ?_, ?_, ?_⟩
  · intro dev h frame hf
    rcases TouchDevice.GetContacts_cases dev h with
      ⟨_, _, e⟩ | ⟨n, _, _, ⟨_, e⟩ | ⟨_, _, e⟩ | ⟨_, _, _, err, e⟩⟩
    · rw [e] at hf; simp at hf
    · rw [e] at hf; simp at hf
    · rw [e] at hf ⊢
      simp only [Except.ok.injEq, Option.some.injEq] at hf
      subst hf
      exact ⟨rfl, rfl, rfl⟩
    · rw [e] at hf; simp at hf
  · intro dev h hns hc
    have he : dev.frameBuilder_.expectedContactCount_ = 0 := by
      simpa [FrameBuilder.InProgress] using hns
    simp [TouchDevice.GetContacts, FrameBuilder.InProgress, he, hc]
  · intro dev pre r frame hempty _ hf c hc
    obtain ⟨f1, f2⟩ := TouchDevice.feed_provenance pre dev
    obtain ⟨_, _, p3⟩ := TouchDevice.GetContacts_provenance (dev.feed pre).1 r
    have hsame : (dev.feed pre).1.GetContactsInReport r = dev.GetContactsInReport r := by
      simp only [TouchDevice.GetContactsInReport, f1]
    rcases p3 frame hf c hc with h1 | h1
    · rcases f2 c h1 with h2 | ⟨h2, hm, h3⟩
      · rw [hempty] at h2; simp at h2
      · exact ⟨h2, by simp [hm], h3⟩
    · rw [hsame] at h1
      exact ⟨r, by simp, h1⟩

/-- C23, evaluated on the three-slot touchpad: after a report of two expected contacts
that carries one, the next report returns the frame of both and resets the builder, and
the contact on slot 2 comes from a report of this cycle. -/
theorem assembler_reset_after_finalization_witness :
    (((exDevice.feed [exReport 2 1 0 true 10 10]).1.GetContacts
        (exReport 2 2 1 true 20 20)).1.frameBuilder_.InProgress = false ∧
      ((exDevice.feed [exReport 2 1 0 true 10 10]).1.GetContacts
        (exReport 2 2 1 true 20 20)).1.frameBuilder_.lastContacts_ =
        [exContact 1 0 true 10 10, exContact 2 1 true 20 20] ∧
      ((exDevice.feed [exReport 2 1 0 true 10 10]).1.GetContacts
        (exReport 2 2 1 true 20 20)).1.frameBuilder_.contacts_ = []) ∧
    ∃ h ∈ [exReport 2 1 0 true 10 10] ++ [exReport 2 2 1 true 20 20],
      exContact 2 1 true 20 20 ∈ exDevice.GetContactsInReport h :=
  ⟨assembler_reset_after_finalization.2.1 (exDevice.feed [exReport 2 1 0 true 10 10]).1
      (exReport 2 2 1 true 20 20) [exContact 1 0 true 10 10, exContact 2 1 true 20 20] rfl,
    assembler_reset_after_finalization.2.2.2 exDevice [exReport 2 1 0 true 10 10]
      (exReport 2 2 1 true 20 20) [exContact 1 0 true 10 10, exContact 2 1 true 20 20] rfl
      (by
        intro res hres f
        have e : (exDevice.feed [exReport 2 1 0 true 10 10]).2 = [Except.ok none] := rfl
        rw [e] at hres
        simp only [List.mem_singleton] at hres
        subst hres
        simp)
      rfl (exContact 2 1 true 20 20) (by simp)⟩

/-- C27. Strict-policy failure does not reset the assembler.  Under the strict policy,
take a report that brings the buffer to at least the expected count `n` in force (the
builder's, or the report's own when the builder is NotStarted) while the count left by
the ghost-lift filter differs from `n`.  Then `GetContacts` throws; the builder is left
InProgress with expected count `n`, its stored previous frame is unchanged, and its
buffer holds the filtered accumulated contacts.  The next report is then not treated
as a cycle start: whatever its contact count, it goes to `AddReport` on the retained
buffer with expected count `n`, which appends its contacts to the retained ones; if the
total stays below `n` no frame is returned. -/
theorem strict_failure_keeps_cycle (dev : TouchDevice) (h : HidData) (n : Nat)
    (hn : n ≠ 0)
    (hexp : dev.frameBuilder_.expectedContactCount_ = n ∨
      (dev.frameBuilder_.expectedContactCount_ = 0 ∧ h.contactCount = n))
    (hp : dev.frameBuilder_.panicOnUnexpectedInput_ = true)
    (hge : n ≤ (dev.frameBuilder_.contacts_ ++ dev.GetContactsInReport h).length)
    (hne : (kept dev.frameBuilder_.lastContacts_
      (dev.frameBuilder_.contacts_ ++ dev.GetContactsInReport h)).length ≠ n) :
    (∃ e, (dev.GetContacts h).2 = Except.error e) ∧
    (dev.GetContacts h).1.frameBuilder_.InProgress = true ∧
    (dev.GetContacts h).1.frameBuilder_.expectedContactCount_ = n ∧
    (dev.GetContacts h).1.frameBuilder_.lastContacts_ = dev.frameBuilder_.lastContacts_ ∧
    (dev.GetContacts h).1.frameBuilder_.contacts_ =
      kept dev.frameBuilder_.lastContacts_
        (dev.frameBuilder_.contacts_ ++ dev.GetContactsInReport h) ∧
    (∀ next : HidData,
      (dev.GetContacts h).1.GetContacts next =
        ({ dev with
            frameBuilder_ :=
              (FrameBuilder.AddReport
                { expectedContactCount_ := n
                  contacts_ := kept dev.frameBuilder_.lastContacts_
                    (dev.frameBuilder_.contacts_ ++ dev.GetContactsInReport h)
                  lastContacts_ := dev.frameBuilder_.lastContacts_
                  panicOnUnexpectedInput_ := true }
                (dev.GetContactsInReport next)).1 },
          (FrameBuilder.AddReport
            { expectedContactCount_ := n
              contacts_ := kept dev.frameBuilder_.lastContacts_
                (dev.frameBuilder_.contacts_ ++ dev.GetContactsInReport h)
              lastContacts_ := dev.frameBuilder_.lastContacts_
              panicOnUnexpectedInput_ := true }
            (dev.GetContactsInReport next)).2)) ∧
    (∀ next : HidData,
      (kept dev.frameBuilder_.lastContacts_
        (dev.frameBuilder_.contacts_ ++ dev.GetContactsInReport h)).length +
          (dev.GetContactsInReport next).length < n →
      (dev.GetContacts h).1.GetContacts next =
        ({ (dev.GetContacts h).1 with
            frameBuilder_ :=
              { (dev.GetContacts h).1.frameBuilder_ with
                contacts_ :=
                  kept dev.frameBuilder_.lastContacts_
                    (dev.frameBuilder_.contacts_ ++ dev.GetContactsInReport h) ++
                  dev.GetContactsInReport next } },
          Except.ok none)) := by
  have hstate : ∃ e, dev.GetContacts h =
      ({ dev with frameBuilder_ :=
          { dev.frameBuilder_ with
            expectedContactCount_ := n
            contacts_ := kept dev.frameBuilder_.lastContacts_
              (dev.frameBuilder_.contacts_ ++ dev.GetContactsInReport h) } },
        Except.error e) := by
    rcases TouchDevice.GetContacts_cases dev h with
      ⟨e0, c0, _⟩ | ⟨m, hm, hexp2, ⟨hlt, _⟩ | ⟨_, hok, _⟩ | ⟨_, _, _, err, e⟩⟩
    · rcases hexp with h1 | ⟨_, h1⟩
      · exact absurd (h1.symm.trans e0) hn
      · exact absurd (h1.symm.trans c0) hn
    all_goals
      have hmn : m = n := by
        rcases hexp with h1 | ⟨h1, h2⟩ <;> rcases hexp2 with h3 | ⟨h3, h4⟩
        · exact h3.symm.trans h1
        · exact absurd (h1.symm.trans h3) hn
        · exact absurd (h3.symm.trans h1) hm
        · exact h4.symm.trans h2
      subst hmn
    · exact absurd hge (Nat.not_le.mpr hlt)
    · rcases hok with h1 | h1
      · rw [hp] at h1; exact absurd h1 (by simp)
      · exact absurd h1 hne
    · exact ⟨err, e⟩
  obtain ⟨e, he⟩ := hstate
  rw [he]
  refine ⟨⟨e, rfl⟩, by simpa [FrameBuilder.InProgress] using hn, rfl, rfl, rfl, ?_, ?_⟩
  · intro next
    have hin : FrameBuilder.InProgress
        { dev.frameBuilder_ with
          expectedContactCount_ := n
          contacts_ := kept dev.frameBuilder_.lastContacts_
            (dev.frameBuilder_.contacts_ ++ dev.GetContactsInReport h) } = true := by
      simpa [FrameBuilder.InProgress] using hn
    unfold TouchDevice.GetContacts
    simp only [hin, Bool.not_true, Bool.false_eq_true, if_false]
    simp only [hp]
    rfl
  intro next hlt
  have hb := TouchDevice.GetContacts_below
    ({ dev with frameBuilder_ :=
        { dev.frameBuilder_ with
          expectedContactCount_ := n
          contacts_ := kept dev.frameBuilder_.lastContacts_
            (dev.frameBuilder_.contacts_ ++ dev.GetContactsInReport h) } } : TouchDevice)
    next n hn (Or.inl rfl) hlt
  rw [hb]
  rfl

/-- C27, evaluated on the three-slot touchpad under the strict policy, in a cycle that
expects two contacts and holds a touch on slot 1: a report that carries only a ghost
lift throws and leaves the expected count 2 and the touch in the buffer; a following
report with a touch on slot 3 then completes the same cycle, and the frame it returns
holds the retained touch. -/
theorem strict_failure_keeps_cycle_witness :
    (∃ e, ((exDeviceStrict.GetContacts (exReport 2 1 0 true 10 10)).1.GetContacts
      (exReport 2 2 1 false 20 20)).2 = Except.error e) ∧
    ((exDeviceStrict.GetContacts (exReport 2 1 0 true 10 10)).1.GetContacts
      (exReport 2 2 1 false 20 20)).1.frameBuilder_.expectedContactCount_ = 2 ∧
    ((exDeviceStrict.GetContacts (exReport 2 1 0 true 10 10)).1.GetContacts
      (exReport 2 2 1 false 20 20)).1.frameBuilder_.contacts_ =
      [exContact 1 0 true 10 10] ∧
    (((exDeviceStrict.GetContacts (exReport 2 1 0 true 10 10)).1.GetContacts
      (exReport 2 2 1 false 20 20)).1.GetContacts (exReport 1 3 2 true 30 30)).2 =
      Except.ok (some [exContact 1 0 true 10 10, exContact 3 2 true 30 30]) :=
  have w := strict_failure_keeps_cycle
    (exDeviceStrict.GetContacts (exReport 2 1 0 true 10 10)).1
    (exReport 2 2 1 false 20 20) 2 (by decide) (Or.inl rfl) rfl (by decide) (by decide)
  ⟨w.1, w.2.2.1, w.2.2.2.2.1.trans rfl,
    (congrArg Prod.snd (w.2.2.2.2.2.1 (exReport 1 3 2 true 30 30))).trans rfl⟩

/-! ## Scaled positions: theorems -/

/-- A `ULONG` below `2^31` converts to the same `LONG`. -/
theorem toLONG_of_lt (x : Nat) (h : x < 2 ^ 31) : toLONG x = (x : Int) := by
  have h1 : x % 2 ^ 32 = x := Nat.mod_eq_of_lt (by omega)
  unfold toLONG
  rw [h1, if_pos h]

/-- In exact arithmetic the scaled vector is the quotient of both components by the
slot height. -/
theorem scaleBy_exact (info : ContactInfo) (v : Vector Int)
    (hh : info.logicalArea.bottom - info.logicalArea.top ≠ 0) :
    (scaleBy info v : Vector Exact) =
      ⟨⟨some ((v.x_ : ℚ) / ((info.logicalArea.bottom - info.logicalArea.top : Int) : ℚ))⟩,
        ⟨some ((v.y_ : ℚ) / ((info.logicalArea.bottom - info.logicalArea.top : Int) : ℚ))⟩⟩ := by
  have hq : ((info.logicalArea.bottom - info.logicalArea.top : Int) : ℚ) ≠ 0 :=
    Int.cast_ne_zero.mpr hh
  have hd : ∀ a : Int,
      (FloatArith.ofInt a : Exact) /
          FloatArith.ofInt (info.logicalArea.bottom - info.logicalArea.top) =
        ⟨some ((a : ℚ) / ((info.logicalArea.bottom - info.logicalArea.top : Int) : ℚ))⟩ := by
    intro a
    show Exact.div ⟨some (a : ℚ)⟩
      ⟨some ((info.logicalArea.bottom - info.logicalArea.top : Int) : ℚ)⟩ = _
    simp only [Exact.div]
    rw [if_neg hq]
  simp only [scaleBy, Vector.divLONG, hd]

/-- C24, refuted as stated.  On the slot whose logical area is `0..200` wide and
`0..100` high, the session created at the contact `(190, 50)`, which lies inside the
area, has the scaled position `(19/10, 1/2)`, whose first coordinate exceeds 1.  On the
square slot whose area runs from `(0, 100)` to `(100, 200)`, the contact `(50, 150)`
inside it scales to `(1/2, 3/2)`, whose second coordinate exceeds 1. -/
theorem scaled_position_range_counterexample :
    (0 < (exSlot 1).logicalArea.bottom - (exSlot 1).logicalArea.top ∧
      (exSlot 1).logicalArea.left ≤ 190 ∧ 190 ≤ (exSlot 1).logicalArea.right ∧
      (exSlot 1).logicalArea.top ≤ 50 ∧ 50 ≤ (exSlot 1).logicalArea.bottom ∧
      (ScrollSession.ctor exDevice (exContact 1 0 true 190 50) ⟨ofInt 0, ofInt 1⟩
          (FloatArith.ofRat (-10)) exGlobal ScrollerRef.vScroller_).map
          (fun s => s.position_) =
        some (⟨⟨some (19 / 10)⟩, ⟨some (1 / 2)⟩⟩ : Vector Exact) ∧
      FloatArith.lt (ofInt 1 : Exact) ⟨some (19 / 10)⟩ = true) ∧
    (0 < exSlotLow.logicalArea.bottom - exSlotLow.logicalArea.top ∧
      exSlotLow.logicalArea.left ≤ 50 ∧ 50 ≤ exSlotLow.logicalArea.right ∧
      exSlotLow.logicalArea.top ≤ 150 ∧ 150 ≤ exSlotLow.logicalArea.bottom ∧
      (scaleBy exSlotLow ⟨toLONG 50, toLONG 150⟩ : Vector Exact) =
        ⟨⟨some (1 / 2)⟩, ⟨some (3 / 2)⟩⟩ ∧
      FloatArith.lt (ofInt 1 : Exact) ⟨some (3 / 2)⟩ = true) := by
  refine ⟨⟨?_, ?_, ?_, ?_, ?_, ?_, ?_⟩, ⟨?_, ?_, ?_, ?_, ?_, ?_, ?_⟩⟩ <;> decide!

/-- C24, amended.  The scaled position divides both logical coordinates by the slot
height and subtracts no origin.  A session created by the constructor holds
`ScaleVector` of its initial contact, and `Scroll` commits `ScaleVector` of the
current contact.  In exact arithmetic, for a slot of positive logical height `h` whose
area lies in the `LONG` range and a contact at `(x, y)` inside the area, the scaled
position is `(x/h, y/h)`, with `left/h <= x/h <= right/h` and
`top/h <= y/h <= bottom/h`.  The second coordinate lies in `[0, 1]` when the area
starts at `top = 0`; the first does when `0 <= left` and the width reaches no further
than the height, `right <= h`. -/
theorem scaled_position_by_height (info : ContactInfo) (x y : Nat)
    (hh : 0 < info.logicalArea.bottom - info.logicalArea.top)
    (hx1 : info.logicalArea.left ≤ (x : Int)) (hx2 : (x : Int) ≤ info.logicalArea.right)
    (hy1 : info.logicalArea.top ≤ (y : Int)) (hy2 : (y : Int) ≤ info.logicalArea.bottom)
    (hr : info.logicalArea.right < 2 ^ 31) (hb : info.logicalArea.bottom < 2 ^ 31) :
    (∀ (device : TouchDevice) (c : Contact) (dir : Vector Exact) (sens : Exact)
        (g : GlobalSettings Exact) (scr : ScrollerRef) (s : ScrollSession Exact),
      ScrollSession.ctor device c dir sens g scr = some s →
      s.position_ = s.ScaleVector ⟨toLONG c.logicalX, toLONG c.logicalY⟩) ∧
    (∀ (s : ScrollSession Exact) (m : Vector Exact) (c : Contact),
      (s.Scroll m (s.ScaleVector ⟨toLONG c.logicalX, toLONG c.logicalY⟩)).1.position_ =
        s.ScaleVector ⟨toLONG c.logicalX, toLONG c.logicalY⟩) ∧
    (scaleBy info ⟨toLONG x, toLONG y⟩ : Vector Exact) =
      ⟨⟨some ((x : ℚ) / ((info.logicalArea.bottom - info.logicalArea.top : Int) : ℚ))⟩,
        ⟨some ((y : ℚ) / ((info.logicalArea.bottom - info.logicalArea.top : Int) : ℚ))⟩⟩ ∧
    (info.logicalArea.left : ℚ) / ((info.logicalArea.bottom - info.logicalArea.top : Int) : ℚ) ≤
      (x : ℚ) / ((info.logicalArea.bottom - info.logicalArea.top : Int) : ℚ) ∧
    (x : ℚ) / ((info.logicalArea.bottom - info.logicalArea.top : Int) : ℚ) ≤
      (info.logicalArea.right : ℚ) /
        ((info.logicalArea.bottom - info.logicalArea.top : Int) : ℚ) ∧
    (info.logicalArea.top : ℚ) / ((info.logicalArea.bottom - info.logicalArea.top : Int) : ℚ) ≤
      (y : ℚ) / ((info.logicalArea.bottom - info.logicalArea.top : Int) : ℚ) ∧
    (y : ℚ) / ((info.logicalArea.bottom - info.logicalArea.top : Int) : ℚ) ≤
      (info.logicalArea.bottom : ℚ) /
        ((info.logicalArea.bottom - info.logicalArea.top : Int) : ℚ) ∧
    (info.logicalArea.top = 0 →
      0 ≤ (y : ℚ) / ((info.logicalArea.bottom - info.logicalArea.top : Int) : ℚ) ∧
      (y : ℚ) / ((info.logicalArea.bottom - info.logicalArea.top : Int) : ℚ) ≤ 1) ∧
    (0 ≤ info.logicalArea.left →
      info.logicalArea.right ≤ info.logicalArea.bottom - info.logicalArea.top →
      0 ≤ (x : ℚ) / ((info.logicalArea.bottom - info.logicalArea.top : Int) : ℚ) ∧
      (x : ℚ) / ((info.logicalArea.bottom - info.logicalArea.top : Int) : ℚ) ≤ 1) := by
  have hq : (0 : ℚ) < ((info.logicalArea.bottom - info.logicalArea.top : Int) : ℚ) :=
    Int.cast_pos.mpr hh
  have hxl : toLONG x = (x : Int) := toLONG_of_lt x (by omega)
  have hyl : toLONG y = (y : Int) := toLONG_of_lt y (by omega)
  have qx1 : (info.logicalArea.left : ℚ) ≤ (x : ℚ) := by exact_mod_cast hx1
  have qx2 : (x : ℚ) ≤ (info.logicalArea.right : ℚ) := by exact_mod_cast hx2
  have qy1 : (info.logicalArea.top : ℚ) ≤ (y : ℚ) := by exact_mod_cast hy1
  have qy2 : (y : ℚ) ≤ (info.logicalArea.bottom : ℚ) := by exact_mod_cast hy2
  refine ⟨?_, ?_, ?_, ?_, ?_, ?_, ?_, ?_, ?_⟩
  · intro device c dir sens g scr s hs
    unfold ScrollSession.ctor at hs
    cases hci : device.GetContactInfo c.contactInfoLink with
    | none => rw [hci] at hs; simp at hs
    | some ci =>
      rw [hci] at hs
      simp only [Option.some.injEq] at hs
      subst hs
      rfl
  · intro s m c
    rfl
  · rw [scaleBy_exact info _ (ne_of_gt hh), hxl, hyl]
    simp
  · exact div_le_div_of_nonneg_right qx1 hq.le
  · exact div_le_div_of_nonneg_right qx2 hq.le
  · exact div_le_div_of_nonneg_right qy1 hq.le
  · exact div_le_div_of_nonneg_right qy2 hq.le
  · intro ht
    have h0 : (0 : ℚ) ≤ (y : ℚ) := Nat.cast_nonneg y
    refine ⟨div_nonneg h0 hq.le, (div_le_one hq).mpr ?_⟩
    rw [ht]
    simpa using qy2
  · intro hl hw
    have h0 : (0 : ℚ) ≤ (x : ℚ) := Nat.cast_nonneg x
    refine ⟨div_nonneg h0 hq.le, (div_le_one hq).mpr ?_⟩
    have : (info.logicalArea.right : ℚ) ≤
        ((info.logicalArea.bottom - info.logicalArea.top : Int) : ℚ) := by exact_mod_cast hw
    exact qx2.trans this

/-- C24 amended, evaluated on the slot `0..200` by `0..100` and the contact `(190, 50)`:
the scaled position is `(190/100, 50/100)`. -/
theorem scaled_position_by_height_witness :
    (scaleBy (exSlot 1) ⟨toLONG 190, toLONG 50⟩ : Vector Exact) =
      ⟨⟨some (((190 : Nat) : ℚ) /
          (((exSlot 1).logicalArea.bottom - (exSlot 1).logicalArea.top : Int) : ℚ))⟩,
        ⟨some (((50 : Nat) : ℚ) /
          (((exSlot 1).logicalArea.bottom - (exSlot 1).logicalArea.top : Int) : ℚ))⟩⟩ :=
  (scaled_position_by_height (exSlot 1) 190 50 (by decide) (by decide) (by decide)
    (by decide) (by decide) (by decide) (by decide)).2.2.1

/-! ## Polarity: theorems -/

namespace ScrollSession

/-- One call of `Scroll` emits one pulse on the session's sink and keeps polarity and
sink. -/
theorem Scroll_trace {R : Type} [FloatArith R] (s : ScrollSession R) (d p : Vector R) :
    (s.Scroll d p).1.scrollDirection_ = s.scrollDirection_ ∧
    (s.Scroll d p).1.scroller_ = s.scroller_ ∧
    ∃ n, (s.Scroll d p).2 = [⟨s.scroller_, ScrollerCall.Scroll n⟩] :=
  ⟨rfl, rfl, _, rfl⟩

/-- One call of `Update` keeps the sink.  From polarity 0 it either leaves polarity 0 and
calls nothing, or sets it to `+1` or `-1` and calls begin-sequence and one pulse.  From
a non-zero polarity it keeps or negates it and calls at most one pulse. -/
theorem Update_trace {R : Type} [FloatArith R] (s : ScrollSession R)
    (frame : List Contact) :
    (s.Update frame).2.1.scroller_ = s.scroller_ ∧
    (s.scrollDirection_ = 0 →
      ((s.Update frame).2.1.scrollDirection_ = 0 ∧ (s.Update frame).2.2 = []) ∨
      (((s.Update frame).2.1.scrollDirection_ = 1 ∨
          (s.Update frame).2.1.scrollDirection_ = -1) ∧
        ∃ n, (s.Update frame).2.2 =
          [⟨s.scroller_, ScrollerCall.StartScrolling⟩,
            ⟨s.scroller_, ScrollerCall.Scroll n⟩])) ∧
    (s.scrollDirection_ ≠ 0 →
      ((s.Update frame).2.1.scrollDirection_ = s.scrollDirection_ ∨
        (s.Update frame).2.1.scrollDirection_ = s.scrollDirection_ * -1) ∧
      ((s.Update frame).2.2 = [] ∨
        ∃ n, (s.Update frame).2.2 = [⟨s.scroller_, ScrollerCall.Scroll n⟩])) := by
  rw [ScrollSession.Update_eq]
  cases tracked s frame with
  | none => exact ⟨rfl, fun h => Or.inl ⟨h, rfl⟩, fun _ => ⟨Or.inl rfl, Or.inl rfl⟩⟩
  | some c =>
    simp only
    by_cases ht : c.isTouch = false
    · rw [if_pos ht]
      exact ⟨rfl, fun h => Or.inl ⟨h, rfl⟩, fun _ => ⟨Or.inl rfl, Or.inl rfl⟩⟩
    · rw [if_neg ht]
      by_cases hp : s.scrollDirection_ = 0
      · rw [if_pos hp]
        refine ⟨?_, fun _ => ?_, fun h => absurd hp h⟩
        · simp only [StartScrolling]
          split_ifs <;> rfl
        · simp only [StartScrolling]
          split_ifs
          · exact Or.inr ⟨Or.inl rfl, _, rfl⟩
          · exact Or.inr ⟨Or.inr rfl, _, rfl⟩
          · exact Or.inl ⟨hp, rfl⟩
      · rw [if_neg hp]
        refine ⟨?_, fun h => absurd h hp, fun _ => ?_⟩
        · simp only [ContinueScrolling]
          split_ifs <;> rfl
        · simp only [ContinueScrolling]
          split_ifs
          · exact ⟨Or.inr rfl, Or.inr ⟨_, rfl⟩⟩
          · exact ⟨Or.inl rfl, Or.inl rfl⟩
          · exact ⟨Or.inl rfl, Or.inr ⟨_, rfl⟩⟩
          · exact ⟨Or.inl rfl, Or.inl rfl⟩

end ScrollSession

/-- A sequence of `Update` calls from a non-zero polarity keeps the sink, ends with the
same polarity or its negative, and calls nothing but pulses. -/
theorem updates_trace_scrolling {R : Type} [FloatArith R] (frames : List (List Contact))
    (s : ScrollSession R) (hp : s.scrollDirection_ ≠ 0) :
    ((updates s frames).2.1.scrollDirection_ = s.scrollDirection_ ∨
      (updates s frames).2.1.scrollDirection_ = s.scrollDirection_ * -1) ∧
    ∀ e ∈ (updates s frames).2.2, ∃ n, e = ⟨s.scroller_, ScrollerCall.Scroll n⟩ := by
  induction frames generalizing s with
  | nil => exact ⟨Or.inl rfl, fun e he => by simp [updates] at he⟩
  | cons frame rest ih =>
    obtain ⟨hs, _, h3⟩ := ScrollSession.Update_trace s frame
    obtain ⟨hpol, hev⟩ := h3 hp
    have hp1 : (s.Update frame).2.1.scrollDirection_ ≠ 0 := by
      rcases hpol with h | h <;> rw [h]
      · exact hp
      · simpa using hp
    obtain ⟨i1, i2⟩ := ih (s.Update frame).2.1 hp1
    refine ⟨?_, ?_⟩
    · show (updates (s.Update frame).2.1 rest).2.1.scrollDirection_ = _ ∨
        (updates (s.Update frame).2.1 rest).2.1.scrollDirection_ = _
      rcases i1 with h | h <;> rcases hpol with g | g <;> rw [h, g]
      · exact Or.inl rfl
      · exact Or.inr rfl
      · exact Or.inr rfl
      · left; ring
    · intro e he
      have he2 : e ∈ (s.Update frame).2.2 ++ (updates (s.Update frame).2.1 rest).2.2 := he
      rcases List.mem_append.mp he2 with h | h
      · rcases hev with g | ⟨n, g⟩
        · rw [g] at h; simp at h
        · rw [g] at h
          exact ⟨n, by simpa using h⟩
      · obtain ⟨n, hn⟩ := i2 e h
        exact ⟨n, by rw [hn, hs]⟩

/-- A sequence of `Update` calls from polarity 0 either never leaves polarity 0 and calls
nothing, or ends with polarity `+1` or `-1` after calling begin-sequence first and only
pulses afterwards. -/
theorem updates_trace_idle {R : Type} [FloatArith R] (frames : List (List Contact))
    (s : ScrollSession R) (hp : s.scrollDirection_ = 0) :
    ((updates s frames).2.1.scrollDirection_ = 0 ∧ (updates s frames).2.2 = []) ∨
    (((updates s frames).2.1.scrollDirection_ = 1 ∨
        (updates s frames).2.1.scrollDirection_ = -1) ∧
      ∃ rest, (updates s frames).2.2 = ⟨s.scroller_, ScrollerCall.StartScrolling⟩ :: rest ∧
        ∀ e ∈ rest, ∃ n, e = ⟨s.scroller_, ScrollerCall.Scroll n⟩) := by
  induction frames generalizing s with
  | nil => exact Or.inl ⟨hp, rfl⟩
  | cons frame rest ih =>
    obtain ⟨hs, h2, _⟩ := ScrollSession.Update_trace s frame
    have hu : (updates s (frame :: rest)).2.1 = (updates (s.Update frame).2.1 rest).2.1 := rfl
    have hev : (updates s (frame :: rest)).2.2 =
        (s.Update frame).2.2 ++ (updates (s.Update frame).2.1 rest).2.2 := rfl
    rw [hu, hev]
    rcases h2 hp with ⟨g1, g2⟩ | ⟨g1, n, g2⟩
    · rw [g2, List.nil_append]
      rcases ih (s.Update frame).2.1 g1 with i | ⟨i1, r, i2, i3⟩
      · exact Or.inl i
      · right
        refine ⟨i1, r, by rw [i2, hs], ?_⟩
        intro e he
        obtain ⟨m, hm⟩ := i3 e he
        exact ⟨m, by rw [hm, hs]⟩
    · right
      have hp1 : (s.Update frame).2.1.scrollDirection_ ≠ 0 := by
        rcases g1 with h | h <;> rw [h] <;> decide
      obtain ⟨i1, i2⟩ := updates_trace_scrolling rest (s.Update frame).2.1 hp1
      refine ⟨?_, ⟨s.scroller_, ScrollerCall.Scroll n⟩ ::
        (updates (s.Update frame).2.1 rest).2.2, by rw [g2]; rfl, ?_⟩
      · rcases i1 with h | h <;> rcases g1 with g | g <;> rw [h, g] <;> decide
      · intro e he
        rcases List.mem_cons.mp he with h | h
        · exact ⟨n, h⟩
        · obtain ⟨m, hm⟩ := i2 e h
          exact ⟨m, by rw [hm, hs]⟩

/-- C25. Polarity invariant of a Scroll session.  (a) The constructor sets polarity 0.
(b) Over every sequence of `Update` calls a polarity in `0, +1, -1` stays in that set.
(c) A non-zero polarity never becomes 0 again.  (d) The sink calls made by the `Update`
calls of a session since its creation are either none, or begin-sequence first and
then only pulses: begin-sequence is called at most once and no pulse precedes it.
(e) From a non-zero polarity on, only pulses are called. -/
theorem polarity_invariant {R : Type} [FloatArith R] :
    (∀ (device : TouchDevice) (c : Contact) (dir : Vector R) (sens : R)
        (g : GlobalSettings R) (scr : ScrollerRef) (s : ScrollSession R),
      ScrollSession.ctor device c dir sens g scr = some s → s.scrollDirection_ = 0) ∧
    (∀ (s : ScrollSession R) (frames : List (List Contact)),
      (s.scrollDirection_ = 0 ∨ s.scrollDirection_ = 1 ∨ s.scrollDirection_ = -1) →
      ((updates s frames).2.1.scrollDirection_ = 0 ∨
        (updates s frames).2.1.scrollDirection_ = 1 ∨
        (updates s frames).2.1.scrollDirection_ = -1)) ∧
    (∀ (s : ScrollSession R) (frames : List (List Contact)),
      s.scrollDirection_ ≠ 0 → (updates s frames).2.1.scrollDirection_ ≠ 0) ∧
    (∀ (s : ScrollSession R) (frames : List (List Contact)), s.scrollDirection_ = 0 →
      ((updates s frames).2.2 = [] ∨
        ∃ rest, (updates s frames).2.2 =
            ⟨s.scroller_, ScrollerCall.StartScrolling⟩ :: rest ∧
          ∀ e ∈ rest, ∃ n, e = ⟨s.scroller_, ScrollerCall.Scroll n⟩) ∧
      ((updates s frames).2.2.filter
        (fun e => decide (e.call = ScrollerCall.StartScrolling))).length ≤ 1) ∧
    (∀ (s : ScrollSession R) (frames : List (List Contact)), s.scrollDirection_ ≠ 0 →
      ∀ e ∈ (updates s frames).2.2, ∃ n, e = ⟨s.scroller_, ScrollerCall.Scroll n⟩) := by
  refine ⟨?_, ?_, ?_, ?_, ?_⟩
  · intro device c dir sens g scr s hs
    unfold ScrollSession.ctor at hs
    cases hci : device.GetContactInfo c.contactInfoLink with
    | none => rw [hci] at hs; simp at hs
    | some ci =>
      rw [hci] at hs
      simp only [Option.some.injEq] at hs
      subst hs
      rfl
  · intro s frames hp
    by_cases h0 : s.scrollDirection_ = 0
    · rcases updates_trace_idle frames s h0 with ⟨h, _⟩ | ⟨h, _⟩
      · exact Or.inl h
      · exact Or.inr h
    · have hs : s.scrollDirection_ = 1 ∨ s.scrollDirection_ = -1 := by
        rcases hp with h | h
        · exact absurd h h0
        · exact h
      rcases (updates_trace_scrolling frames s h0).1 with h | h <;>
        rcases hs with g | g <;> rw [h, g] <;> decide
  · intro s frames hp
    rcases (updates_trace_scrolling frames s hp).1 with h | h <;> rw [h]
    · exact hp
    · simpa using hp
  · intro s frames hp
    rcases updates_trace_idle frames s hp with ⟨_, h⟩ | ⟨_, rest, h1, h2⟩
    · rw [h]
      exact ⟨Or.inl rfl, by simp⟩
    · refine ⟨Or.inr ⟨rest, h1, h2⟩, ?_⟩
      rw [h1]
      have hnone : rest.filter (fun e => decide (e.call = ScrollerCall.StartScrolling)) = [] := by
        rw [List.filter_eq_nil_iff]
        intro e he
        obtain ⟨n, hn⟩ := h2 e he
        rw [hn]
        simp
      simp [List.filter_cons, hnone]
  · intro s frames hp
    exact (updates_trace_scrolling frames s hp).2

/-- C25, evaluated on the vertical example session: scrolling with polarity `+1`, it
does not return to polarity 0 over three frames; created with polarity 0, its sink
calls over the same frames are none or begin-sequence followed by pulses. -/
theorem polarity_invariant_witness :
    (updates (exSession 1)
      [[exContact 1 0 true 190 50], [exContact 1 0 true 190 60],
        [exContact 1 0 true 190 20]]).2.1.scrollDirection_ ≠ 0 ∧
    ((updates (exSession 0)
      [[exContact 1 0 true 190 50], [exContact 1 0 true 190 60],
        [exContact 1 0 true 190 20]]).2.2.filter
        (fun e => decide (e.call = ScrollerCall.StartScrolling))).length ≤ 1 :=
  ⟨polarity_invariant.2.2.1 (exSession 1) _ (by decide),
    (polarity_invariant.2.2.2.1 (exSession 0) _ rfl).2⟩

/-! ## Session presence: theorems -/

/-- A Scroll session whose `Update` returns true has found a touching contact in the
frame. -/
theorem ScrollSession.Update_true_touch {R : Type} [FloatArith R] (s : ScrollSession R)
    (contacts : List Contact) (h : (s.Update contacts).1 = true) :
    ∃ c ∈ contacts, c.isTouch = true := by
  rw [ScrollSession.Update_eq] at h
  cases htr : tracked s contacts with
  | none => rw [htr] at h; simp at h
  | some c =>
    rw [htr] at h
    simp only at h
    by_cases ht : c.isTouch = false
    · rw [if_pos ht] at h; simp at h
    · exact ⟨c, List.mem_of_find?_eq_some htr, by simpa using ht⟩

/-- A session of either kind whose `Update` returns true has found a touching contact in
the frame. -/
theorem TouchSession.Update_true_has_touch {R : Type} [FloatArith R] (session : TouchSession R)
    (contacts : List Contact) (h : (session.Update contacts).1 = true) :
    ∃ c ∈ contacts, c.isTouch = true := by
  cases session with
  | NonScrollSession d =>
    simpa [TouchSession.Update, NonScrollSession.Update] using h
  | ScrollSession s =>
    exact ScrollSession.Update_true_touch s contacts h

/-- C26. Session presence tracks touching contacts.  Scrolling is enabled globally and
for the device, and the session the arbiter owns, if any, belongs to this device.  Then
`ProcessTouch` returns whenever a session is owned, and whenever it returns, a session
is owned afterwards if and only if some contact of the frame is touching.  In
particular, when the owned Scroll session's `Update` returns false while some contact is
touching, the same call leaves a Non-Scrolling session for this device in its place. -/
theorem session_presence_tracks_touch {R : Type} [FloatArith R] (cs : ChiralScroll R)
    (now : Int) (device : TouchDevice) (contacts : List Contact)
    (he : scrollingEnabled cs device = true)
    (hdev : ∀ session, cs.touchSession_ = some session → session.device = device.addr) :
    (cs.touchSession_.isSome = true → (cs.ProcessTouch now device contacts).isSome = true) ∧
    (∀ (cs' : ChiralScroll R) (events : List SinkEvent),
      cs.ProcessTouch now device contacts = some (cs', events) →
      (cs'.touchSession_.isSome = true ↔ ∃ c ∈ contacts, c.isTouch = true)) ∧
    (∀ (s : ScrollSession R) (cs' : ChiralScroll R) (events : List SinkEvent),
      cs.touchSession_ = some (TouchSession.ScrollSession s) →
      (s.Update contacts).1 = false → (∃ c ∈ contacts, c.isTouch = true) →
      cs.ProcessTouch now device contacts = some (cs', events) →
      cs'.touchSession_ = some (TouchSession.NonScrollSession device.addr)) := by
  have hany : (contacts.any fun contact => contact.isTouch) = true ↔
      ∃ c ∈ contacts, c.isTouch = true := by simp
  refine ⟨?_, ?_, ?_⟩
  · intro hsome
    obtain ⟨session, hs⟩ := Option.isSome_iff_exists.mp hsome
    rw [ChiralScroll.ProcessTouch_same_device cs now device contacts session hs he
      (hdev session hs)]
    split_ifs <;> rfl
  · intro cs' events h
    cases hs : cs.touchSession_ with
    | some session =>
      rw [ChiralScroll.ProcessTouch_same_device cs now device contacts session hs he
        (hdev session hs)] at h
      by_cases hu : (session.Update contacts).1 = true
      · rw [if_pos hu] at h
        simp only [Option.some.injEq, Prod.mk.injEq] at h
        rw [← h.1]
        exact ⟨fun _ => TouchSession.Update_true_has_touch session contacts hu, fun _ => rfl⟩
      · rw [if_neg hu] at h
        simp only [Option.some.injEq, Prod.mk.injEq] at h
        rw [← h.1, ← hany]
        by_cases ha : (contacts.any fun contact => contact.isTouch) = true
        · simp [ha]
        · simp [ha]
    | none =>
      rw [ChiralScroll.ProcessTouch_no_session cs now device contacts hs he] at h
      rw [← hany]
      by_cases hsh : (resolved cs device).ShouldStartScrollingSession now
          (deviceSettingsOf cs device) contacts = true
      · rw [if_pos hsh] at h
        have htouch : (contacts.any fun contact => contact.isTouch) = true := by
          unfold ChiralScroll.ShouldStartScrollingSession at hsh
          split at hsh
          · simp only [Bool.and_eq_true] at hsh
            simp [hsh.1.2]
          · simp at hsh
        cases hst : (resolved cs device).StartScrollingSession device contacts with
        | none => rw [hst] at h; simp at h
        | some r =>
          obtain ⟨cs2, ev2⟩ := r
          rw [hst] at h
          simp only at h
          by_cases hn : cs2.touchSession_.isNone = true
          · rw [if_pos (by simp [hn, htouch])] at h
            simp only [Option.some.injEq, Prod.mk.injEq] at h
            rw [← h.1]
            have : (cs2.assignSession (TouchSession.NonScrollSession device.addr)).1.touchSession_
                = some (TouchSession.NonScrollSession device.addr) := by
              unfold ChiralScroll.assignSession
              split <;> rfl
            simp [this, htouch]
          · rw [if_neg (by simp [hn])] at h
            simp only [Option.some.injEq, Prod.mk.injEq] at h
            rw [← h.1]
            have : cs2.touchSession_.isSome = true := by
              cases hc : cs2.touchSession_ with
              | none => rw [hc] at hn; simp at hn
              | some _ => rfl
            simp [this, htouch]
      · rw [if_neg hsh] at h
        simp only at h
        have hn : (resolved cs device).touchSession_ = none := by
          simpa [resolved] using hs
        by_cases ha : (contacts.any fun contact => contact.isTouch) = true
        · rw [if_pos (by simp [hn, ha])] at h
          simp only [Option.some.injEq, Prod.mk.injEq] at h
          rw [← h.1]
          have : ((resolved cs device).assignSession
              (TouchSession.NonScrollSession device.addr)).1.touchSession_
              = some (TouchSession.NonScrollSession device.addr) := by
            unfold ChiralScroll.assignSession
            split <;> rfl
          simp [this, ha]
        · rw [if_neg (by simp [ha])] at h
          simp only [Option.some.injEq, Prod.mk.injEq] at h
          rw [← h.1]
          simp [hn, ha]
  · intro s cs' events hs hu htouch h
    rw [ChiralScroll.ProcessTouch_same_device cs now device contacts _ hs he
      (hdev _ hs)] at h
    have hu2 : ¬ ((TouchSession.ScrollSession s).Update contacts).1 = true := by
      simp [TouchSession.Update, hu]
    rw [if_neg hu2] at h
    simp only [Option.some.injEq, Prod.mk.injEq] at h
    rw [← h.1]
    simp [hany.mpr htouch]

/-- C26, evaluated: the arbiter owns the scrolling session of the first touchpad, which
tracks contact 0; a frame of that touchpad carries only a touching contact 1.  The
call returns, destroys the Scroll session and leaves a Non-Scrolling session. -/
theorem session_presence_tracks_touch_witness :
    ((exArbiter (some (TouchSession.ScrollSession (exSession 1))) (Time.at 0)).ProcessTouch 0
      exDevice [exContact 2 1 true 20 20]).isSome = true ∧
    ((exArbiter (some (TouchSession.NonScrollSession 1)) (Time.at 0)).touchSession_.isSome
        = true ↔
      ∃ c ∈ [exContact 2 1 true 20 20], c.isTouch = true) ∧
    (exArbiter (some (TouchSession.NonScrollSession 1)) (Time.at 0)).touchSession_ =
      some (TouchSession.NonScrollSession exDevice.addr) :=
  have w := session_presence_tracks_touch
    (exArbiter (some (TouchSession.ScrollSession (exSession 1))) (Time.at 0)) 0 exDevice
    [exContact 2 1 true 20 20] (by decide!) (by
      intro session hs
      cases hs
      rfl)
  ⟨w.1 rfl,
    w.2.1 (exArbiter (some (TouchSession.NonScrollSession 1)) (Time.at 0))
      [⟨ScrollerRef.vScroller_, ScrollerCall.StopScrolling⟩] (by decide!),
    w.2.2 (exSession 1) (exArbiter (some (TouchSession.NonScrollSession 1)) (Time.at 0))
      [⟨ScrollerRef.vScroller_, ScrollerCall.StopScrolling⟩] rfl (by decide!)
      ⟨_, List.mem_singleton.mpr rfl, rfl⟩ (by decide!)⟩

/-! ## IEEE 754 instance: rounding lemmas -/

/-- Rounding to the nearest integer does not go below an integer below the argument. -/
theorem roundHalfEven_ge (z : Int) (n : ℚ) (h : (z : ℚ) ≤ n) : z ≤ roundHalfEven n := by
  have hf : z ≤ ⌊n⌋ := Int.le_floor.mpr h
  unfold roundHalfEven
  split_ifs <;> omega

/-- Rounding to the nearest integer does not go above an integer above the argument. -/
theorem roundHalfEven_le (z : Int) (n : ℚ) (h : n ≤ (z : ℚ)) : roundHalfEven n ≤ z := by
  have hf : ⌊n⌋ ≤ z := Int.floor_le_iff.mpr (lt_of_le_of_lt h (by linarith))
  by_cases he : ⌊n⌋ = z
  · have hn : n = (⌊n⌋ : ℚ) := by
      apply le_antisymm
      · rw [he]; exact h
      · exact Int.floor_le n
    have h0 : n - (⌊n⌋ : ℚ) < 1 / 2 := by
      rw [← hn]; norm_num
    unfold roundHalfEven
    rw [if_pos h0, he]
  · have hlt : ⌊n⌋ + 1 ≤ z := by omega
    unfold roundHalfEven
    split_ifs <;> omega

namespace Format

/-- The spacing is positive. -/
theorem quantum_pos (f : Format) (q : ℚ) : 0 < f.quantum q := by
  unfold quantum
  positivity

/-- The spacing, seen from an exponent `e` that the binade exponent reaches. -/
theorem quantum_eq (f : Format) (q : ℚ) :
    f.quantum q = (2 : ℚ) ^ (max (Int.log 2 q) f.emin) / (2 : ℚ) ^ (f.mbits : Int) := by
  unfold quantum
  rw [zpow_sub₀ (by norm_num : (2 : ℚ) ≠ 0)]

/-- Rounding does not take a magnitude below a power of two that it reaches, in the
normal range. -/
theorem le_roundMag (f : Format) (q : ℚ) (k : Int) (hk : f.emin ≤ k)
    (hq : (2 : ℚ) ^ k ≤ q) : (2 : ℚ) ^ k ≤ f.roundMag q := by
  have hq0 : 0 < q := lt_of_lt_of_le (by positivity) hq
  have hL : k ≤ Int.log 2 q := by
    have := (Int.zpow_le_iff_le_log (by norm_num : 1 < 2) hq0 (x := k)).mp
      (by exact_mod_cast hq)
    exact this
  have hmax : max (Int.log 2 q) f.emin = Int.log 2 q := max_eq_left (by omega)
  have hlow : (2 : ℚ) ^ Int.log 2 q ≤ q := by
    have := Int.zpow_log_le_self (by norm_num : 1 < 2) hq0
    exact_mod_cast this
  have hm : (0 : ℚ) < (2 : ℚ) ^ (f.mbits : Int) := by positivity
  have hn : (((2 : Int) ^ f.mbits : Int) : ℚ) ≤ q / f.quantum q := by
    rw [quantum_eq, hmax, le_div_iff₀ (by positivity)]
    push_cast
    rw [zpow_natCast] at hm ⊢
    calc (2 : ℚ) ^ f.mbits * ((2 : ℚ) ^ Int.log 2 q / (2 : ℚ) ^ f.mbits)
        = (2 : ℚ) ^ Int.log 2 q := by field_simp
      _ ≤ q := hlow
  have hr := roundHalfEven_ge _ _ hn
  have hr2 : (((2 : Int) ^ f.mbits : Int) : ℚ) ≤ (roundHalfEven (q / f.quantum q) : ℚ) := by
    exact_mod_cast hr
  unfold roundMag
  calc (2 : ℚ) ^ k ≤ (2 : ℚ) ^ Int.log 2 q :=
        zpow_le_zpow_right₀ (by norm_num) hL
    _ = (((2 : Int) ^ f.mbits : Int) : ℚ) * f.quantum q := by
        rw [quantum_eq, hmax]
        push_cast
        rw [zpow_natCast]
        field_simp
    _ ≤ (roundHalfEven (q / f.quantum q) : ℚ) * f.quantum q :=
        mul_le_mul_of_nonneg_right hr2 (quantum_pos f q).le

end Format

namespace Format

/-- Rounding does not take a magnitude above a power of two above it, in the normal
range. -/
theorem roundMag_le (f : Format) (q : ℚ) (k : Int) (hk : f.emin ≤ k) (hq0 : 0 < q)
    (hq : q ≤ (2 : ℚ) ^ k) : f.roundMag q ≤ (2 : ℚ) ^ k := by
  have hL : Int.log 2 q ≤ k := by
    have h1 := Int.log_mono_right (b := 2) hq0 hq
    have h2 : Int.log 2 ((2 : ℚ) ^ k) = k := by
      have := Int.log_zpow (R := ℚ) (by norm_num : 1 < 2) k
      exact_mod_cast this
    omega
  have he : max (Int.log 2 q) f.emin ≤ k := max_le hL hk
  obtain ⟨j, hj⟩ : ∃ j : Nat, k - max (Int.log 2 q) f.emin + (f.mbits : Int) = (j : Int) :=
    ⟨(k - max (Int.log 2 q) f.emin + (f.mbits : Int)).toNat, by omega⟩
  have hquant : f.quantum q * (2 : ℚ) ^ j = (2 : ℚ) ^ k := by
    unfold quantum
    rw [← zpow_natCast, ← zpow_add₀ (by norm_num : (2 : ℚ) ≠ 0), ← hj]
    congr 1
    omega
  have hn : q / f.quantum q ≤ (((2 : Int) ^ j : Int) : ℚ) := by
    rw [div_le_iff₀ (quantum_pos f q)]
    push_cast
    rw [mul_comm, hquant]
    exact hq
  have hr := roundHalfEven_le _ _ hn
  have hr2 : (roundHalfEven (q / f.quantum q) : ℚ) ≤ (((2 : Int) ^ j : Int) : ℚ) := by
    exact_mod_cast hr
  unfold roundMag
  calc (roundHalfEven (q / f.quantum q) : ℚ) * f.quantum q
      ≤ (((2 : Int) ^ j : Int) : ℚ) * f.quantum q :=
        mul_le_mul_of_nonneg_right hr2 (quantum_pos f q).le
    _ = (2 : ℚ) ^ k := by
        push_cast
        rw [mul_comm, hquant]

/-- A rounded magnitude that reaches `2^k`, in the normal range, is a whole multiple of
the spacing of the binade of `2^k`. -/
theorem roundMag_grid (f : Format) (q : ℚ) (k : Int) (hk : f.emin ≤ k)
    (hq : (2 : ℚ) ^ k ≤ q) :
    ∃ m : Int, f.roundMag q = (m : ℚ) * (2 : ℚ) ^ (k - (f.mbits : Int)) := by
  have hq0 : 0 < q := lt_of_lt_of_le (by positivity) hq
  have hL : k ≤ Int.log 2 q :=
    (Int.zpow_le_iff_le_log (by norm_num : 1 < 2) hq0 (x := k)).mp (by exact_mod_cast hq)
  have hmax : max (Int.log 2 q) f.emin = Int.log 2 q := max_eq_left (by omega)
  obtain ⟨j, hj⟩ : ∃ j : Nat, Int.log 2 q - k = (j : Int) :=
    ⟨(Int.log 2 q - k).toNat, by omega⟩
  have hquant : f.quantum q = (2 : ℚ) ^ j * (2 : ℚ) ^ (k - (f.mbits : Int)) := by
    unfold quantum
    rw [hmax, ← zpow_natCast, ← zpow_add₀ (by norm_num : (2 : ℚ) ≠ 0), ← hj]
    congr 1
    omega
  refine ⟨roundHalfEven (q / f.quantum q) * 2 ^ j, ?_⟩
  unfold roundMag
  rw [hquant]
  push_cast
  ring

/-- Rounding keeps a non-negative magnitude non-negative. -/
theorem roundMag_nonneg (f : Format) (q : ℚ) (hq : 0 ≤ q) : 0 ≤ f.roundMag q := by
  unfold roundMag
  have h0 : ((0 : Int) : ℚ) ≤ q / f.quantum q := by
    simpa using div_nonneg hq (quantum_pos f q).le
  have := roundHalfEven_ge 0 _ h0
  have h2 : (0 : ℚ) ≤ (roundHalfEven (q / f.quantum q) : ℚ) := by exact_mod_cast this
  exact mul_nonneg h2 (quantum_pos f q).le

/-- The rounded square root of a magnitude that reaches `4^k` reaches `2^k`, in the
normal range. -/
theorem le_sqrtMag (f : Format) (q : ℚ) (k : Int) (hk : f.emin ≤ k)
    (hq : (2 : ℚ) ^ (2 * k) ≤ q) : (2 : ℚ) ^ k ≤ f.sqrtMag q := by
  have hq0 : 0 < q := lt_of_lt_of_le (by positivity) hq
  have hL : 2 * k ≤ Int.log 2 q :=
    (Int.zpow_le_iff_le_log (by norm_num : 1 < 2) hq0 (x := 2 * k)).mp
      (by exact_mod_cast hq)
  have hlow : (2 : ℚ) ^ Int.log 2 q ≤ q := by
    have := Int.zpow_log_le_self (by norm_num : 1 < 2) hq0
    exact_mod_cast this
  have he1 : k ≤ Int.log 2 q / 2 := by omega
  have he2 : 2 * (Int.log 2 q / 2) ≤ Int.log 2 q := by omega
  have hmax : max (Int.log 2 q / 2) f.emin = Int.log 2 q / 2 := max_eq_left (by omega)
  unfold sqrtMag
  simp only [hmax]
  generalize he : Int.log 2 q / 2 = e at he1 he2
  set u : ℚ := (2 : ℚ) ^ (e - (f.mbits : Int)) with hu
  have hupos : 0 < u := by positivity
  have hn2 : (((2 ^ f.mbits * 2 ^ f.mbits : Nat) : Nat) : ℚ) ≤ q / (u * u) := by
    rw [le_div_iff₀ (by positivity)]
    have : ((2 ^ f.mbits * 2 ^ f.mbits : Nat) : ℚ) * (u * u) = (2 : ℚ) ^ (2 * e) := by
      rw [hu]
      push_cast
      rw [← zpow_natCast, ← zpow_add₀ (by norm_num : (2 : ℚ) ≠ 0),
        ← zpow_add₀ (by norm_num : (2 : ℚ) ≠ 0), ← zpow_add₀ (by norm_num : (2 : ℚ) ≠ 0)]
      congr 1
      ring
    rw [this]
    exact le_trans (zpow_le_zpow_right₀ (by norm_num) he2) hlow
  have hfl : 2 ^ f.mbits * 2 ^ f.mbits ≤ ⌊q / (u * u)⌋₊ := Nat.le_floor hn2
  have hm0 : 2 ^ f.mbits ≤ Nat.sqrt ⌊q / (u * u)⌋₊ := Nat.le_sqrt.mpr hfl
  have hm : 2 ^ f.mbits ≤
      (if q / (u * u) < ((Nat.sqrt ⌊q / (u * u)⌋₊ : ℚ) + 1 / 2) ^ 2 then
        Nat.sqrt ⌊q / (u * u)⌋₊
      else if ((Nat.sqrt ⌊q / (u * u)⌋₊ : ℚ) + 1 / 2) ^ 2 < q / (u * u) then
        Nat.sqrt ⌊q / (u * u)⌋₊ + 1
      else if Nat.sqrt ⌊q / (u * u)⌋₊ % 2 = 0 then Nat.sqrt ⌊q / (u * u)⌋₊
      else Nat.sqrt ⌊q / (u * u)⌋₊ + 1) := by
    split_ifs <;> omega
  have hmq : ((2 ^ f.mbits : Nat) : ℚ) ≤ _ := Nat.cast_le.mpr hm
  calc (2 : ℚ) ^ k ≤ (2 : ℚ) ^ e := zpow_le_zpow_right₀ (by norm_num) he1
    _ = ((2 ^ f.mbits : Nat) : ℚ) * u := by
        rw [hu]
        push_cast
        rw [← zpow_natCast, ← zpow_add₀ (by norm_num : (2 : ℚ) ≠ 0)]
        congr 1
        ring
    _ ≤ _ := mul_le_mul_of_nonneg_right hmq hupos.le

end Format

namespace Binary

/-- The `float` of an integer within the range of `LONG`: zero for 0, and otherwise a
finite number of magnitude between 1 and `2^31`. -/
theorem ofRat_int (a : Int) (h1 : -2 ^ 31 ≤ a) (h2 : a ≤ 2 ^ 31) :
    ∃ s A, ofRat binary32 (a : ℚ) = fin s A ∧ (a = 0 → A = 0) ∧
      (a ≠ 0 → 1 ≤ A ∧ A ≤ (2 : ℚ) ^ (31 : Int)) := by
  by_cases ha : a = 0
  · subst ha
    exact ⟨false, 0, by simp [ofRat, Format.round], fun _ => rfl, fun h => absurd rfl h⟩
  · have habs1 : (1 : ℚ) ≤ |(a : ℚ)| := by
      have : (1 : Int) ≤ |a| := Int.one_le_abs ha
      exact_mod_cast this
    have habs2 : |(a : ℚ)| ≤ (2 : ℚ) ^ (31 : Int) := by
      have : |a| ≤ 2 ^ 31 := abs_le.mpr ⟨by omega, h2⟩
      have h3 : ((|a| : Int) : ℚ) ≤ ((2 ^ 31 : Int) : ℚ) := Int.cast_le.mpr this
      push_cast at h3
      rw [zpow_ofNat]
      exact h3
    have hne : |(a : ℚ)| ≠ 0 := by
      intro h
      rw [h] at habs1
      norm_num at habs1
    have hlow : (2 : ℚ) ^ (0 : Int) ≤ binary32.roundMag |(a : ℚ)| :=
      Format.le_roundMag binary32 _ 0 (by decide) (by simpa using habs1)
    have hup : binary32.roundMag |(a : ℚ)| ≤ (2 : ℚ) ^ (31 : Int) :=
      Format.roundMag_le binary32 _ 31 (by decide) (lt_of_lt_of_le one_pos habs1) habs2
    have hfin : binary32.roundMag |(a : ℚ)| < (2 : ℚ) ^ (binary32.emax + 1) := by
      refine lt_of_le_of_lt hup ?_
      exact zpow_lt_zpow_right₀ (by norm_num) (by decide)
    refine ⟨decide ((a : ℚ) < 0), binary32.roundMag |(a : ℚ)|, ?_, fun h => absurd h ha,
      fun _ => ⟨by simpa using hlow, hup⟩⟩
    simp only [ofRat, Format.round, hne, if_false, hfin, if_true]

/-- The quotient of the `float`s of two integers within the range of `LONG` lies on the
grid. -/
theorem div_int_onGrid (a h : Int) (ha1 : -2 ^ 31 ≤ a) (ha2 : a ≤ 2 ^ 31)
    (hh1 : -2 ^ 31 ≤ h) (hh2 : h ≤ 2 ^ 31) :
    OnGrid (div binary32 (ofRat binary32 (a : ℚ)) (ofRat binary32 (h : ℚ))) := by
  obtain ⟨s, A, eA, A0, A1⟩ := ofRat_int a ha1 ha2
  obtain ⟨t, H, eH, H0, H1⟩ := ofRat_int h hh1 hh2
  rw [eA, eH]
  simp only [div]
  by_cases hH : H = 0
  · rw [if_pos hH]
    split_ifs <;> trivial
  · rw [if_neg hH]
    have hhne : h ≠ 0 := fun e => hH (H0 e)
    obtain ⟨Hl, Hu⟩ := H1 hhne
    have Hpos : 0 < H := lt_of_lt_of_le one_pos Hl
    by_cases hA : a = 0
    · rw [A0 hA]
      simp only [Format.round, zero_div, if_true]
      exact ⟨0, by simp⟩
    · obtain ⟨Al, Au⟩ := A1 hA
      have hq : (2 : ℚ) ^ (-31 : Int) ≤ A / H := by
        rw [le_div_iff₀ Hpos]
        calc (2 : ℚ) ^ (-31 : Int) * H ≤ (2 : ℚ) ^ (-31 : Int) * (2 : ℚ) ^ (31 : Int) :=
              mul_le_mul_of_nonneg_left Hu (by positivity)
          _ = 1 := by
              rw [← zpow_add₀ (by norm_num : (2 : ℚ) ≠ 0)]
              norm_num
          _ ≤ A := Al
      have hne : A / H ≠ 0 := ne_of_gt (lt_of_lt_of_le (by positivity) hq)
      simp only [Format.round, hne, if_false]
      split_ifs
      · obtain ⟨m, hm⟩ := Format.roundMag_grid binary32 (A / H) (-31) (by decide) hq
        exact ⟨m, by rw [hm]; rfl⟩
      · trivial

/-- The difference of two data on the grid is a NaN, a zero, an infinity or at least
`2^-54` in magnitude. -/
theorem sub_coarse (x y : Binary) (hx : OnGrid x) (hy : OnGrid y) :
    Coarse (sub binary32 x y) := by
  cases x with
  | nan => exact Or.inl (by cases y <;> rfl)
  | inf s =>
    cases y with
    | nan => exact Or.inl rfl
    | inf t =>
      simp only [sub, neg, add]
      split_ifs
      · exact Or.inr (Or.inr trivial)
      · exact Or.inl rfl
    | fin t q => exact Or.inr (Or.inr trivial)
  | fin s p =>
    cases y with
    | nan => exact Or.inl rfl
    | inf t => exact Or.inr (Or.inr trivial)
    | fin t q =>
      obtain ⟨mp, hp⟩ := hx
      obtain ⟨mq, hq⟩ := hy
      simp only [sub, neg, add]
      by_cases hv : signed s p + signed (!t) q = 0
      · rw [if_pos hv]
        exact Or.inr (Or.inl rfl)
      · rw [if_neg hv]
        right; right
        obtain ⟨mv, hmv⟩ : ∃ mv : Int,
            signed s p + signed (!t) q = (mv : ℚ) * (2 : ℚ) ^ (-54 : Int) := by
          rw [hp, hq]
          cases s <;> cases t
          · exact ⟨mp - mq, by simp [signed]; ring⟩
          · exact ⟨mp + mq, by simp [signed]; ring⟩
          · exact ⟨-mp - mq, by simp [signed]; ring⟩
          · exact ⟨-mp + mq, by simp [signed]; ring⟩
        have hmv0 : mv ≠ 0 := by
          intro h0
          apply hv
          rw [hmv, h0]
          simp
        have habs : (2 : ℚ) ^ (-54 : Int) ≤ |signed s p + signed (!t) q| := by
          rw [hmv, abs_mul, abs_of_pos (by positivity : (0 : ℚ) < (2 : ℚ) ^ (-54 : Int))]
          have h1 : (1 : ℚ) ≤ |(mv : ℚ)| := by
            have : (1 : Int) ≤ |mv| := Int.one_le_abs hmv0
            exact_mod_cast this
          calc (2 : ℚ) ^ (-54 : Int) = 1 * (2 : ℚ) ^ (-54 : Int) := (one_mul _).symm
            _ ≤ |(mv : ℚ)| * (2 : ℚ) ^ (-54 : Int) :=
                mul_le_mul_of_nonneg_right h1 (by positivity)
        have hne : |signed s p + signed (!t) q| ≠ 0 := abs_ne_zero.mpr hv
        simp only [Format.round, hne, if_false]
        split_ifs
        · exact Format.le_roundMag binary32 _ (-54) (by decide) habs
        · trivial

end Binary

namespace Binary

/-- The zero of `float` literals and conversions. -/
theorem ofRat_zero (f : Format) : ofRat f 0 = fin false 0 := by
  simp [ofRat, Format.round]

/-- A sum with a NaN on the right is a NaN. -/
theorem add_nan (f : Format) (x : Binary) : add f x nan = nan := by
  cases x <;> rfl

/-- The product of a zero with any datum is a zero or a NaN. -/
theorem mul_zero_left (f : Format) (x u : Binary) (hx : IsZero x) :
    mul f x u = nan ∨ IsZero (mul f x u) := by
  cases x with
  | nan => exact absurd hx (by simp [IsZero])
  | inf s => exact absurd hx (by simp [IsZero])
  | fin s p =>
    have hp : p = 0 := hx
    subst hp
    cases u with
    | nan => exact Or.inl rfl
    | inf t => left; simp [mul]
    | fin t q => right; simp [mul, Format.round, IsZero]

/-- The sum of two data that are zeros or NaNs is a zero or a NaN. -/
theorem add_zero_zero (f : Format) (a b : Binary) (ha : a = nan ∨ IsZero a)
    (hb : b = nan ∨ IsZero b) : add f a b = nan ∨ IsZero (add f a b) := by
  rcases ha with ha | ha
  · subst ha; left; cases b <;> rfl
  · rcases hb with hb | hb
    · subst hb; left; exact add_nan f a
    · cases a with
      | nan => exact absurd ha (by simp [IsZero])
      | inf s => exact absurd ha (by simp [IsZero])
      | fin s p =>
        cases b with
        | nan => exact absurd hb (by simp [IsZero])
        | inf t => exact absurd hb (by simp [IsZero])
        | fin t q =>
          have hp : p = 0 := ha
          have hq : q = 0 := hb
          subst hp hq
          right
          simp [add, signed, IsZero]

/-- Nothing that is a zero or a NaN exceeds a non-negative threshold. -/
theorem not_lt_zero (t z : Binary) (ht : le (fin false 0) t = true)
    (hz : z = nan ∨ IsZero z) : lt t z = false := by
  rcases hz with hz | hz
  · subst hz; cases t <;> rfl
  · cases z with
    | nan => exact absurd hz (by simp [IsZero])
    | inf s => exact absurd hz (by simp [IsZero])
    | fin s p =>
      have hp : p = 0 := hz
      subst hp
      cases t with
      | nan => rfl
      | inf u =>
        simp only [le, Bool.not_eq_true'] at ht
        subst ht
        rfl
      | fin u q =>
        simp only [le, signed, decide_eq_true_eq] at ht
        simp only [lt, signed, decide_eq_false_iff_not, not_lt]
        cases s <;> cases u <;> simp_all

/-- Nothing that is a zero or a NaN is below the negative of a non-negative
threshold. -/
theorem not_lt_neg_zero (t z : Binary) (ht : le (fin false 0) t = true)
    (hz : z = nan ∨ IsZero z) : lt z (neg t) = false := by
  rcases hz with hz | hz
  · subst hz; cases t <;> rfl
  · cases z with
    | nan => exact absurd hz (by simp [IsZero])
    | inf s => exact absurd hz (by simp [IsZero])
    | fin s p =>
      have hp : p = 0 := hz
      subst hp
      cases t with
      | nan => rfl
      | inf u =>
        simp only [le, Bool.not_eq_true'] at ht
        subst ht
        rfl
      | fin u q =>
        simp only [le, signed, decide_eq_true_eq] at ht
        simp only [lt, neg, signed, decide_eq_false_iff_not, not_lt]
        cases s <;> cases u <;> simp_all

/-- What exceeds a non-negative threshold exceeds zero. -/
theorem lt_zero_of_lt (t x : Binary) (ht : le (fin false 0) t = true)
    (hx : lt t x = true) : lt (fin false 0) x = true := by
  cases x with
  | nan => cases t <;> simp [lt] at hx
  | inf s =>
    cases t with
    | nan => simp [lt] at hx
    | inf u =>
      simp only [le, Bool.not_eq_true'] at ht
      subst ht
      simp [lt] at hx
    | fin u q => simpa [lt] using hx
  | fin s p =>
    cases t with
    | nan => simp [lt] at hx
    | inf u =>
      simp only [le, Bool.not_eq_true'] at ht
      subst ht
      simp [lt] at hx
    | fin u q =>
      simp only [le, signed, decide_eq_true_eq] at ht
      simp only [lt, signed, decide_eq_true_eq] at hx ⊢
      cases s <;> cases u <;> simp_all <;> linarith

end Binary

namespace Binary

/-- The square of a large datum is `+inf` or at least `2^-108`. -/
theorem mul_self_large (x : Binary) (hx : Large x) :
    mul binary32 x x = inf false ∨
      ∃ r, mul binary32 x x = fin false r ∧ (2 : ℚ) ^ (-108 : Int) ≤ r := by
  cases x with
  | nan => exact absurd hx (by simp [Large])
  | inf s => left; simp [mul]
  | fin s q =>
    have hq : (2 : ℚ) ^ (-54 : Int) ≤ q := hx
    have hq0 : 0 < q := lt_of_lt_of_le (by positivity) hq
    have hqq : (2 : ℚ) ^ (-108 : Int) ≤ q * q := by
      have : (2 : ℚ) ^ (-108 : Int) = (2 : ℚ) ^ (-54 : Int) * (2 : ℚ) ^ (-54 : Int) := by
        rw [← zpow_add₀ (by norm_num : (2 : ℚ) ≠ 0)]
        norm_num
      rw [this]
      exact mul_le_mul hq hq (by positivity) hq0.le
    have hne : q * q ≠ 0 := ne_of_gt (mul_pos hq0 hq0)
    simp only [mul, bne_self_eq_false, Format.round, hne, if_false]
    split_ifs
    · exact Or.inr ⟨_, rfl, Format.le_roundMag binary32 _ (-108) (by decide) hqq⟩
    · exact Or.inl rfl

/-- The square of a datum that is not a NaN is `+inf` or a non-negative number. -/
theorem mul_self_of_ne_nan (x : Binary) (hx : x ≠ nan) :
    mul binary32 x x = inf false ∨ ∃ r, mul binary32 x x = fin false r ∧ 0 ≤ r := by
  cases x with
  | nan => exact absurd rfl hx
  | inf s => left; simp [mul]
  | fin s q =>
    simp only [mul, bne_self_eq_false, Format.round]
    split_ifs
    · exact Or.inr ⟨0, rfl, le_refl _⟩
    · exact Or.inr ⟨_, rfl, Format.roundMag_nonneg binary32 _ (mul_self_nonneg q)⟩
    · exact Or.inl rfl

/-- The sum of `+inf` or a number of at least `2^-108` with `+inf` or a non-negative
number is again `+inf` or at least `2^-108`, in either order. -/
theorem add_large (a b : Binary)
    (ha : a = inf false ∨ ∃ r, a = fin false r ∧ (2 : ℚ) ^ (-108 : Int) ≤ r)
    (hb : b = inf false ∨ ∃ r, b = fin false r ∧ 0 ≤ r) :
    (add binary32 a b = inf false ∨
      ∃ r, add binary32 a b = fin false r ∧ (2 : ℚ) ^ (-108 : Int) ≤ r) ∧
    (add binary32 b a = inf false ∨
      ∃ r, add binary32 b a = fin false r ∧ (2 : ℚ) ^ (-108 : Int) ≤ r) := by
  rcases ha with ha | ⟨r, ha, hr⟩ <;> rcases hb with hb | ⟨r', hb, hr'⟩ <;> subst ha hb
  · exact ⟨Or.inl rfl, Or.inl rfl⟩
  · exact ⟨Or.inl rfl, Or.inl rfl⟩
  · exact ⟨Or.inl rfl, Or.inl rfl⟩
  · have hpos : (0 : ℚ) < (2 : ℚ) ^ (-108 : Int) := by positivity
    have hv : (2 : ℚ) ^ (-108 : Int) ≤ r + r' := by linarith
    have hv2 : (2 : ℚ) ^ (-108 : Int) ≤ r' + r := by linarith
    have key : ∀ v : ℚ, (2 : ℚ) ^ (-108 : Int) ≤ v →
        ((if v = 0 then fin (false && false) 0
          else binary32.round (decide (v < 0)) |v|) = inf false ∨
        ∃ w, (if v = 0 then fin (false && false) 0
          else binary32.round (decide (v < 0)) |v|) = fin false w ∧
            (2 : ℚ) ^ (-108 : Int) ≤ w) := by
      intro v hv
      have hv0 : 0 < v := lt_of_lt_of_le hpos hv
      have hne : v ≠ 0 := ne_of_gt hv0
      have habs : |v| = v := abs_of_pos hv0
      have hnl : ¬ v < 0 := not_lt.mpr hv0.le
      simp only [hne, if_false, habs, hnl, decide_False, Format.round]
      split_ifs
      · exact Or.inr ⟨_, rfl, Format.le_roundMag binary32 _ (-108) (by decide) hv⟩
      · exact Or.inl rfl
    exact ⟨key (r + r') hv, key (r' + r) hv2⟩

/-- The square root of `+inf` or of a number of at least `2^-108`, rounded to a format
whose normal range reaches down to `2^-54`, exceeds zero, and so does its conversion to
`float`. -/
theorem sqrt_large (f : Format) (hf : f.emin ≤ -54) (z : Binary)
    (hz : z = inf false ∨ ∃ r, z = fin false r ∧ (2 : ℚ) ^ (-108 : Int) ≤ r) :
    lt (fin false 0) (sqrt f z) = true ∧
    lt (fin false 0) (toFormat binary32 (sqrt f z)) = true := by
  rcases hz with hz | ⟨r, hz, hr⟩ <;> subst hz
  · exact ⟨rfl, rfl⟩
  · have hr0 : 0 < r := lt_of_lt_of_le (by positivity) hr
    have hne : r ≠ 0 := ne_of_gt hr0
    have hw : (2 : ℚ) ^ (-54 : Int) ≤ f.sqrtMag r :=
      Format.le_sqrtMag f r (-54) hf (by simpa using hr)
    have hw0 : 0 < f.sqrtMag r := lt_of_lt_of_le (by positivity) hw
    have hwne : f.sqrtMag r ≠ 0 := ne_of_gt hw0
    have hrw : (2 : ℚ) ^ (-54 : Int) ≤ binary32.roundMag (f.sqrtMag r) :=
      Format.le_roundMag binary32 _ (-54) (by decide) hw
    have hrw0 : 0 < binary32.roundMag (f.sqrtMag r) := lt_of_lt_of_le (by positivity) hrw
    simp only [sqrt, hne, if_false, Bool.false_eq_true, toFormat, Format.round, hwne]
    refine ⟨by simpa [lt, signed] using hw0, ?_⟩
    split_ifs
    · simpa [lt, signed] using hrw0
    · rfl

end Binary

namespace Binary

/-- A dot product beyond a non-negative threshold, on either side, comes from a vector
without a NaN that has a large component, when its components are coarse. -/
theorem dot_large (x y ux uy t : Binary) (hx : Coarse x) (hy : Coarse y)
    (ht : le (fin false 0) t = true)
    (h : lt t (add binary32 (mul binary32 x ux) (mul binary32 y uy)) = true ∨
      lt (add binary32 (mul binary32 x ux) (mul binary32 y uy)) (neg t) = true) :
    x ≠ nan ∧ y ≠ nan ∧ (Large x ∨ Large y) := by
  have hnot : ∀ z, (z = nan ∨ IsZero z) → ¬ (lt t z = true ∨ lt z (neg t) = true) := by
    intro z hz hor
    rcases hor with h1 | h1
    · rw [not_lt_zero t z ht hz] at h1
      exact Bool.false_ne_true h1
    · rw [not_lt_neg_zero t z ht hz] at h1
      exact Bool.false_ne_true h1
  have hxn : x ≠ nan := by
    intro e
    subst e
    exact hnot _ (Or.inl (by cases ux <;> cases (mul binary32 y uy) <;> rfl)) h
  have hyn : y ≠ nan := by
    intro e
    subst e
    have : mul binary32 nan uy = nan := by cases uy <;> rfl
    rw [this, add_nan] at h
    exact hnot _ (Or.inl rfl) h
  refine ⟨hxn, hyn, ?_⟩
  rcases hx with hx | hx | hx
  · exact absurd hx hxn
  · rcases hy with hy | hy | hy
    · exact absurd hy hyn
    · exact absurd h (hnot _ (add_zero_zero binary32 _ _ (mul_zero_left binary32 x ux hx)
        (mul_zero_left binary32 y uy hy)))
    · exact Or.inr hy
  · exact Or.inl hx

/-- A norm beyond a non-negative threshold comes from a vector without a NaN that has a
large component, when its components are coarse. -/
theorem norm_large (f : Format) (x y t : Binary) (hx : Coarse x) (hy : Coarse y)
    (ht : le (fin false 0) t = true)
    (h : lt t (sqrt f (add binary32 (mul binary32 x x) (mul binary32 y y))) = true) :
    x ≠ nan ∧ y ≠ nan ∧ (Large x ∨ Large y) := by
  have hsq : ∀ z, (z = nan ∨ IsZero z) → (sqrt f z = nan ∨ IsZero (sqrt f z)) := by
    intro z hz
    rcases hz with hz | hz
    · subst hz; exact Or.inl rfl
    · cases z with
      | nan => exact Or.inl rfl
      | inf s => exact absurd hz (by simp [IsZero])
      | fin s p =>
        have hp : p = 0 := hz
        subst hp
        right
        simp [sqrt, IsZero]
  have hnot : ∀ z, (z = nan ∨ IsZero z) → ¬ (lt t (sqrt f z) = true) := by
    intro z hz h1
    rw [not_lt_zero t _ ht (hsq z hz)] at h1
    exact Bool.false_ne_true h1
  have hxn : x ≠ nan := by
    intro e
    subst e
    exact hnot _ (Or.inl (by cases (mul binary32 y y) <;> rfl)) h
  have hyn : y ≠ nan := by
    intro e
    subst e
    have : mul binary32 nan nan = nan := rfl
    rw [this, add_nan] at h
    exact hnot _ (Or.inl rfl) h
  refine ⟨hxn, hyn, ?_⟩
  rcases hx with hx | hx | hx
  · exact absurd hx hxn
  · rcases hy with hy | hy | hy
    · exact absurd hy hyn
    · exact absurd h (hnot _ (add_zero_zero binary32 _ _ (mul_zero_left binary32 x x hx)
        (mul_zero_left binary32 y y hy)))
    · exact Or.inr hy
  · exact Or.inl hx

/-- A vector without a NaN that has a large component has a norm above zero, also
after its conversion to `float`. -/
theorem norm_pos (f : Format) (hf : f.emin ≤ -54) (x y : Binary) (hx : x ≠ nan)
    (hy : y ≠ nan) (hl : Large x ∨ Large y) :
    lt (fin false 0) (sqrt f (add binary32 (mul binary32 x x) (mul binary32 y y))) = true ∧
    lt (fin false 0)
      (toFormat binary32
        (sqrt f (add binary32 (mul binary32 x x) (mul binary32 y y)))) = true := by
  apply sqrt_large f hf
  rcases hl with hl | hl
  · exact (add_large _ _ (mul_self_large x hl) (mul_self_of_ne_nan y hy)).1
  · exact (add_large _ _ (mul_self_large y hl) (mul_self_of_ne_nan x hx)).2

/-- The difference of a datum with itself is a zero or a NaN. -/
theorem sub_self_zero (f : Format) (x : Binary) :
    sub f x x = nan ∨ IsZero (sub f x x) := by
  cases x with
  | nan => exact Or.inl rfl
  | inf s => left; cases s <;> rfl
  | fin s p =>
    right
    have : signed s p + signed (!s) p = 0 := by cases s <;> simp [signed]
    simp [sub, neg, add, this, IsZero]

end Binary

/-! ## Normalisation: theorems -/

/-- The conversion of a `ULONG` to `LONG` lands in the range of `LONG`. -/
theorem toLONG_range (x : Nat) : -2 ^ 31 ≤ toLONG x ∧ toLONG x ≤ 2 ^ 31 := by
  unfold toLONG
  have h : x % 2 ^ 32 < 2 ^ 32 := Nat.mod_lt _ (by norm_num)
  split_ifs <;> omega

/-- The zero of the IEEE instance. -/
theorem IEEE.ofInt_zero (lib : Libm) : (ofInt 0 : IEEE lib) = Binary.fin false 0 := by
  show Binary.ofRat binary32 ((0 : Int) : ℚ) = Binary.fin false 0
  rw [Int.cast_zero, Binary.ofRat_zero]

/-- The format in which `sqrt` rounds reaches down to `2^-54` in its normal range. -/
theorem Libm.sqrt_emin (lib : Libm) :
    (if lib.sqrtDouble then binary64 else binary32).emin ≤ -54 := by
  cases lib.sqrtDouble <;> decide

/-- In a session whose position is the scaled position of a contact, on a slot whose
height is a `LONG`, both components of the displacement of any contact are coarse. -/
theorem IEEE.displacement_coarse (lib : Libm) (s : ScrollSession (IEEE lib))
    (contact anchor : Contact)
    (hanchor : s.position_ =
      s.ScaleVector ⟨toLONG anchor.logicalX, toLONG anchor.logicalY⟩)
    (hlow : -2 ^ 31 ≤ s.contactInfo_.logicalArea.bottom - s.contactInfo_.logicalArea.top)
    (hhigh : s.contactInfo_.logicalArea.bottom - s.contactInfo_.logicalArea.top < 2 ^ 31) :
    Binary.Coarse (displacement s contact).x_ ∧ Binary.Coarse (displacement s contact).y_ := by
  have hq : ∀ a b : Nat,
      Binary.Coarse (Binary.sub binary32
        (Binary.div binary32 (Binary.ofRat binary32 ((toLONG a : Int) : ℚ))
          (Binary.ofRat binary32
            ((s.contactInfo_.logicalArea.bottom - s.contactInfo_.logicalArea.top : Int) : ℚ)))
        (Binary.div binary32 (Binary.ofRat binary32 ((toLONG b : Int) : ℚ))
          (Binary.ofRat binary32
            ((s.contactInfo_.logicalArea.bottom - s.contactInfo_.logicalArea.top : Int) : ℚ)))) := by
    intro a b
    apply Binary.sub_coarse
    · exact Binary.div_int_onGrid _ _ (toLONG_range a).1 (toLONG_range a).2 hlow (by omega)
    · exact Binary.div_int_onGrid _ _ (toLONG_range b).1 (toLONG_range b).2 hlow (by omega)
  unfold displacement
  rw [hanchor]
  exact ⟨hq contact.logicalX anchor.logicalX, hq contact.logicalY anchor.logicalY⟩

/-- In the IEEE instance the tests of a session read as tests on data: the dot-product
tests and the norm of the displacement. -/
theorem IEEE.norm_pos_of_large (lib : Libm) (d : Vector (IEEE lib))
    (hx : d.x_ ≠ Binary.nan) (hy : d.y_ ≠ Binary.nan)
    (hl : Binary.Large d.x_ ∨ Binary.Large d.y_) :
    FloatArith.lt (ofInt 0) d.Norm = true ∧
    FloatArith.lt (ofInt 0) (FloatArith.toFloat d.Norm) = true := by
  rw [IEEE.ofInt_zero]
  exact Binary.norm_pos _ lib.sqrt_emin d.x_ d.y_ hx hy hl

/-- C28. Normalisation is never applied to a zero displacement, in IEEE 754 arithmetic
(`float` as binary32, `double` as binary64, round to nearest even, gradual underflow),
whatever the library `acos` returns and at whichever width `sqrt` rounds.  The session
holds as its position the scaled position of a contact, which the constructor
establishes (d) and every `Update` preserves together with the slot and the settings
(e); the height of its slot is a `LONG`; and its settings snapshot has
`startDeadzone, moveDeadzone, reverseDeadzone >= 0`.  (a) Whenever `StartScrolling`
calls the sink, the displacement `d` it passes to `Scroll` has a norm above zero, the
norm converted to `float` is above zero as well, and the committed direction is `d`
divided by it.  (b) The same holds of `ContinueScrolling`.  (c) For a contact at the
committed position both leave the session as it is and call nothing, and so does
`Update` on a frame whose tracked contact is at the committed position. -/
theorem normalization_of_nonzero_displacement (lib : Libm) (s : ScrollSession (IEEE lib))
    (contact anchor : Contact)
    (hanchor : s.position_ =
      s.ScaleVector ⟨toLONG anchor.logicalX, toLONG anchor.logicalY⟩)
    (hlow : -2 ^ 31 ≤ s.contactInfo_.logicalArea.bottom - s.contactInfo_.logicalArea.top)
    (hhigh : s.contactInfo_.logicalArea.bottom - s.contactInfo_.logicalArea.top < 2 ^ 31)
    (hsd : FloatOrder.le (ofInt 0) s.settings_.startDeadzone = true)
    (hmd : FloatOrder.le (ofInt 0) s.settings_.moveDeadzone = true)
    (hrd : FloatOrder.le (ofInt 0) s.settings_.reverseDeadzone = true) :
    ((s.StartScrolling contact).2 ≠ [] →
      FloatArith.lt (ofInt 0) (displacement s contact).Norm = true ∧
      FloatArith.lt (ofInt 0) (FloatArith.toFloat (displacement s contact).Norm) = true ∧
      (s.StartScrolling contact).1.direction_ =
        (displacement s contact).divScalar
          (FloatArith.toFloat (displacement s contact).Norm)) ∧
    ((s.ContinueScrolling contact).2 ≠ [] →
      FloatArith.lt (ofInt 0) (displacement s contact).Norm = true ∧
      FloatArith.lt (ofInt 0) (FloatArith.toFloat (displacement s contact).Norm) = true ∧
      (s.ContinueScrolling contact).1.direction_ =
        (displacement s contact).divScalar
          (FloatArith.toFloat (displacement s contact).Norm)) ∧
    (s.ScaleVector ⟨toLONG contact.logicalX, toLONG contact.logicalY⟩ = s.position_ →
      s.StartScrolling contact = (s, []) ∧ s.ContinueScrolling contact = (s, []) ∧
      ∀ frame, tracked s frame = some contact → (s.Update frame).2 = (s, [])) ∧
    (∀ (device : TouchDevice) (c : Contact) (dir : Vector (IEEE lib)) (sens : IEEE lib)
        (g : GlobalSettings (IEEE lib)) (scr : ScrollerRef) (s' : ScrollSession (IEEE lib)),
      ScrollSession.ctor device c dir sens g scr = some s' →
      s'.position_ = s'.ScaleVector ⟨toLONG c.logicalX, toLONG c.logicalY⟩) ∧
    (∀ frame : List Contact,
      (∃ anchor' : Contact, (s.Update frame).2.1.position_ =
        (s.Update frame).2.1.ScaleVector
          ⟨toLONG anchor'.logicalX, toLONG anchor'.logicalY⟩) ∧
      (s.Update frame).2.1.contactInfo_ = s.contactInfo_ ∧
      (s.Update frame).2.1.settings_ = s.settings_) := by
  have hz := IEEE.ofInt_zero lib
  have hsd' : Binary.le (Binary.fin false 0) s.settings_.startDeadzone = true := by
    have h := hsd
    rw [hz] at h
    exact h
  have hmd' : Binary.le (Binary.fin false 0) s.settings_.moveDeadzone = true := by
    have h := hmd
    rw [hz] at h
    exact h
  have hrd' : Binary.le (Binary.fin false 0) s.settings_.reverseDeadzone = true := by
    have h := hrd
    rw [hz] at h
    exact h
  -- what the two kinds of test say about the displacement
  have hdot : ∀ (c : Contact) (t : IEEE lib), Binary.Coarse (displacement s c).x_ →
      Binary.Coarse (displacement s c).y_ → Binary.le (Binary.fin false 0) t = true →
      (FloatArith.lt t ((displacement s c).dot s.direction_) = true ∨
        FloatArith.lt ((displacement s c).dot s.direction_) (-t) = true) →
      (displacement s c).x_ ≠ Binary.nan ∧ (displacement s c).y_ ≠ Binary.nan ∧
        (Binary.Large (displacement s c).x_ ∨ Binary.Large (displacement s c).y_) := by
    intro c t cx cy ht h
    exact Binary.dot_large _ _ s.direction_.x_ s.direction_.y_ t cx cy ht h
  have hnorm : ∀ (c : Contact) (t : IEEE lib), Binary.Coarse (displacement s c).x_ →
      Binary.Coarse (displacement s c).y_ → Binary.le (Binary.fin false 0) t = true →
      FloatArith.lt t (displacement s c).Norm = true →
      (displacement s c).x_ ≠ Binary.nan ∧ (displacement s c).y_ ≠ Binary.nan ∧
        (Binary.Large (displacement s c).x_ ∨ Binary.Large (displacement s c).y_) := by
    intro c t cx cy ht h
    exact Binary.norm_large _ _ _ t cx cy ht h
  -- which test lets each member call `Scroll`
  have hstart : ∀ c : Contact, (s.StartScrolling c).2 ≠ [] →
      (FloatArith.lt s.settings_.startDeadzone ((displacement s c).dot s.direction_) = true ∨
        FloatArith.lt ((displacement s c).dot s.direction_)
          (-s.settings_.startDeadzone) = true) := by
    intro c hne
    unfold ScrollSession.StartScrolling at hne
    simp only at hne
    split_ifs at hne with h1 h2
    · simp only [Bool.and_eq_true] at h1
      exact Or.inl h1.2
    · simp only [Bool.and_eq_true] at h2
      exact Or.inr h2.2
    · exact absurd rfl hne
  have hcont : ∀ c : Contact, (s.ContinueScrolling c).2 ≠ [] →
      (FloatArith.lt s.settings_.reverseDeadzone (displacement s c).Norm = true ∨
        FloatArith.lt s.settings_.moveDeadzone
          ((displacement s c).dot s.direction_) = true) := by
    intro c hne
    unfold ScrollSession.ContinueScrolling at hne
    simp only at hne
    split_ifs at hne with h1 h2 h3
    · exact Or.inl h2
    · exact absurd rfl hne
    · simpa only [Bool.or_eq_true] using h3
    · exact absurd rfl hne
  have hdirS : ∀ c : Contact, (s.StartScrolling c).2 ≠ [] →
      (s.StartScrolling c).1.direction_ =
        (displacement s c).divScalar (FloatArith.toFloat (displacement s c).Norm) := by
    intro c hne
    unfold ScrollSession.StartScrolling at hne ⊢
    simp only at hne ⊢
    split_ifs at hne ⊢
    · rfl
    · rfl
    · exact absurd rfl hne
  have hdirC : ∀ c : Contact, (s.ContinueScrolling c).2 ≠ [] →
      (s.ContinueScrolling c).1.direction_ =
        (displacement s c).divScalar (FloatArith.toFloat (displacement s c).Norm) := by
    intro c hne
    unfold ScrollSession.ContinueScrolling at hne ⊢
    simp only at hne ⊢
    split_ifs at hne ⊢
    · rfl
    · exact absurd rfl hne
    · rfl
    · exact absurd rfl hne
  have hquietS : ∀ c : Contact, (s.StartScrolling c).2 = [] → s.StartScrolling c = (s, []) := by
    intro c he
    unfold ScrollSession.StartScrolling at he ⊢
    simp only at he ⊢
    split_ifs at he ⊢
    rfl
  have hquietC : ∀ c : Contact, (s.ContinueScrolling c).2 = [] →
      s.ContinueScrolling c = (s, []) := by
    intro c he
    unfold ScrollSession.ContinueScrolling at he ⊢
    simp only at he ⊢
    split_ifs at he ⊢ <;> first | rfl | simp [ScrollSession.Scroll] at he
  obtain ⟨cx, cy⟩ := IEEE.displacement_coarse lib s contact anchor hanchor hlow hhigh
  refine ⟨?_, ?_, ?_, ?_, ?_⟩
  · intro hne
    obtain ⟨nx, ny, hl⟩ := hdot contact _ cx cy hsd' (hstart contact hne)
    obtain ⟨p1, p2⟩ := IEEE.norm_pos_of_large lib _ nx ny hl
    exact ⟨p1, p2, hdirS contact hne⟩
  · intro hne
    have hl : (displacement s contact).x_ ≠ Binary.nan ∧
        (displacement s contact).y_ ≠ Binary.nan ∧
        (Binary.Large (displacement s contact).x_ ∨
          Binary.Large (displacement s contact).y_) := by
      rcases hcont contact hne with h | h
      · exact hnorm contact _ cx cy hrd' h
      · exact hdot contact _ cx cy hmd' (Or.inl h)
    obtain ⟨p1, p2⟩ := IEEE.norm_pos_of_large lib _ hl.1 hl.2.1 hl.2.2
    exact ⟨p1, p2, hdirC contact hne⟩
  · intro hsame
    have hd : displacement s contact = s.position_.sub s.position_ := by
      simp only [displacement, hsame]
    have zx : (displacement s contact).x_ = Binary.nan ∨
        Binary.IsZero (displacement s contact).x_ := by
      rw [hd]
      exact Binary.sub_self_zero binary32 s.position_.x_
    have zy : (displacement s contact).y_ = Binary.nan ∨
        Binary.IsZero (displacement s contact).y_ := by
      rw [hd]
      exact Binary.sub_self_zero binary32 s.position_.y_
    have cx0 : Binary.Coarse (displacement s contact).x_ := by
      rcases zx with h | h
      · exact Or.inl h
      · exact Or.inr (Or.inl h)
    have cy0 : Binary.Coarse (displacement s contact).y_ := by
      rcases zy with h | h
      · exact Or.inl h
      · exact Or.inr (Or.inl h)
    have hno : ¬ ((displacement s contact).x_ ≠ Binary.nan ∧
        (displacement s contact).y_ ≠ Binary.nan ∧
        (Binary.Large (displacement s contact).x_ ∨
          Binary.Large (displacement s contact).y_)) := by
      rintro ⟨nx, ny, hl⟩
      have notLarge : ∀ z : Binary, Binary.IsZero z → ¬ Binary.Large z := by
        intro z hz hlz
        cases z with
        | nan => exact hz
        | inf b => exact hz
        | fin b q =>
          have h0 : q = 0 := hz
          have h1 : (2 : ℚ) ^ (-54 : Int) ≤ q := hlz
          rw [h0] at h1
          have : (0 : ℚ) < (2 : ℚ) ^ (-54 : Int) := by positivity
          linarith
      rcases hl with hl | hl
      · rcases zx with h | h
        · exact nx h
        · exact notLarge _ h hl
      · rcases zy with h | h
        · exact ny h
        · exact notLarge _ h hl
    have hS : s.StartScrolling contact = (s, []) := by
      apply hquietS
      by_contra hne
      exact hno (hdot contact _ cx0 cy0 hsd' (hstart contact hne))
    have hC : s.ContinueScrolling contact = (s, []) := by
      apply hquietC
      by_contra hne
      rcases hcont contact hne with h | h
      · exact hno (hnorm contact _ cx0 cy0 hrd' h)
      · exact hno (hdot contact _ cx0 cy0 hmd' (Or.inl h))
    refine ⟨hS, hC, ?_⟩
    intro frame htr
    rw [ScrollSession.Update_eq, htr]
    simp only
    split_ifs
    · rfl
    · rw [hS]
    · rw [hC]
  · intro device c dir sens g scr s' hs
    unfold ScrollSession.ctor at hs
    cases hci : device.GetContactInfo c.contactInfoLink with
    | none => rw [hci] at hs; simp at hs
    | some ci =>
      rw [hci] at hs
      simp only [Option.some.injEq] at hs
      subst hs
      rfl
  · intro frame
    have hS : ∀ c : Contact,
        (∃ anchor' : Contact, (s.StartScrolling c).1.position_ =
          (s.StartScrolling c).1.ScaleVector
            ⟨toLONG anchor'.logicalX, toLONG anchor'.logicalY⟩) ∧
        (s.StartScrolling c).1.contactInfo_ = s.contactInfo_ ∧
        (s.StartScrolling c).1.settings_ = s.settings_ := by
      intro c
      unfold ScrollSession.StartScrolling
      simp only
      split_ifs
      · exact ⟨⟨c, rfl⟩, rfl, rfl⟩
      · exact ⟨⟨c, rfl⟩, rfl, rfl⟩
      · exact ⟨⟨anchor, hanchor⟩, rfl, rfl⟩
    have hC : ∀ c : Contact,
        (∃ anchor' : Contact, (s.ContinueScrolling c).1.position_ =
          (s.ContinueScrolling c).1.ScaleVector
            ⟨toLONG anchor'.logicalX, toLONG anchor'.logicalY⟩) ∧
        (s.ContinueScrolling c).1.contactInfo_ = s.contactInfo_ ∧
        (s.ContinueScrolling c).1.settings_ = s.settings_ := by
      intro c
      unfold ScrollSession.ContinueScrolling
      simp only
      split_ifs
      · exact ⟨⟨c, rfl⟩, rfl, rfl⟩
      · exact ⟨⟨anchor, hanchor⟩, rfl, rfl⟩
      · exact ⟨⟨c, rfl⟩, rfl, rfl⟩
      · exact ⟨⟨anchor, hanchor⟩, rfl, rfl⟩
    rw [ScrollSession.Update_eq]
    cases tracked s frame with
    | none => exact ⟨⟨anchor, hanchor⟩, rfl, rfl⟩
    | some c =>
      simp only
      split_ifs
      · exact ⟨⟨anchor, hanchor⟩, rfl, rfl⟩
      · exact hS c
      · exact hC c

/-- The deadzones of the concrete IEEE session are not negative. -/
theorem exSessionFloat_deadzones :
    FloatOrder.le (ofInt 0) exSessionFloat.settings_.startDeadzone = true ∧
    FloatOrder.le (ofInt 0) exSessionFloat.settings_.moveDeadzone = true ∧
    FloatOrder.le (ofInt 0) exSessionFloat.settings_.reverseDeadzone = true := by
  refine ⟨?_, ?_, ?_⟩ <;> decide!

/-- The displacement of the contact `(190, 75)` from the concrete IEEE session is
`(0, 1/4)`, and its dot product with the direction is `1/4`. -/
theorem exSessionFloat_displacement :
    displacement exSessionFloat (exContact 1 0 true 190 75) =
      ⟨Binary.fin false 0, Binary.fin false (1 / 4)⟩ ∧
    (displacement exSessionFloat (exContact 1 0 true 190 75)).dot exSessionFloat.direction_ =
      Binary.fin false (1 / 4) := by
  constructor <;> decide!

/-- A session in IEEE arithmetic calls `Scroll` from `ContinueScrolling` when the squared
norm of the displacement is a number of at least `4^k` and the reverse deadzone is a
number below `2^k`, within the normal range of the format of `sqrt`. -/
theorem IEEE.ContinueScrolling_far (lib : Libm) (s : ScrollSession (IEEE lib))
    (c : Contact) (r t : ℚ) (k : Int) (hk : -126 ≤ k)
    (hn2 : (displacement s c).Norm2 = Binary.fin false r)
    (hrd : s.settings_.reverseDeadzone = Binary.fin false t)
    (ht : t < (2 : ℚ) ^ k) (hr : (2 : ℚ) ^ (2 * k) ≤ r) :
    (s.ContinueScrolling c).2 ≠ [] := by
  have hemin : (if lib.sqrtDouble then binary64 else binary32).emin ≤ k := by
    cases lib.sqrtDouble
    · exact hk
    · exact le_trans (by decide) hk
  have hw := Format.le_sqrtMag (if lib.sqrtDouble then binary64 else binary32) r k hemin hr
  have hr0 : r ≠ 0 := ne_of_gt (lt_of_lt_of_le (by positivity) hr)
  have hfar : FloatArith.lt s.settings_.reverseDeadzone (displacement s c).Norm = true := by
    rw [hrd]
    show Binary.lt (Binary.fin false t)
      (Binary.sqrt (if lib.sqrtDouble then binary64 else binary32)
        (displacement s c).Norm2) = true
    rw [hn2]
    simp only [Binary.sqrt, hr0, if_false, Bool.false_eq_true, Binary.lt, Binary.signed,
      decide_eq_true_eq]
    exact lt_of_lt_of_le ht hw
  have hfar2 : FloatArith.lt s.settings_.reverseDeadzone
      ((s.ScaleVector ⟨toLONG c.logicalX, toLONG c.logicalY⟩).sub s.position_).Norm =
        true := hfar
  unfold ScrollSession.ContinueScrolling
  simp only [hfar2, Bool.true_or, if_true]
  split_ifs <;> simp [ScrollSession.Scroll]

/-- The squared norm of the displacement of the contact `(190, 75)` from the concrete
IEEE session, and the reverse deadzone of that session. -/
theorem exSessionFloat_far :
    (displacement exSessionFloat (exContact 1 0 true 190 75)).Norm2 =
      Binary.fin false (1 / 16) ∧
    exSessionFloat.settings_.reverseDeadzone = Binary.fin false (1 / 8) := by
  constructor <;> decide!

/-- C28, evaluated on the vertical example session in IEEE arithmetic: the pulse for
the contact `(190, 75)` normalises a displacement whose norm is above zero, and the
contact `(190, 50)` at the committed position is discarded. -/
theorem normalization_of_nonzero_displacement_witness :
    (FloatArith.lt (ofInt 0)
        (displacement exSessionFloat (exContact 1 0 true 190 75)).Norm = true ∧
      FloatArith.lt (ofInt 0)
        (FloatArith.toFloat
          (displacement exSessionFloat (exContact 1 0 true 190 75)).Norm) = true) ∧
    exSessionFloat.ContinueScrolling (exContact 1 0 true 190 50) = (exSessionFloat, []) :=
  have w1 := (normalization_of_nonzero_displacement exLibm exSessionFloat
    (exContact 1 0 true 190 75) (exContact 1 0 true 190 50) rfl (by decide) (by decide)
    exSessionFloat_deadzones.1 exSessionFloat_deadzones.2.1
    exSessionFloat_deadzones.2.2).2.1
      (IEEE.ContinueScrolling_far exLibm exSessionFloat (exContact 1 0 true 190 75)
        (1 / 16) (1 / 8) (-2) (by decide) exSessionFloat_far.1 exSessionFloat_far.2
        (by norm_num) (by norm_num))
  have w2 := (normalization_of_nonzero_displacement exLibm exSessionFloat
    (exContact 1 0 true 190 50) (exContact 1 0 true 190 50) rfl (by decide) (by decide)
    exSessionFloat_deadzones.1 exSessionFloat_deadzones.2.1
    exSessionFloat_deadzones.2.2).2.2.1 rfl
  ⟨⟨w1.1, w1.2.1⟩, w2.2.1⟩

/-! ## Typing lockout before the first keyboard event: theorems -/

namespace ChiralScroll

/-- Destroying the session does not touch the keyboard time. -/
theorem resetSession_time {R : Type} [FloatArith R] (cs : ChiralScroll R) :
    cs.resetSession.1.lastKeyboardTime_ = cs.lastKeyboardTime_ := by
  unfold resetSession
  split <;> rfl

/-- Installing a session does not touch the keyboard time. -/
theorem assignSession_time {R : Type} [FloatArith R] (cs : ChiralScroll R)
    (session : TouchSession R) :
    (cs.assignSession session).1.lastKeyboardTime_ = cs.lastKeyboardTime_ := by
  unfold assignSession
  split <;> rfl

/-- The member `StartScrollingSession` does not touch the keyboard time. -/
theorem StartScrollingSession_time {R : Type} [FloatArith R] (cs cs' : ChiralScroll R)
    (device : TouchDevice) (contacts : List Contact) (events : List SinkEvent)
    (h : cs.StartScrollingSession device contacts = some (cs', events)) :
    cs'.lastKeyboardTime_ = cs.lastKeyboardTime_ := by
  unfold StartScrollingSession at h
  simp only at h
  split at h
  · simp at h
  · split at h
    · simp at h
    · split_ifs at h
      · split at h
        · simp at h
        · simp only [Option.some.injEq] at h
          have e := congrArg (fun r => r.1.lastKeyboardTime_) h
          simp only at e
          rw [← e]
          exact assignSession_time _ _
      · split at h
        · simp at h
        · simp only [Option.some.injEq] at h
          have e := congrArg (fun r => r.1.lastKeyboardTime_) h
          simp only at e
          rw [← e]
          exact assignSession_time _ _
      · simp only [Option.some.injEq, Prod.mk.injEq] at h
        rw [← h.1]

/-- The member `ProcessTouch` does not touch the keyboard time. -/
theorem ProcessTouch_time {R : Type} [FloatArith R] (cs cs' : ChiralScroll R) (now : Int)
    (device : TouchDevice) (contacts : List Contact) (events : List SinkEvent)
    (h : cs.ProcessTouch now device contacts = some (cs', events)) :
    cs'.lastKeyboardTime_ = cs.lastKeyboardTime_ := by
  unfold ProcessTouch at h
  simp only at h
  have hstep : ∀ (step : Option (ChiralScroll R × List SinkEvent)),
      (∀ c2 e2, step = some (c2, e2) → c2.lastKeyboardTime_ = cs.lastKeyboardTime_) →
      (match step with
        | none => none
        | some (cs2, events) =>
          if (cs2.touchSession_.isNone && contacts.any fun contact => contact.isTouch) = true then
            some ((cs2.assignSession (TouchSession.NonScrollSession device.addr)).1,
              events ++ (cs2.assignSession (TouchSession.NonScrollSession device.addr)).2)
          else some (cs2, events)) = some (cs', events) →
      cs'.lastKeyboardTime_ = cs.lastKeyboardTime_ := by
    intro step hs hm
    cases step with
    | none => simp at hm
    | some r =>
      obtain ⟨c2, e2⟩ := r
      simp only at hm
      have h2 := hs c2 e2 rfl
      split_ifs at hm
      · simp only [Option.some.injEq, Prod.mk.injEq] at hm
        rw [← hm.1, assignSession_time, h2]
      · simp only [Option.some.injEq, Prod.mk.injEq] at hm
        rw [← hm.1, h2]
  have helse : ∀ (c0 : ChiralScroll R) (ds : DeviceSettings R) c2 e2,
      c0.lastKeyboardTime_ = cs.lastKeyboardTime_ →
      (if ShouldStartScrollingSession c0 now ds contacts = true then
          StartScrollingSession c0 device contacts
        else some (c0, [])) = some (c2, e2) →
      c2.lastKeyboardTime_ = cs.lastKeyboardTime_ := by
    intro c0 ds c2 e2 h0 he
    split at he
    · exact (StartScrollingSession_time _ _ _ _ _ he).trans h0
    · simp only [Option.some.injEq, Prod.mk.injEq] at he
      rw [← he.1, h0]
  split at h
  · simp only [Option.some.injEq] at h
    have e := congrArg (fun r => r.1.lastKeyboardTime_) h
    simp only at e
    rw [← e]
    exact resetSession_time _
  · refine hstep _ ?_ h
    intro c2 e2 hc
    split at hc
    · split at hc
      · split at hc
        · simp only [Option.some.injEq, Prod.mk.injEq] at hc
          rw [← hc.1]
          exact resetSession_time _
        · simp only [Option.some.injEq, Prod.mk.injEq] at hc
          rw [← hc.1]
      · refine helse _ _ c2 e2 ?_ hc
        rfl
    · refine helse _ _ c2 e2 ?_ hc
      rfl

end ChiralScroll

/-- C29. No lockout before the first keyboard event.  The constructor sets the keyboard
time to the infinite past, and neither `ProcessTouch` nor `SetSettings` changes it; only
`ProcessKeyboard` writes it.  While it is the infinite past, the elapsed time is the
largest 64-bit integer and exceeds every `int` value of `typingLockoutMs`, at every
clock value, so the start test holds exactly of the frames that consist of one contact,
with identifier 0, that is touching. -/
theorem no_lockout_before_first_keyboard_event {R : Type} [FloatArith R]
    (cs : ChiralScroll R) (now : Int) (ds : DeviceSettings R) (contacts : List Contact)
    (hpast : cs.lastKeyboardTime_ = Time.InfinitePast)
    (hint : ds.typingLockoutMs ≤ 2 ^ 31 - 1) :
    ToInt64Milliseconds now cs.lastKeyboardTime_ > ds.typingLockoutMs ∧
    (cs.ShouldStartScrollingSession now ds contacts = true ↔
      ∃ c, contacts = [c] ∧ c.id = 0 ∧ c.isTouch = true) ∧
    (∀ settings : Settings R,
      (ChiralScroll.ctor settings).lastKeyboardTime_ = Time.InfinitePast) ∧
    (∀ (now2 : Int) (device : TouchDevice) (frame : List Contact) (cs' : ChiralScroll R)
        (events : List SinkEvent),
      cs.ProcessTouch now2 device frame = some (cs', events) →
      cs'.lastKeyboardTime_ = Time.InfinitePast) ∧
    (∀ settings : Settings R,
      (cs.SetSettings settings).lastKeyboardTime_ = Time.InfinitePast) := by
  have ht : ToInt64Milliseconds now cs.lastKeyboardTime_ > ds.typingLockoutMs := by
    rw [hpast]
    show ds.typingLockoutMs < 2 ^ 63 - 1
    have : (2 : Int) ^ 31 - 1 < 2 ^ 63 - 1 := by norm_num
    omega
  refine ⟨ht, ?_, fun _ => rfl, ?_, fun _ => hpast⟩
  · constructor
    · intro h
      unfold ChiralScroll.ShouldStartScrollingSession at h
      split at h
      · rename_i c
        simp only [Bool.and_eq_true, beq_iff_eq] at h
        exact ⟨c, rfl, h.1.1, h.1.2⟩
      · simp at h
    · rintro ⟨c, rfl, hid, htouch⟩
      simp [ChiralScroll.ShouldStartScrollingSession, hid, htouch, ht]
  · intro now2 device frame cs' events h
    rw [ChiralScroll.ProcessTouch_time cs cs' now2 device frame events h, hpast]

/-- C29, evaluated: a new arbiter with a typing lockout of 500 ms accepts a single
touching contact with identifier 0 at clock value 0. -/
theorem no_lockout_before_first_keyboard_event_witness :
    (exArbiter none Time.InfinitePast).ShouldStartScrollingSession 0 exDeviceSettings
      [exContact 1 0 true 190 50] = true :=
  (no_lockout_before_first_keyboard_event (exArbiter none Time.InfinitePast) 0
    exDeviceSettings [exContact 1 0 true 190 50] rfl (by decide)).2.1.mpr
    ⟨exContact 1 0 true 190 50, rfl, rfl, rfl⟩

/-! ## Vector.h: scalar products -/

/-- C30, as the code has it.  The left scalar product builds both components from the
first component of the vector: `s * (x, y)` is `(s*x, s*x)`, while the right scalar
product `(x, y) * s` is `(x*s, y*s)`.  With `s = 2` and `v = (1, 3)` the left product is
`(2, 2)` and the right product is `(2, 6)`; over the integers the two agree exactly
when `s*x = s*y`. -/
theorem left_scalar_product_drops_second_component :
    (∀ (s : Int) (v : Vector Int), Vector.scalarMul s v = ⟨s * v.x_, s * v.x_⟩) ∧
    (∀ (s : Int) (v : Vector Int), Vector.mulScalar v s = ⟨v.x_ * s, v.y_ * s⟩) ∧
    Vector.scalarMul (2 : Int) ⟨1, 3⟩ = ⟨2, 2⟩ ∧
    Vector.mulScalar (⟨1, 3⟩ : Vector Int) 2 = ⟨2, 6⟩ ∧
    Vector.scalarMul (2 : Int) ⟨1, 3⟩ ≠ Vector.mulScalar ⟨1, 3⟩ 2 ∧
    (∀ (s : Int) (v : Vector Int),
      Vector.scalarMul s v = Vector.mulScalar v s ↔ s * v.x_ = s * v.y_) := by
  refine ⟨fun _ _ => rfl, fun _ _ => rfl, rfl, rfl, by decide, ?_⟩
  intro s v
  simp only [Vector.scalarMul, Vector.mulScalar, Vector.mk.injEq]
  constructor
  · rintro ⟨_, h⟩
    rw [h, mul_comm]
  · intro h
    exact ⟨mul_comm _ _, by rw [h, mul_comm]⟩

end chiralscroll
